import Mathlib

/-!
# cloudflare-go: Access identity providers and Spectrum applications

A shallow embedding of `access_identity_provider.go` and `spectrum.go`.

The six API methods are translated line by line.  They call three things that
live outside the two files:

* `api.makeRequest` (the transport of the client) is a parameter of every
  operation;
* the message constants `errMakeRequestError` and `errUnmarshalError` are
  parameters (fields of `API`);
* `encoding/json`, `time`, `fmt` and `github.com/pkg/errors` are libraries.
  Their behaviour on the types that occur in the two files is modelled below:
  struct tags, exact-then-case-insensitive key matching, the effect of `null`,
  duplicate keys, decoding into `interface{}` (numbers must fit a `float64`),
  the layout `time.RFC3339` as `time.Parse` reads it, the bytes of a Go string
  and their coercion to UTF-8 by `json.Marshal`, the text `json.Marshal`
  writes, the call site that `errors.Wrap` records, the verb `%s`.

Go values are represented by `GoVal`, Go types by `Ty`; a struct type is the
list of its fields (Go name, `json` tag text, type), exactly as the reflection
based encoder sees it.  A Go string is the list of its bytes.  A response body
is a text.
-/

namespace Cloudflare

/-! ## JSON documents -/

/-- A JSON document.  A number keeps its literal text.  A string keeps its
decoded text and whether its literal was written with a backslash escape. -/
inductive Json where
  | null
  | bool (b : Bool)
  | num (lit : String)
  | str (s : String) (esc : Bool)
  | arr (xs : List Json)
  | obj (kvs : List (String × Json))

/-! ## Instants (`time.Time`) -/

/-- An instant: seconds since the Unix epoch, nanoseconds within the second,
and the zone it was written in: `none` for `Z` (UTC), otherwise the offset in
seconds. -/
structure Time where
  unixSec : Int
  nsec : Nat
  zone : Option Int
  deriving DecidableEq, Repr

/-- The value of a decimal digit. -/
def digitVal (c : Char) : Option Nat :=
  if 48 ≤ c.toNat ∧ c.toNat ≤ 57 then some (c.toNat - 48) else none

/-- The value of a run of decimal digits, most significant first. -/
def digitsVal : List Char → Nat → Option Nat
  | [], acc => some acc
  | c :: cs, acc =>
    match digitVal c with
    | some d => digitsVal cs (acc * 10 + d)
    | none => none

/-- Leap years of the proleptic Gregorian calendar. -/
def isLeap (y : Nat) : Bool :=
  y % 4 == 0 && (y % 100 != 0 || y % 400 == 0)

/-- Number of days of month `m` (1..12) in year `y`. -/
def daysIn (m y : Nat) : Nat :=
  if m == 2 then (if isLeap y then 29 else 28)
  else if m == 4 || m == 6 || m == 9 || m == 11 then 30 else 31

/-- Days from 1970-01-01 to the civil date `y-m-d`, computed by eras of 400
years. -/
def daysFromCivil (y m d : Nat) : Int :=
  let y1 : Int := if m ≤ 2 then (y : Int) - 1 else (y : Int)
  let era : Int := y1 / 400
  let yoe : Int := y1 - era * 400
  let mp : Int := if m > 2 then (m : Int) - 3 else (m : Int) + 9
  let doy : Int := (153 * mp + 2) / 5 + (d : Int) - 1
  let doe : Int := yoe * 365 + yoe / 4 - yoe / 100 + doy
  era * 146097 + doe - 719468

/-- Function `getnum` of package `time`: one or two leading digits as a
number, and the rest; with `fixed`, two digits are required. -/
def getnum (s : List Char) (fixed : Bool) : Option (Nat × List Char) :=
  match s with
  | [] => none
  | a :: rest =>
    match digitVal a with
    | none => none
    | some x =>
      match rest with
      | [] => if fixed then none else some (x, rest)
      | b :: rest2 =>
        match digitVal b with
        | some y => some (x * 10 + y, rest2)
        | none => if fixed then none else some (x, rest)

/-- A literal character of the layout. -/
def skipChar (c : Char) (s : List Char) : Option (List Char) :=
  match s with
  | a :: rest => if a = c then some rest else none
  | [] => none

/-- The year of the layout (`2006`): exactly four digits. -/
def parseYear (s : List Char) : Option (Nat × List Char) :=
  match s with
  | a :: b :: c :: d :: rest => (digitsVal [a, b, c, d] 0).map (fun y => (y, rest))
  | _ => none

/-- Function `parseNanoseconds` of package `time`, on the digits after the
separator: the first nine digits, scaled to nanoseconds. -/
def parseNanoseconds (digits : List Char) : Option Nat :=
  (digitsVal (digits.take 9) 0).map (fun n => n * 10 ^ (9 - (digits.take 9).length))

/-- The fraction that may follow the seconds although the layout has none: a
period or a comma and at least one digit.  Gives the nanoseconds and the
rest. -/
def parseFraction (s : List Char) : Option (Nat × List Char) :=
  match s with
  | sep :: d :: more =>
    if (sep = '.' ∨ sep = ',') ∧ (digitVal d).isSome then
      (parseNanoseconds ((d :: more).takeWhile (fun c => (digitVal c).isSome))).map
        (fun ns => (ns, (d :: more).dropWhile (fun c => (digitVal c).isSome)))
    else some (0, s)
  | _ => some (0, s)

/-- The zone of the layout (`Z07:00`), which ends the text: `Z`, or a sign,
two digits, a colon and two digits; hours up to 24 and minutes up to 60 are
let through. -/
def parseZone (s : List Char) : Option (Option Int) :=
  match s with
  | 'Z' :: rest => if rest.isEmpty then some none else none
  | [sg, h1, h2, c, m1, m2] =>
    if c ≠ ':' then none else
    match getnum [h1, h2] true, getnum [m1, m2] true with
    | some (hr, _), some (mm, _) =>
      if hr > 24 ∨ mm > 60 then none
      else if sg = '+' then some (some (((hr * 60 + mm) * 60 : Nat) : Int))
      else if sg = '-' then some (some (-(((hr * 60 + mm) * 60 : Nat) : Int)))
      else none
    | _, _ => none
  | _ => none

/-- Model of `time.Parse(time.RFC3339, s)`, which `time.Time.UnmarshalJSON`
applies to the text between the quotes.  The layout is
`2006-01-02T15:04:05Z07:00`: a four digit year, two digit month and day, an
hour of one or two digits, two digit minute and second, an optional fraction,
the zone. -/
def parseRFC3339 (s : List Char) : Option Time :=
  match parseYear s with
  | none => none
  | some (year, s1) =>
  match (skipChar '-' s1).bind (fun r => getnum r true) with
  | none => none
  | some (month, s2) =>
  match (skipChar '-' s2).bind (fun r => getnum r true) with
  | none => none
  | some (day, s3) =>
  match (skipChar 'T' s3).bind (fun r => getnum r false) with
  | none => none
  | some (hour, s4) =>
  match (skipChar ':' s4).bind (fun r => getnum r true) with
  | none => none
  | some (min, s5) =>
  match (skipChar ':' s5).bind (fun r => getnum r true) with
  | none => none
  | some (sec, s6) =>
  match parseFraction s6 with
  | none => none
  | some (nsec, s7) =>
  match parseZone s7 with
  | none => none
  | some zone =>
    if 1 ≤ month ∧ month ≤ 12 ∧ 1 ≤ day ∧ day ≤ daysIn month year ∧ hour < 24 ∧ min < 60
        ∧ sec < 60 then
      some { unixSec := daysFromCivil year month day * 86400
                          + ((hour * 3600 + min * 60 + sec : Nat) : Int) - zone.getD 0
             nsec := nsec
             zone := zone }
    else none

/-! ## RFC 3339 timestamps, as the standard defines them -/

/-- The days of the years before year `y`, counted from year 0. -/
def daysBeforeYear : Nat → Nat
  | 0 => 0
  | y + 1 => daysBeforeYear y + (if isLeap y then 366 else 365)

/-- The days of the months before month `m` in year `y`. -/
def daysBeforeMonth : Nat → Nat → Nat
  | 0, _ => 0
  | m + 1, y => if m = 0 then 0 else daysBeforeMonth m y + daysIn m y

/-- The number of days from 1970-01-01 to `y-m-d`, by counting the days of the
calendar (1970-01-01 is day 719528 from 0000-01-01). -/
def civilDays (y m d : Nat) : Int :=
  ((daysBeforeYear y + daysBeforeMonth m y + (d - 1) : Nat) : Int) - 719528

/-- A timestamp in the terms of RFC 3339: date, time of day, the digits of the
fraction of a second (none when it has no fraction), and the zone: `none` for
`Z`, otherwise the sign (`true` for `-`), hours and minutes of the offset. -/
structure Timestamp where
  year : Nat
  month : Nat
  day : Nat
  hour : Nat
  minute : Nat
  second : Nat
  fraction : List Nat
  zone : Option (Bool × Nat × Nat)

/-- The ranges RFC 3339 gives to the fields of a timestamp. -/
def Timestamp.wellFormed (t : Timestamp) : Prop :=
  t.year ≤ 9999 ∧ 1 ≤ t.month ∧ t.month ≤ 12 ∧ 1 ≤ t.day ∧ t.day ≤ daysIn t.month t.year
    ∧ t.hour ≤ 23 ∧ t.minute ≤ 59 ∧ t.second ≤ 59 ∧ (∀ d ∈ t.fraction, d ≤ 9)
    ∧ (∀ z, t.zone = some z → z.2.1 ≤ 23 ∧ z.2.2 ≤ 59)

/-- The character of a digit. -/
def digitChar (n : Nat) : Char := Char.ofNat (48 + n)

/-- Two digits. -/
def twoDigits (n : Nat) : List Char := [digitChar (n / 10), digitChar (n % 10)]

/-- Four digits. -/
def fourDigits (n : Nat) : List Char :=
  [digitChar (n / 1000), digitChar (n / 100 % 10), digitChar (n / 10 % 10), digitChar (n % 10)]

/-- The zone as RFC 3339 writes it. -/
def zoneText : Option (Bool × Nat × Nat) → List Char
  | none => ['Z']
  | some (neg, hh, mm) => (if neg then '-' else '+') :: (twoDigits hh ++ ':' :: twoDigits mm)

/-- The fraction as RFC 3339 writes it: nothing, or a period and the
digits. -/
def fractionText : List Nat → List Char
  | [] => []
  | d :: ds => '.' :: (d :: ds).map digitChar

/-- The text of a timestamp: `YYYY-MM-DDTHH:MM:SS[.fraction](Z|±hh:mm)`. -/
def Timestamp.text (t : Timestamp) : String :=
  String.mk (fourDigits t.year ++ '-' :: (twoDigits t.month ++ '-' :: (twoDigits t.day ++
    'T' :: (twoDigits t.hour ++ ':' :: (twoDigits t.minute ++ ':' :: (twoDigits t.second ++
      (fractionText t.fraction ++ zoneText t.zone)))))))

/-- The number written by a list of digits. -/
def digitsNumber : List Nat → Nat → Nat
  | [], acc => acc
  | d :: ds, acc => digitsNumber ds (acc * 10 + d)

/-- The offset of a zone from UTC, in seconds. -/
def zoneSeconds : Option (Bool × Nat × Nat) → Option Int
  | none => none
  | some (neg, hh, mm) =>
    some (if neg then -(((hh * 60 + mm) * 60 : Nat) : Int) else (((hh * 60 + mm) * 60 : Nat) : Int))

/-- The instant a timestamp denotes: the seconds from 1970-01-01T00:00:00Z to
its date and time of day, less the offset of its zone; the fraction cut to
nanoseconds. -/
def Timestamp.instant (t : Timestamp) : Time :=
  { unixSec := civilDays t.year t.month t.day * 86400
                + ((t.hour * 3600 + t.minute * 60 + t.second : Nat) : Int)
                - (zoneSeconds t.zone).getD 0
    nsec := digitsNumber (t.fraction.take 9) 0 * 10 ^ (9 - (t.fraction.take 9).length)
    zone := zoneSeconds t.zone }

/-! ## Go strings and UTF-8 -/

/-- A Go string: the list of its bytes (numbers below 256). -/
abbrev GoString : Type := List Nat

/-- Whether `b` is a continuation byte in the range `lo`..`hi`. -/
def inRange (lo hi b : Nat) : Bool := decide (lo ≤ b) && decide (b ≤ hi)

/-- Function `utf8.DecodeRune`: the code point that the first bytes encode and
the number of those bytes; `none` where Go gives `(RuneError, 1)`: a byte that
starts no encoding, a truncated, over-long or surrogate encoding, a code point
beyond U+10FFFF. -/
def decodeRune (bs : GoString) : Option (Nat × Nat) :=
  match bs with
  | [] => none
  | b0 :: rest =>
    if b0 < 128 then some (b0, 1)
    else if inRange 194 223 b0 then
      match rest with
      | b1 :: _ => if inRange 128 191 b1 then some ((b0 - 192) * 64 + (b1 - 128), 2) else none
      | _ => none
    else if inRange 224 239 b0 then
      match rest with
      | b1 :: b2 :: _ =>
        if inRange (if b0 = 224 then 160 else 128) (if b0 = 237 then 159 else 191) b1
            && inRange 128 191 b2 then
          some (((b0 - 224) * 64 + (b1 - 128)) * 64 + (b2 - 128), 3)
        else none
      | _ => none
    else if inRange 240 244 b0 then
      match rest with
      | b1 :: b2 :: b3 :: _ =>
        if inRange (if b0 = 240 then 144 else 128) (if b0 = 244 then 143 else 191) b1
            && inRange 128 191 b2 && inRange 128 191 b3 then
          some ((((b0 - 240) * 64 + (b1 - 128)) * 64 + (b2 - 128)) * 64 + (b3 - 128), 4)
        else none
      | _ => none
    else none

/-- The runes of a Go string as `range` and `json.Marshal` walk it: a
character for each valid encoding, `none` for each byte that is not part of
one.  The first argument bounds the number of steps; the length of the string
is enough, since every step consumes a byte. -/
def decodeRunesAux : Nat → GoString → List (Option Char)
  | 0, _ => []
  | _ + 1, [] => []
  | n + 1, b :: bs =>
    match decodeRune (b :: bs) with
    | some (r, size) => some (Char.ofNat r) :: decodeRunesAux n ((b :: bs).drop size)
    | none => none :: decodeRunesAux n bs

/-- The runes of a Go string. -/
def decodeRunes (bs : GoString) : List (Option Char) := decodeRunesAux bs.length bs

/-- The replacement character U+FFFD. -/
def replacementChar : Char := Char.ofNat 65533

/-- The text of a Go string, with U+FFFD for each byte that is not part of a
valid encoding. -/
def textOf (bs : GoString) : List Char :=
  (decodeRunes bs).map (fun r => r.getD replacementChar)

/-- Whether a Go string is valid UTF-8 (`utf8.Valid`). -/
def validUTF8 (bs : GoString) : Bool := (decodeRunes bs).all Option.isSome

/-- The UTF-8 encoding of a code point. -/
def encodeRune (r : Nat) : GoString :=
  if r < 128 then [r]
  else if r < 2048 then [192 + r / 64, 128 + r % 64]
  else if r < 65536 then [224 + r / 4096, 128 + r / 64 % 64, 128 + r % 64]
  else [240 + r / 262144, 128 + r / 4096 % 64, 128 + r / 64 % 64, 128 + r % 64]

/-- The UTF-8 encoding of a list of characters. -/
def utf8Encode : List Char → GoString
  | [] => []
  | c :: cs => encodeRune c.toNat ++ utf8Encode cs

/-- The Go string of a text. -/
def goString (s : String) : GoString := utf8Encode s.data

/-! ## Go types and values -/

/-- The Go types that occur in the two files.  A struct is the list of its
fields: Go field name, the text of its `json` tag, field type. -/
inductive Ty where
  | string
  | bool
  | float64
  | ptrTime
  | iface
  | mapAny
  | slice (elem : Ty)
  | struct (fields : List (String × String × Ty))

/-- Go values.  `iface t v` is an interface holding the value `v` of dynamic
type `t`; `map` is a `map[string]interface{}` listed by ascending key; `float`
is a `float64`, represented by the number literal it was read from. -/
inductive GoVal where
  | str (s : GoString)
  | bool (b : Bool)
  | float (lit : String)
  | ptrNil
  | ptrTime (t : Time)
  | ifaceNil
  | iface (t : Ty) (v : GoVal)
  | sliceNil
  | slice (xs : List GoVal)
  | mapNil
  | map (kvs : List (GoString × GoVal))
  | struct (vs : List GoVal)

mutual
/-- The zero value of a Go type. -/
def zero : Ty → GoVal
  | .string => .str []
  | .bool => .bool false
  | .float64 => .float "0"
  | .ptrTime => .ptrNil
  | .iface => .ifaceNil
  | .mapAny => .mapNil
  | .slice _ => .sliceNil
  | .struct fs => .struct (zeroFields fs)
/-- The zero values of the fields of a struct. -/
def zeroFields : List (String × String × Ty) → List GoVal
  | [] => []
  | (_, _, t) :: fs => zero t :: zeroFields fs
end

/-! ## Struct tags and key matching -/

/-- The part of a `json` tag before the first comma. -/
def tagName (tag : String) : String :=
  String.mk (tag.data.takeWhile (fun c => c != ','))

/-- Split a list of characters at commas. -/
def splitCommas : List Char → List Char → List (List Char)
  | [], cur => [cur.reverse]
  | c :: cs, cur => if c = ',' then cur.reverse :: splitCommas cs [] else splitCommas cs (c :: cur)

/-- The options of a `json` tag: the comma separated words after the name. -/
def tagOptions (tag : String) : List String :=
  ((splitCommas tag.data []).drop 1).map String.mk

/-- Whether the tag carries the `omitempty` option. -/
def tagOmitEmpty (tag : String) : Bool :=
  (tagOptions tag).contains "omitempty"

/-- The JSON key of a field: the tag name, or the Go name when the tag gives
none.  (No field of the two files is tagged `-`.) -/
def fieldKey (f : String × String × Ty) : String :=
  if tagName f.2.1 = "" then f.1 else tagName f.2.1

/-- Case folding of one character as `encoding/json` folds key names: ASCII
letters to upper case, the long s to `S`, the Kelvin sign to `K`. -/
def foldRune (c : Char) : Char :=
  if 97 ≤ c.toNat ∧ c.toNat ≤ 122 then Char.ofNat (c.toNat - 32)
  else if c.toNat = 383 then 'S'
  else if c.toNat = 8490 then 'K'
  else c

/-- Case folding of a key. -/
def foldName (s : String) : List Char := s.data.map foldRune

/-- Index of the first field whose JSON key is exactly `k`. -/
def findExact : List (String × String × Ty) → String → Option Nat
  | [], _ => none
  | f :: fs, k => if fieldKey f = k then some 0 else (findExact fs k).map (· + 1)

/-- Index of the first field whose JSON key equals `k` under case folding. -/
def findFold : List (String × String × Ty) → String → Option Nat
  | [], _ => none
  | f :: fs, k =>
    if foldName (fieldKey f) = foldName k then some 0 else (findFold fs k).map (· + 1)

/-- The field an object key is decoded into: an exact match is preferred, a
case-insensitive match is accepted, otherwise the key is ignored. -/
def selectField (fs : List (String × String × Ty)) (k : String) : Option Nat :=
  match findExact fs k with
  | some i => some i
  | none => findFold fs k

/-! ## Reading JSON text

`json.Unmarshal` first checks that the whole input is one well-formed JSON
value.  The reader below is the same automaton, run one character at a time:
a tokeniser, then a push-down builder.  The input is text (the bytes of the
response body are taken to be valid UTF-8). -/

/-- JSON tokens. -/
inductive Token where
  | lbrace | rbrace | lbrack | rbrack | colon | comma
  | str (s : String) (esc : Bool)
  | num (lit : String)
  | lit (j : Json)

/-- States of the number automaton. -/
inductive NumState where
  | neg | zero | int | dot | frac | exp | expSign | expDigits
  deriving DecidableEq

/-- States of the tokeniser.  Accumulated characters are in reverse order. -/
inductive LexMode where
  | top
  | str (acc : List Char)  (esc : Bool)
  | strEsc (acc : List Char)
  | strU (acc : List Char) (hex : List Nat) (high : Option Nat)
  | strHigh (acc : List Char) (high : Nat)
  | strHighEsc (acc : List Char) (high : Nat)
  | num (acc : List Char) (st : NumState)
  | word (rest : List Char) (j : Json)

/-- The value of a hexadecimal digit. -/
def hexVal (c : Char) : Option Nat :=
  if 48 ≤ c.toNat ∧ c.toNat ≤ 57 then some (c.toNat - 48)
  else if 97 ≤ c.toNat ∧ c.toNat ≤ 102 then some (c.toNat - 87)
  else if 65 ≤ c.toNat ∧ c.toNat ≤ 70 then some (c.toNat - 55)
  else none

/-- Whether a number automaton state accepts the end of the number. -/
def NumState.accepting : NumState → Bool
  | .zero | .int | .frac | .expDigits => true
  | _ => false

/-- One step of the number automaton; `none` when `c` cannot continue the
number. -/
def NumState.step (st : NumState) (c : Char) : Option NumState :=
  let isDigit := (digitVal c).isSome
  match st with
  | .neg => if c = '0' then some .zero else if isDigit then some .int else none
  | .zero => if c = '.' then some .dot else if c = 'e' ∨ c = 'E' then some .exp else none
  | .int =>
    if isDigit then some .int else if c = '.' then some .dot
    else if c = 'e' ∨ c = 'E' then some .exp else none
  | .dot => if isDigit then some .frac else none
  | .frac => if isDigit then some .frac else if c = 'e' ∨ c = 'E' then some .exp else none
  | .exp => if c = '+' ∨ c = '-' then some .expSign else if isDigit then some .expDigits else none
  | .expSign => if isDigit then some .expDigits else none
  | .expDigits => if isDigit then some .expDigits else none

/-- The character of a simple escape. -/
def escapeChar (c : Char) : Option Char :=
  if c = '"' then some '"' else if c = '\\' then some '\\' else if c = '/' then some '/'
  else if c = 'b' then some (Char.ofNat 8) else if c = 'f' then some (Char.ofNat 12)
  else if c = 'n' then some (Char.ofNat 10) else if c = 'r' then some (Char.ofNat 13)
  else if c = 't' then some (Char.ofNat 9) else none

/-- The tokeniser at the start of a token. -/
def lexTop (c : Char) : Option (LexMode × List Token) :=
  if c = ' ' ∨ c = '\t' ∨ c = '\r' ∨ c = '\n' then some (.top, [])
  else if c = '{' then some (.top, [.lbrace])
  else if c = '}' then some (.top, [.rbrace])
  else if c = '[' then some (.top, [.lbrack])
  else if c = ']' then some (.top, [.rbrack])
  else if c = ':' then some (.top, [.colon])
  else if c = ',' then some (.top, [.comma])
  else if c = '"' then some (.str [] false, [])
  else if c = '-' then some (.num [c] .neg, [])
  else if c = '0' then some (.num [c] .zero, [])
  else if (digitVal c).isSome then some (.num [c] .int, [])
  else if c = 't' then some (.word ['r', 'u', 'e'] (.bool true), [])
  else if c = 'f' then some (.word ['a', 'l', 's', 'e'] (.bool false), [])
  else if c = 'n' then some (.word ['u', 'l', 'l'] .null, [])
  else none

/-- A completed `\uXXXX` escape of value `r`, after an optional pending high
surrogate.  Unpaired surrogates become U+FFFD. -/
def lexUnicode (acc : List Char) (high : Option Nat) (r : Nat) : LexMode :=
  let isHigh := 55296 ≤ r ∧ r < 56320
  let isLow := 56320 ≤ r ∧ r < 57344
  match high with
  | some h =>
    if isLow then .str (Char.ofNat (65536 + (h - 55296) * 1024 + (r - 56320)) :: acc) true
    else if isHigh then .strHigh (replacementChar :: acc) r
    else .str (Char.ofNat r :: replacementChar :: acc) true
  | none =>
    if isHigh then .strHigh acc r
    else if isLow then .str (replacementChar :: acc) true
    else .str (Char.ofNat r :: acc) true

/-- One character inside a string literal (not after a backslash). -/
def lexInString (acc : List Char) (esc : Bool) (c : Char) : Option (LexMode × List Token) :=
  if c = '"' then some (.top, [.str (String.mk acc.reverse) esc])
  else if c = '\\' then some (.strEsc acc, [])
  else if c.toNat < 32 then none
  else some (.str (c :: acc) esc, [])

/-- One character after a backslash. -/
def lexAfterBackslash (acc : List Char) (c : Char) : Option (LexMode × List Token) :=
  if c = 'u' then some (.strU acc [] none, [])
  else (escapeChar c).map (fun e => (.str (e :: acc) true, []))

/-- One step of the tokeniser: the next state and the tokens completed by this
character. -/
def lexStep (m : LexMode) (c : Char) : Option (LexMode × List Token) :=
  match m with
  | .top => lexTop c
  | .str acc esc => lexInString acc esc c
  | .strEsc acc => lexAfterBackslash acc c
  | .strU acc hex high =>
    match hexVal c with
    | none => none
    | some d =>
      match hex with
      | [a, b, e] => some (lexUnicode acc high (((a * 16 + b) * 16 + e) * 16 + d), [])
      | _ => some (.strU acc (hex ++ [d]) high, [])
  | .strHigh acc h =>
    if c = '\\' then some (.strHighEsc acc h, [])
    else lexInString (replacementChar :: acc) true c
  | .strHighEsc acc h =>
    if c = 'u' then some (.strU acc [] (some h), [])
    else lexAfterBackslash (replacementChar :: acc) c
  | .num acc st =>
    match st.step c with
    | some st1 => some (.num (c :: acc) st1, [])
    | none =>
      if st.accepting then
        (lexTop c).map (fun r => (r.1, Token.num (String.mk acc.reverse) :: r.2))
      else none
  | .word rest j =>
    match rest with
    | [] => none
    | [x] => if c = x then some (.top, [.lit j]) else none
    | x :: xs => if c = x then some (.word xs j, []) else none

/-- The tokens of a text, `none` on a lexical error. -/
def lex : LexMode → List Char → Option (List Token)
  | .top, [] => some []
  | .num acc st, [] => if st.accepting then some [.num (String.mk acc.reverse)] else none
  | _, [] => none
  | m, c :: cs =>
    match lexStep m c with
    | none => none
    | some (m1, toks) => (lex m1 cs).map (fun r => toks ++ r)

/-- An open container: the members read so far (in reverse) and, for an
object, the key whose value is being read. -/
inductive Frame where
  | arr (rev : List Json)
  | obj (rev : List (String × Json)) (key : String)

/-- What the builder expects next. -/
inductive Expect where
  | value | valueOrClose | keyOrClose | key | colon | endValue
  | done (j : Json)

/-- The deepest nesting of arrays and objects that is accepted. -/
def maxNestingDepth : Nat := 10000

/-- A value has been completed: hand it to the enclosing container. -/
def complete (v : Json) : List Frame → List Frame × Expect
  | [] => ([], .done v)
  | .arr rev :: rest => (.arr (v :: rev) :: rest, .endValue)
  | .obj rev k :: rest => (.obj ((k, v) :: rev) k :: rest, .endValue)

/-- A token where a value may start. -/
def startValue (stack : List Frame) (t : Token) : Option (List Frame × Expect) :=
  match t with
  | .str s esc => some (complete (.str s esc) stack)
  | .num l => some (complete (.num l) stack)
  | .lit j => some (complete j stack)
  | .lbrack => if stack.length < maxNestingDepth then some (.arr [] :: stack, .valueOrClose) else none
  | .lbrace => if stack.length < maxNestingDepth then some (.obj [] "" :: stack, .keyOrClose) else none
  | _ => none

/-- A token where an object key must stand. -/
def startKey (stack : List Frame) (t : Token) : Option (List Frame × Expect) :=
  match t, stack with
  | .str s _, .obj rev _ :: rest => some (.obj rev s :: rest, .colon)
  | _, _ => none

/-- One step of the builder. -/
def buildStep (stack : List Frame) (e : Expect) (t : Token) : Option (List Frame × Expect) :=
  match e with
  | .value => startValue stack t
  | .valueOrClose =>
    match t, stack with
    | .rbrack, .arr rev :: rest => some (complete (.arr rev.reverse) rest)
    | _, _ => startValue stack t
  | .keyOrClose =>
    match t, stack with
    | .rbrace, .obj rev _ :: rest => some (complete (.obj rev.reverse) rest)
    | _, _ => startKey stack t
  | .key => startKey stack t
  | .colon =>
    match t with
    | .colon => some (stack, .value)
    | _ => none
  | .endValue =>
    match t, stack with
    | .comma, .arr _ :: _ => some (stack, .value)
    | .comma, .obj _ _ :: _ => some (stack, .key)
    | .rbrack, .arr rev :: rest => some (complete (.arr rev.reverse) rest)
    | .rbrace, .obj rev _ :: rest => some (complete (.obj rev.reverse) rest)
    | _, _ => none
  | .done _ => none

/-- Run the builder over the tokens. -/
def build : List Frame → Expect → List Token → Option Json
  | _, .done j, [] => some j
  | _, _, [] => none
  | stack, e, t :: ts =>
    match buildStep stack e t with
    | none => none
    | some (stack1, e1) => build stack1 e1 ts

/-- The JSON document written in `text`, `none` when the text is not one
well-formed JSON value. -/
def parseJSON (text : String) : Option Json :=
  match lex .top text.data with
  | none => none
  | some toks => build [] .value toks

/-! ## Decoding (`json.Unmarshal`) -/

/-- Store `v` under `k` in a map listed by ascending key; an existing entry
for `k` is replaced. -/
def mapInsert (k : GoString) (v : GoVal) : List (GoString × GoVal) → List (GoString × GoVal)
  | [] => [(k, v)]
  | (k1, v1) :: rest =>
    if k = k1 then (k, v) :: rest
    else if k < k1 then (k, v) :: (k1, v1) :: rest
    else (k1, v1) :: mapInsert k v rest

/-- The least magnitude that does not fit a `float64`: the largest finite
value is `2^1024 - 2^971`, and a number rounds to it only below
`2^1024 - 2^970`. -/
def float64Limit : Nat := 2 ^ 1024 - 2 ^ 970

/-- Whether `mant * 10^up / 10^down` reaches `float64Limit`.  The first two
tests are shortcuts that do not change the answer: beyond 400 decimal places
up a non-zero number is too large, and a number shifted down by more places
than it has digits is below one. -/
def reachesLimit (mant digits up down : Nat) : Bool :=
  if mant = 0 then false
  else if up > 400 + down then true
  else if down ≥ digits + up then false
  else decide (mant * 10 ^ up ≥ float64Limit * 10 ^ down)

/-- Whether the number literal `lit` is out of the range of `float64`, in
which case `strconv.ParseFloat` fails and so does the decoding of the number.
The literal is `-?int[.frac][(e|E)[+|-]digits]`. -/
def overflowsFloat64 (lit : String) : Bool :=
  let isDigit := fun c : Char => (digitVal c).isSome
  let s0 := match lit.data with
    | '-' :: r => r
    | r => r
  let intDigits := s0.takeWhile isDigit
  let s1 := s0.dropWhile isDigit
  let fracDigits := match s1 with
    | '.' :: r => r.takeWhile isDigit
    | _ => []
  let s2 := match s1 with
    | '.' :: r => r.dropWhile isDigit
    | r => r
  let expNeg := match s2 with
    | _ :: '-' :: _ => true
    | _ => false
  let expDigits := match s2 with
    | _ :: '-' :: r => r
    | _ :: '+' :: r => r
    | _ :: r => r
    | [] => []
  let mant := (digitsVal (intDigits ++ fracDigits) 0).getD 0
  let ex := (digitsVal expDigits 0).getD 0
  let digits := (intDigits ++ fracDigits).length
  if expNeg then reachesLimit mant digits 0 (fracDigits.length + ex)
  else reachesLimit mant digits ex fracDigits.length

mutual
/-- Decode a JSON value into an empty `interface{}`: `nil`, `bool`, `float64`,
`string`, `[]interface{}` or `map[string]interface{}`.  `none` when a number
in it does not fit a `float64`. -/
def generic : Json → Option GoVal
  | .null => some .ifaceNil
  | .bool b => some (.iface .bool (.bool b))
  | .num l => if overflowsFloat64 l then none else some (.iface .float64 (.float l))
  | .str s _ => some (.iface .string (.str (goString s)))
  | .arr xs => (genericElems xs).map (fun vs => GoVal.iface (.slice .iface) (.slice vs))
  | .obj kvs => (genericMembers kvs []).map (fun m => GoVal.iface .mapAny (.map m))
/-- Decode the elements of an array into `interface{}` values. -/
def genericElems : List Json → Option (List GoVal)
  | [] => some []
  | x :: xs =>
    match generic x, genericElems xs with
    | some v, some vs => some (v :: vs)
    | _, _ => none
/-- Decode the members of an object into a map, in order; a later member
replaces an earlier one with the same key. -/
def genericMembers : List (String × Json) → List (GoString × GoVal) →
    Option (List (GoString × GoVal))
  | [], acc => some acc
  | (k, v) :: kvs, acc =>
    match generic v with
    | some g => genericMembers kvs (mapInsert (goString k) g acc)
    | none => none
end

/-- The effect of JSON `null` on a Go value: interfaces, maps, pointers and
slices become nil, every other value is left as it is. -/
def nullInto (t : Ty) (cur : GoVal) : GoVal :=
  match t with
  | .ptrTime => .ptrNil
  | .iface => .ifaceNil
  | .mapAny => .mapNil
  | .slice _ => .sliceNil
  | _ => cur

/-- The entries of a map value. -/
def mapEntries : GoVal → List (GoString × GoVal)
  | .map kvs => kvs
  | _ => []

mutual
/-- Decode the JSON value `j` into the Go value `cur` of type `t`.  `none` is
a decoding error: a JSON value of the wrong kind for `t`, a number that does
not fit a `float64`, or a timestamp that `time.Parse` rejects (it is given the
literal as written, so an escape in it is rejected). -/
def decodeInto : Ty → GoVal → Json → Option GoVal
  | t, cur, .null => some (nullInto t cur)
  | .string, _, .str s _ => some (.str (goString s))
  | .bool, _, .bool b => some (.bool b)
  | .float64, _, .num l => if overflowsFloat64 l then none else some (.float l)
  | .ptrTime, _, .str s esc => if esc then none else (parseRFC3339 s.data).map GoVal.ptrTime
  | .iface, _, .bool b => generic (.bool b)
  | .iface, _, .num l => generic (.num l)
  | .iface, _, .str s esc => generic (.str s esc)
  | .iface, _, .arr xs => generic (.arr xs)
  | .iface, _, .obj kvs => generic (.obj kvs)
  | .mapAny, cur, .obj kvs => (genericMembers kvs (mapEntries cur)).map GoVal.map
  | .slice t, _, .arr xs => (decodeElems t xs).map GoVal.slice
  | .struct fs, .struct vs, .obj kvs => (decodeMembers fs vs kvs).map GoVal.struct
  | _, _, _ => none
/-- Decode the elements of an array, each into a fresh value of type `t` (a
slice is reset to length zero and the elements are appended, as the package
documents). -/
def decodeElems : Ty → List Json → Option (List GoVal)
  | _, [] => some []
  | t, x :: xs =>
    match decodeInto t (zero t) x, decodeElems t xs with
    | some v, some vs => some (v :: vs)
    | _, _ => none
/-- Decode the members of an object, in order, into the fields `vs` of a
struct with the fields `fs`.  A key that selects no field is skipped. -/
def decodeMembers : List (String × String × Ty) → List GoVal → List (String × Json) →
    Option (List GoVal)
  | _, vs, [] => some vs
  | fs, vs, (k, v) :: kvs =>
    match selectField fs k with
    | none => decodeMembers fs vs kvs
    | some i =>
      match fs.get? i, vs.get? i with
      | some f, some old =>
        match decodeInto f.2.2 old v with
        | some new => decodeMembers fs (vs.set i new) kvs
        | none => none
      | _, _ => none
end

/-- The two ways `json.Unmarshal` fails: the input is not well-formed JSON
(`SyntaxError`), or a value does not fit the Go type (`UnmarshalTypeError`,
or the error of `time.Time.UnmarshalJSON`). -/
inductive DecodeError where
  | malformed
  | mismatch
  deriving DecidableEq, Repr

/-- Model of `json.Unmarshal(data, &x)` for `x` the zero value of type `t`. -/
def jsonUnmarshal (t : Ty) (data : String) : Except DecodeError GoVal :=
  match parseJSON data with
  | none => .error .malformed
  | some j =>
    match decodeInto t (zero t) j with
    | none => .error .mismatch
    | some v => .ok v

/-! ## Encoding (`json.Marshal`) -/

/-- The characters `json.Marshal` writes as an escape. -/
def needsEscape (c : Char) : Bool :=
  c.toNat < 32 || c = '"' || c = '\\' || c = '<' || c = '>' || c = '&' ||
    c.toNat = 8232 || c.toNat = 8233

/-- Values that `omitempty` leaves out: false, nil, and empty strings, slices
and maps.  (No struct field of the two files is a number.) -/
def isEmptyValue : GoVal → Bool
  | .str s => s.isEmpty
  | .bool b => !b
  | .ptrNil | .ifaceNil | .sliceNil | .mapNil => true
  | .slice xs => xs.isEmpty
  | .map kvs => kvs.isEmpty
  | _ => false

/-- What `json.Marshal` is about to write for a value: the JSON structure,
with the strings and keys still Go strings. -/
inductive Doc where
  | null
  | bool (b : Bool)
  | str (s : GoString)
  | arr (xs : List Doc)
  | obj (kvs : List (GoString × Doc))

mutual
/-- The structure `json.Marshal` writes for the value `v` of type `t`.  `none`
for a value that is not of type `t`, and for the two kinds of value whose text
is not modelled: a number and a non-nil timestamp (no operation of the two
files sends one). -/
def encodeDoc : Ty → GoVal → Option Doc
  | .string, .str s => some (.str s)
  | .bool, .bool b => some (.bool b)
  | .ptrTime, .ptrNil => some .null
  | .iface, .ifaceNil => some .null
  | .iface, .iface t v => encodeDoc t v
  | .mapAny, .mapNil => some .null
  | .mapAny, .map kvs => (encodeEntries kvs).map Doc.obj
  | .slice _, .sliceNil => some .null
  | .slice t, .slice xs => (encodeElems t xs).map Doc.arr
  | .struct fs, .struct vs => (encodeFields fs vs).map Doc.obj
  | _, _ => none
/-- Encode the elements of a slice. -/
def encodeElems : Ty → List GoVal → Option (List Doc)
  | _, [] => some []
  | t, x :: xs =>
    match encodeDoc t x, encodeElems t xs with
    | some j, some js => some (j :: js)
    | _, _ => none
/-- Encode the entries of a `map[string]interface{}`, by ascending key. -/
def encodeEntries : List (GoString × GoVal) → Option (List (GoString × Doc))
  | [] => some []
  | (k, v) :: kvs =>
    match encodeDoc .iface v, encodeEntries kvs with
    | some j, some js => some ((k, j) :: js)
    | _, _ => none
/-- Encode the fields of a struct in declaration order, each under its JSON
key; a field tagged `omitempty` is left out when its value is empty. -/
def encodeFields : List (String × String × Ty) → List GoVal → Option (List (GoString × Doc))
  | [], [] => some []
  | f :: fs, v :: vs =>
    match encodeDoc f.2.2 v, encodeFields fs vs with
    | some j, some js =>
      some (if tagOmitEmpty f.2.1 && isEmptyValue v then js
            else (goString (fieldKey f), j) :: js)
    | _, _ => none
  | _, _ => none
end

/-- A hexadecimal digit, in lower case. -/
def hexDigit (n : Nat) : Char :=
  if n < 10 then Char.ofNat (48 + n) else Char.ofNat (87 + n)

/-- How `json.Marshal` writes one rune of a string: a byte that is not part
of a valid encoding as `\ufffd`; a quote, a backslash and the control
characters with a short form by that form; the other control characters, `<`,
`>`, `&`, U+2028 and U+2029 as `\u` and four hexadecimal digits; every other
character as it is. -/
def printRune : Option Char → List Char
  | none => ['\\', 'u', 'f', 'f', 'f', 'd']
  | some c =>
    if c = '"' then ['\\', '"']
    else if c = '\\' then ['\\', '\\']
    else if c.toNat = 8 then ['\\', 'b']
    else if c.toNat = 12 then ['\\', 'f']
    else if c.toNat = 10 then ['\\', 'n']
    else if c.toNat = 13 then ['\\', 'r']
    else if c.toNat = 9 then ['\\', 't']
    else if needsEscape c then
      ['\\', 'u', hexDigit (c.toNat / 4096), hexDigit (c.toNat / 256 % 16),
        hexDigit (c.toNat / 16 % 16), hexDigit (c.toNat % 16)]
    else [c]

/-- Whether a rune is written as an escape. -/
def escapedRune : Option Char → Bool
  | none => true
  | some c => needsEscape c

/-- The runes of a string, written one after the other. -/
def printRunes : List (Option Char) → List Char
  | [] => []
  | r :: rs => printRune r ++ printRunes rs

/-- A Go string as a JSON string literal. -/
def quote (s : GoString) : List Char :=
  '"' :: (printRunes (decodeRunes s) ++ ['"'])

mutual
/-- The text `json.Marshal` writes: no white space, members separated by
commas. -/
def Doc.print : Doc → List Char
  | .null => ['n', 'u', 'l', 'l']
  | .bool b => if b then ['t', 'r', 'u', 'e'] else ['f', 'a', 'l', 's', 'e']
  | .str s => quote s
  | .arr xs => '[' :: (printElems true xs ++ [']'])
  | .obj kvs => Char.ofNat 123 :: (printMembers true kvs ++ [Char.ofNat 125])
/-- The elements of an array, a comma before each but the first. -/
def printElems : Bool → List Doc → List Char
  | _, [] => []
  | first, x :: xs => (if first then [] else [',']) ++ (x.print ++ printElems false xs)
/-- The members of an object, a comma before each but the first. -/
def printMembers : Bool → List (GoString × Doc) → List Char
  | _, [] => []
  | first, (k, x) :: kvs =>
    (if first then [] else [',']) ++ (quote k ++ ':' :: (x.print ++ printMembers false kvs))
end

mutual
/-- The JSON document that the text of a structure denotes: each string is its
text, with U+FFFD for the bytes that are not valid UTF-8. -/
def Doc.toJson : Doc → Json
  | .null => .null
  | .bool b => .bool b
  | .str s => .str (String.mk (textOf s)) ((decodeRunes s).any escapedRune)
  | .arr xs => .arr (toJsonElems xs)
  | .obj kvs => .obj (toJsonMembers kvs)
/-- The documents of the elements. -/
def toJsonElems : List Doc → List Json
  | [] => []
  | x :: xs => x.toJson :: toJsonElems xs
/-- The documents of the members. -/
def toJsonMembers : List (GoString × Doc) → List (String × Json)
  | [] => []
  | (k, x) :: kvs => (String.mk (textOf k), x.toJson) :: toJsonMembers kvs
end

/-- Model of `json.Marshal`, as a JSON document. -/
def encode (t : Ty) (v : GoVal) : Option Json :=
  (encodeDoc t v).map Doc.toJson

/-- Model of `json.Marshal`, as the text it writes. -/
def jsonMarshal (t : Ty) (v : GoVal) : Option String :=
  (encodeDoc t v).map (fun d => String.mk d.print)

/-- The keys of a JSON object, in order. -/
def Json.keys : Json → List String
  | .obj kvs => kvs.map Prod.fst
  | _ => []

/-! ## Typing of values -/

mutual
/-- Whether `v` is a value of the Go type `t`. -/
def hasType : Ty → GoVal → Bool
  | .string, .str s => s.all (fun b => decide (b < 256))
  | .bool, .bool _ => true
  | .float64, .float _ => true
  | .ptrTime, .ptrNil => true
  | .ptrTime, .ptrTime _ => true
  | .iface, .ifaceNil => true
  | .iface, .iface t v => hasType t v
  | .mapAny, .mapNil => true
  | .mapAny, .map kvs => hasTypeEntries kvs
  | .slice _, .sliceNil => true
  | .slice t, .slice xs => hasTypeElems t xs
  | .struct fs, .struct vs => hasTypeFields fs vs
  | _, _ => false
/-- Whether every element is a value of type `t`. -/
def hasTypeElems : Ty → List GoVal → Bool
  | _, [] => true
  | t, x :: xs => hasType t x && hasTypeElems t xs
/-- Whether every entry of a map has a string as key and holds an interface
value. -/
def hasTypeEntries : List (GoString × GoVal) → Bool
  | [] => true
  | (k, v) :: kvs => k.all (fun b => decide (b < 256)) && hasType .iface v && hasTypeEntries kvs
/-- Whether `vs` are values of the fields `fs`, one for one. -/
def hasTypeFields : List (String × String × Ty) → List GoVal → Bool
  | [], [] => true
  | f :: fs, v :: vs => hasType f.2.2 v && hasTypeFields fs vs
  | _, _ => false
end

/-- Position of the field with Go name `name`. -/
def fieldIndex : List (String × String × Ty) → String → Option Nat
  | [], _ => none
  | f :: fs, name => if f.1 = name then some 0 else (fieldIndex fs name).map (· + 1)

/-- The fields of a struct type. -/
def Ty.fields : Ty → List (String × String × Ty)
  | .struct fs => fs
  | _ => []

/-- Field selection `v.name` on a value `v` of the struct type `t`. -/
def getField (t : Ty) (v : GoVal) (name : String) : GoVal :=
  match v, fieldIndex t.fields name with
  | .struct vs, some i => vs.getD i .ifaceNil
  | _, _ => .ifaceNil

/-! ## `fmt.Sprintf` -/

/-- Expansion of a format: each verb `%s` is replaced by the next argument,
written verbatim (a missing argument by `%!s(MISSING)`).  Other verbs do not
occur in the two files. -/
def sprintfChars : List Char → List String → List Char
  | '%' :: 's' :: rest, [] => "%!s(MISSING)".data ++ sprintfChars rest []
  | '%' :: 's' :: rest, a :: args => a.data ++ sprintfChars rest args
  | c :: rest, args => c :: sprintfChars rest args
  | [], _ => []

/-- Model of `fmt.Sprintf` for formats whose only verb is `%s`. -/
def sprintf (format : String) (args : List String) : String :=
  String.mk (sprintfChars format.data args)

/-! ## The types of `spectrum.go` -/

/-- Go struct `SpectrumAppDNS`. -/
def SpectrumAppDNS : Ty := .struct [
  ("Type", "type", .string),
  ("Name", "name", .string)]

/-- Go struct `SpectrumApp`. -/
def SpectrumApp : Ty := .struct [
  ("ID", "id", .string),
  ("Protocol", "protocol", .string),
  ("IPv4", "ipv4", .bool),
  ("DNS", "dns", SpectrumAppDNS),
  ("OriginDirect", "origin_direct", .slice .string),
  ("IPFirewall", "ip_firewall", .bool),
  ("ProxyProtocol", "proxy_protocol", .bool),
  ("TLS", "tls", .string),
  ("CreatedOn", "created_on", .ptrTime),
  ("ModifiedOn", "modified_on", .ptrTime)]

/-- Go struct `SpectrumAppDetailResponse`. -/
def SpectrumAppDetailResponse : Ty := .struct [
  ("Success", "success", .bool),
  ("Errors", "errors", .slice .string),
  ("Messages", "messages", .slice .string),
  ("Result", "result", SpectrumApp)]

/-! ## The types of `access_identity_provider.go` -/

/-- Go struct `AccessIdentityProvider`.  The tag of `ID` is spelled as in the
source. -/
def AccessIdentityProvider : Ty := .struct [
  ("ID", "id,omitemtpy", .string),
  ("Name", "name", .string),
  ("Type", "type", .string),
  ("Config", "config", .iface)]

/-- Go struct `AzureADConfiguration`. -/
def AzureADConfiguration : Ty := .struct [
  ("ClientID", "client_id", .string),
  ("ClientSecret", "client_secret", .string),
  ("DirectoryID", "directory_id", .string),
  ("SupportGroups", "support_groups", .bool)]

/-- Go struct `CentrifyConfiguration`. -/
def CentrifyConfiguration : Ty := .struct [
  ("ClientID", "client_id", .string),
  ("ClientSecret", "client_secret", .string),
  ("CentrifyAccount", "centrify_account", .string),
  ("CentrifyAppID", "centrify_app_id", .string)]

/-- Go struct `CentrifySAMLConfiguration`. -/
def CentrifySAMLConfiguration : Ty := .struct [
  ("IssuerURL", "issuer_url", .string),
  ("SsoTargetURL", "sso_target_url", .string),
  ("Attributes", "attributes", .slice .string),
  ("EmailAttributeName", "email_attribute_name", .string),
  ("SignRequest", "sign_request", .bool),
  ("IdpPublicCert", "idp_public_cert", .string)]

/-- Go struct `FacebookConfiguration`. -/
def FacebookConfiguration : Ty := .struct [
  ("ClientID", "client_id", .string),
  ("ClientSecret", "client_secret", .string)]

/-- Go struct `GSuiteConfiguration`. -/
def GSuiteConfiguration : Ty := .struct [
  ("ClientID", "client_id", .string),
  ("ClientSecret", "client_secret", .string),
  ("AppsDomain", "apps_domain", .string)]

/-- Go struct `GenericOIDCConfiguration`. -/
def GenericOIDCConfiguration : Ty := .struct [
  ("ClientID", "client_id", .string),
  ("ClientSecret", "client_secret", .string),
  ("AuthURL", "auth_url", .string),
  ("TokenURL", "token_url", .string),
  ("CertsURL", "certs_url", .string)]

/-- Go struct `GitHubConfiguration`. -/
def GitHubConfiguration : Ty := .struct [
  ("ClientID", "client_id", .string),
  ("ClientSecret", "client_secret", .string)]

/-- Go struct `GoogleConfiguration`. -/
def GoogleConfiguration : Ty := .struct [
  ("ClientID", "client_id", .string),
  ("ClientSecret", "client_secret", .string)]

/-- Go struct `JumpCloudSAMLConfiguration`. -/
def JumpCloudSAMLConfiguration : Ty := .struct [
  ("IssuerURL", "issuer_url", .string),
  ("SsoTargetURL", "sso_target_url", .string),
  ("Attributes", "attributes", .slice .string),
  ("EmailAttributeName", "email_attribute_name", .string),
  ("SignRequest", "sign_request", .bool),
  ("IdpPublicCert", "idp_public_cert", .string)]

/-- Go struct `OktaConfiguration`. -/
def OktaConfiguration : Ty := .struct [
  ("ClientID", "client_id", .string),
  ("ClientSecret", "client_secret", .string),
  ("OktaAccount", "okta_account", .string)]

/-- Go struct `OktaSAMLConfiguration`. -/
def OktaSAMLConfiguration : Ty := .struct [
  ("IssuerURL", "issuer_url", .string),
  ("SsoTargetURL", "sso_target_url", .string),
  ("Attributes", "attributes", .slice .string),
  ("EmailAttributeName", "email_attribute_name", .string),
  ("SignRequest", "sign_request", .bool),
  ("IdpPublicCert", "idp_public_cert", .string)]

/-- Go struct `OneTimePinCnfiguration` (no fields). -/
def OneTimePinCnfiguration : Ty := .struct []

/-- Go struct `OneLoginOIDCConfiguration`. -/
def OneLoginOIDCConfiguration : Ty := .struct [
  ("ClientID", "client_id", .string),
  ("ClientSecret", "client_secret", .string),
  ("OneloginAccount", "onelogin_account", .string)]

/-- Go struct `OneLoginSAMLConfiguration`. -/
def OneLoginSAMLConfiguration : Ty := .struct [
  ("IssuerURL", "issuer_url", .string),
  ("SsoTargetURL", "sso_target_url", .string),
  ("Attributes", "attributes", .slice .string),
  ("EmailAttributeName", "email_attribute_name", .string),
  ("SignRequest", "sign_request", .bool),
  ("IdpPublicCert", "idp_public_cert", .string)]

/-- Go struct `PingSAMLConfiguration`. -/
def PingSAMLConfiguration : Ty := .struct [
  ("IssuerURL", "issuer_url", .string),
  ("SsoTargetURL", "sso_target_url", .string),
  ("Attributes", "attributes", .slice .string),
  ("EmailAttributeName", "email_attribute_name", .string),
  ("SignRequest", "sign_request", .bool),
  ("IdpPublicCert", "idp_public_cert", .string)]

/-- Go struct `YandexConfiguration`. -/
def YandexConfiguration : Ty := .struct [
  ("ClientID", "client_id", .string),
  ("ClientSecret", "client_secret", .string)]

/-- Go struct `ADSAMLConfiguration`. -/
def ADSAMLConfiguration : Ty := .struct [
  ("IssuerURL", "issuer_url", .string),
  ("SsoTargetURL", "sso_target_url", .string),
  ("Attributes", "attributes", .slice .string),
  ("EmailAttributeName", "email_attribute_name", .string),
  ("SignRequest", "sign_request", .bool),
  ("IdpPublicCert", "idp_public_cert", .string)]

/-- The seventeen typed configuration shapes, in source order. -/
def configurationShapes : List Ty := [
  AzureADConfiguration, CentrifyConfiguration, CentrifySAMLConfiguration,
  FacebookConfiguration, GSuiteConfiguration, GenericOIDCConfiguration,
  GitHubConfiguration, GoogleConfiguration, JumpCloudSAMLConfiguration,
  OktaConfiguration, OktaSAMLConfiguration, OneTimePinCnfiguration,
  OneLoginOIDCConfiguration, OneLoginSAMLConfiguration, PingSAMLConfiguration,
  YandexConfiguration, ADSAMLConfiguration]

/-- Go struct `AccessIdentityProvidersListResponse`. -/
def AccessIdentityProvidersListResponse : Ty := .struct [
  ("Success", "success", .bool),
  ("Errors", "errors", .slice .string),
  ("Messages", "messages", .slice .string),
  ("Result", "result", .slice AccessIdentityProvider)]

/-- Go struct `AccessIdentityProviderListResponse`. -/
def AccessIdentityProviderListResponse : Ty := .struct [
  ("Success", "success", .bool),
  ("Errors", "errors", .slice .string),
  ("Messages", "messages", .slice .string),
  ("Result", "result", AccessIdentityProvider)]

/-! ## Errors (`github.com/pkg/errors`) -/

/-- The error an operation wraps: the one `makeRequest` returned, or the one
`json.Unmarshal` returned. -/
inductive Cause (E : Type) where
  | request (e : E)
  | decode (e : DecodeError)

/-- The result of `errors.Wrap(err, message)`: the cause, the message put in
front of it, and the stack recorded at the call.  Of the stack the model keeps
the innermost frame, the function that called `Wrap` (written as the method
expression, without the path of the package); the frames below it belong to
the caller of the operation. -/
structure WrappedError (E : Type) where
  cause : Cause E
  message : String
  caller : String

/-- Model of `errors.Wrap(err, message)`, called from the function `caller`. -/
def errorsWrap {E : Type} (err : Cause E) (message : String) (caller : String) :
    WrappedError E :=
  { cause := err, message := message, caller := caller }

/-! ## The client -/

/-- The parts of the client the six methods use.  `makeRequest method uri
params` runs against the outside world, whose state is `σ`; it answers with the
response body or with an error of type `E`.  The two message constants are
declared elsewhere in the package. -/
structure API (σ E : Type) where
  makeRequest : String → String → GoVal → σ → Except E String × σ
  errMakeRequestError : String
  errUnmarshalError : String

/-- What a method returns: the Go pair (value, error), and the state of the
outside world afterwards. -/
abbrev Returns (σ E : Type) : Type := (GoVal × Option (WrappedError E)) × σ

namespace API

variable {σ E : Type}

/-- Method `AccessIdentityProviders`: all Access Identity Providers of an
account. -/
def AccessIdentityProviders (api : API σ E) (accountID : String) (w : σ) : Returns σ E :=
  let uri := "/accounts/" ++ accountID ++ "/access/identity_providers"
  match api.makeRequest "GET" uri .ifaceNil w with
  | (.error err, w1) =>
    ((.slice [], some (errorsWrap (.request err) api.errMakeRequestError
        "(*API).AccessIdentityProviders")), w1)
  | (.ok res, w1) =>
    match jsonUnmarshal AccessIdentityProvidersListResponse res with
    | .error err => ((.slice [], some (errorsWrap (.decode err) api.errUnmarshalError
        "(*API).AccessIdentityProviders")), w1)
    | .ok accessIdentityProviderResponse =>
      ((getField AccessIdentityProvidersListResponse accessIdentityProviderResponse "Result",
        none), w1)

/-- Method `AccessIdentityProviderDetails`: a single Access Identity Provider
of an account. -/
def AccessIdentityProviderDetails (api : API σ E) (accountID identityProviderID : String)
    (w : σ) : Returns σ E :=
  let uri := sprintf "/accounts/%s/access/identity_providers/%s" [accountID, identityProviderID]
  match api.makeRequest "GET" uri .ifaceNil w with
  | (.error err, w1) =>
    ((zero AccessIdentityProvider, some (errorsWrap (.request err) api.errMakeRequestError
        "(*API).AccessIdentityProviderDetails")), w1)
  | (.ok res, w1) =>
    match jsonUnmarshal AccessIdentityProviderListResponse res with
    | .error err =>
      ((zero AccessIdentityProvider, some (errorsWrap (.decode err) api.errUnmarshalError
        "(*API).AccessIdentityProviderDetails")), w1)
    | .ok accessIdentityProviderResponse =>
      ((getField AccessIdentityProviderListResponse accessIdentityProviderResponse "Result",
        none), w1)

/-- Method `CreateAccessIdentityProvider`: creates a new Access Identity
Provider. -/
def CreateAccessIdentityProvider (api : API σ E) (accountID : String)
    (identityProviderConfiguration : GoVal) (w : σ) : Returns σ E :=
  let uri := "/accounts/" ++ accountID ++ "/access/identity_providers"
  match api.makeRequest "POST" uri (.iface AccessIdentityProvider identityProviderConfiguration) w with
  | (.error err, w1) =>
    ((zero AccessIdentityProvider, some (errorsWrap (.request err) api.errMakeRequestError
        "(*API).CreateAccessIdentityProvider")), w1)
  | (.ok res, w1) =>
    match jsonUnmarshal AccessIdentityProviderListResponse res with
    | .error err =>
      ((zero AccessIdentityProvider, some (errorsWrap (.decode err) api.errUnmarshalError
        "(*API).CreateAccessIdentityProvider")), w1)
    | .ok accessIdentityProviderResponse =>
      ((getField AccessIdentityProviderListResponse accessIdentityProviderResponse "Result",
        none), w1)

/-- Method `UpdateAccessIdentityProvider`: updates an existing Access Identity
Provider. -/
def UpdateAccessIdentityProvider (api : API σ E) (accountID identityProviderUUID : String)
    (identityProviderConfiguration : GoVal) (w : σ) : Returns σ E :=
  let uri := sprintf "/accounts/%s/access/identity_providers/%s" [accountID, identityProviderUUID]
  match api.makeRequest "PUT" uri (.iface AccessIdentityProvider identityProviderConfiguration) w with
  | (.error err, w1) =>
    ((zero AccessIdentityProvider, some (errorsWrap (.request err) api.errMakeRequestError
        "(*API).UpdateAccessIdentityProvider")), w1)
  | (.ok res, w1) =>
    match jsonUnmarshal AccessIdentityProviderListResponse res with
    | .error err =>
      ((zero AccessIdentityProvider, some (errorsWrap (.decode err) api.errUnmarshalError
        "(*API).UpdateAccessIdentityProvider")), w1)
    | .ok accessIdentityProviderResponse =>
      ((getField AccessIdentityProviderListResponse accessIdentityProviderResponse "Result",
        none), w1)

/-- Method `DeleteAccessIdentityProvider`: deletes an Access Identity
Provider. -/
def DeleteAccessIdentityProvider (api : API σ E) (accountID identityProviderUUID : String)
    (w : σ) : Returns σ E :=
  let uri := sprintf "/accounts/%s/access/identity_providers/%s" [accountID, identityProviderUUID]
  match api.makeRequest "DELETE" uri .ifaceNil w with
  | (.error err, w1) =>
    ((zero AccessIdentityProvider, some (errorsWrap (.request err) api.errMakeRequestError
        "(*API).DeleteAccessIdentityProvider")), w1)
  | (.ok res, w1) =>
    match jsonUnmarshal AccessIdentityProviderListResponse res with
    | .error err =>
      ((zero AccessIdentityProvider, some (errorsWrap (.decode err) api.errUnmarshalError
        "(*API).DeleteAccessIdentityProvider")), w1)
    | .ok accessIdentityProviderResponse =>
      ((getField AccessIdentityProviderListResponse accessIdentityProviderResponse "Result",
        none), w1)

/-- Method `SpectrumApp`: a single Spectrum application, by its ID. -/
def SpectrumApp (api : API σ E) (zoneID applicationID : String) (w : σ) : Returns σ E :=
  let uri := sprintf "/zones/%s/spectrum/apps/%s" [zoneID, applicationID]
  match api.makeRequest "GET" uri .ifaceNil w with
  | (.error err, w1) =>
    ((zero Cloudflare.SpectrumApp, some (errorsWrap (.request err) api.errMakeRequestError
        "(*API).SpectrumApp")), w1)
  | (.ok res, w1) =>
    match jsonUnmarshal SpectrumAppDetailResponse res with
    | .error err =>
      ((zero Cloudflare.SpectrumApp, some (errorsWrap (.decode err) api.errUnmarshalError
        "(*API).SpectrumApp")), w1)
    | .ok spectrumApp => ((getField SpectrumAppDetailResponse spectrumApp "Result", none), w1)

end API

/-! ## Transports used to observe the operations -/

/-- One call of the transport. -/
structure Request where
  verb : String
  uri : String
  body : GoVal

/-- A client whose outside world is the list of the calls made so far: every
call is appended to it, and answered by `respond` (which may look at the
earlier calls). -/
def recorder {E : Type} (respond : List Request → Request → Except E String)
    (errMakeRequestError errUnmarshalError : String) : API (List Request) E :=
  { makeRequest := fun verb uri body log =>
      (respond log { verb := verb, uri := uri, body := body },
       log ++ [{ verb := verb, uri := uri, body := body }])
    errMakeRequestError := errMakeRequestError
    errUnmarshalError := errUnmarshalError }

/-- A client whose transport answers every call with `answer`; its outside
world counts the calls. -/
def fixed {E : Type} (answer : Except E String)
    (errMakeRequestError errUnmarshalError : String) : API Nat E :=
  { makeRequest := fun _ _ _ n => (answer, n + 1)
    errMakeRequestError := errMakeRequestError
    errUnmarshalError := errUnmarshalError }

/-- The response body of `TestSpectrumApp`, character for character. -/
def fixtureBody : String :=
  "\x7b\n\t\t\t\"result\": \x7b\n\t\t\t\t\"id\": \"f68579455bd947efb65ffa1bcf33b52c\",\n\t\t\t\t\"protocol\": \"tcp/22\",\n\t\t\t\t\"ipv4\": true,\n\t\t\t\t\"dns\": \x7b\n\t\t\t\t\t\"type\": \"CNAME\",\n\t\t\t\t\t\"name\": \"spectrum.example.com\"\n\t\t\t\t\x7d,\n\t\t\t\t\"origin_direct\": [\n\t\t\t\t\t\"tcp://192.0.2.1:22\"\n\t\t\t\t],\n\t\t\t\t\"ip_firewall\": true,\n\t\t\t\t\"proxy_protocol\": false,\n\t\t\t\t\"tls\": \"off\",\n\t\t\t\t\"created_on\": \"2018-03-28T21:25:55.643771Z\",\n\t\t\t\t\"modified_on\": \"2018-03-28T21:25:55.643771Z\"\n\t\t\t\x7d,\n\t\t\t\"success\": true,\n\t\t\t\"errors\": [],\n\t\t\t\"messages\": []\n\t\t\x7d"

/-- The instant `2018-03-28T21:25:55.643771Z`. -/
def fixtureInstant : Time :=
  { unixSec := 1522272355, nsec := 643771000, zone := none }

/-- The record `want` of `TestSpectrumApp`. -/
def fixtureWant : GoVal := .struct [
  .str (goString "f68579455bd947efb65ffa1bcf33b52c"),
  .str (goString "tcp/22"),
  .bool true,
  .struct [.str (goString "CNAME"), .str (goString "spectrum.example.com")],
  .slice [.str (goString "tcp://192.0.2.1:22")],
  .bool true,
  .bool false,
  .str (goString "off"),
  .ptrTime fixtureInstant,
  .ptrTime fixtureInstant]


/-! ## Statements shared by the theorems -/

/-- The error contract of the operation `name`, whose transport call answered
`answer`, whose envelope type is `t` and which returned `ret`: an error is
returned exactly when the transport failed or the body does not decode; the
error returned for a failed transport has the transport's error as its cause,
the message `errMakeRequestError` and the operation as its call site; the
error returned for a body that does not decode has the decoder's error as its
cause, the message `errUnmarshalError` and the operation as its call site;
otherwise the `Result` of the decoded envelope is returned with no error. -/
def ErrorContract {σ E : Type} (api : API σ E) (name : String) (t : Ty)
    (answer : Except E String) (ret : GoVal × Option (WrappedError E)) : Prop :=
  (ret.2.isSome = true ↔
      (∃ e, answer = .error e) ∨
      (∃ body, answer = .ok body ∧
        (parseJSON body = none ∨
          ∃ j, parseJSON body = some j ∧ decodeInto t (zero t) j = none)))
  ∧ (∀ e, answer = .error e →
      ret.2 = some { cause := .request e, message := api.errMakeRequestError, caller := name })
  ∧ (∀ body, answer = .ok body → parseJSON body = none →
      ret.2 = some { cause := .decode .malformed, message := api.errUnmarshalError,
                     caller := name })
  ∧ (∀ body j, answer = .ok body → parseJSON body = some j →
      decodeInto t (zero t) j = none →
      ret.2 = some { cause := .decode .mismatch, message := api.errUnmarshalError,
                     caller := name })
  ∧ (∀ body j v, answer = .ok body → parseJSON body = some j →
      decodeInto t (zero t) j = some v →
      ret = (getField t v "Result", none))

/-- The common tail of the six methods, as a function of what the transport
call gave: used to state facts about all six at once. -/
def finish {σ E : Type} (api : API σ E) (name : String) (t : Ty) (empty : GoVal)
    (r : Except E String × σ) : Returns σ E :=
  match r with
  | (.error err, w1) =>
    ((empty, some (errorsWrap (.request err) api.errMakeRequestError name)), w1)
  | (.ok res, w1) =>
    match jsonUnmarshal t res with
    | .error err => ((empty, some (errorsWrap (.decode err) api.errUnmarshalError name)), w1)
    | .ok v => ((getField t v "Result", none), w1)

/-- An error returned by the operation `name` identifies it: its call site is
`name`, and it carries the underlying error as its cause: the transport's,
under the message `errMakeRequestError`, or the decoder's, under the message
`errUnmarshalError`. -/
def Identifies {σ E : Type} (api : API σ E) (name : String) (t : Ty)
    (answer : Except E String) (ret : GoVal × Option (WrappedError E)) : Prop :=
  ∀ err, ret.2 = some err →
    err.caller = name ∧
    ((∃ e, answer = .error e ∧ err.cause = .request e
        ∧ err.message = api.errMakeRequestError)
     ∨ (∃ body d, answer = .ok body ∧ jsonUnmarshal t body = .error d
        ∧ err.cause = .decode d ∧ err.message = api.errUnmarshalError))

/-- Two results that are not both errors, or are different errors. -/
def Distinguishable {E : Type} (a b : Option (WrappedError E)) : Prop :=
  ∀ ea eb, a = some ea → b = some eb → ea ≠ eb

/-- A provider with an empty identifier, of type `oidc`. -/
def newProvider : GoVal := .struct [
  .str (goString ""),
  .str (goString "Generic OIDC"),
  .str (goString "oidc"),
  .iface GenericOIDCConfiguration (.struct [
    .str (goString "client"), .str (goString "secret"),
    .str (goString "https://idp.example/auth"), .str (goString "https://idp.example/token"),
    .str (goString "https://idp.example/certs")])]

/-! ## Field-wise description of struct decoding -/

/-- The members of an object that gives, for the fields `fs` in order, the
JSON value in `os` (no member where it is `none`). -/
def optMembers : List (String × String × Ty) → List (Option Json) → List (String × Json)
  | f :: fs, some j :: os => (fieldKey f, j) :: optMembers fs os
  | _ :: fs, none :: os => optMembers fs os
  | _, _ => []

/-- Field by field decoding: each field that has a JSON value is decoded from
it, every other field keeps its value. -/
def decodeEach : List (String × String × Ty) → List GoVal → List (Option Json) →
    Option (List GoVal)
  | [], [], [] => some []
  | f :: fs, v :: vs, some j :: os =>
    match decodeInto f.2.2 v j, decodeEach fs vs os with
    | some w, some ws => some (w :: ws)
    | _, _ => none
  | _ :: fs, v :: vs, none :: os => (decodeEach fs vs os).map (fun ws => v :: ws)
  | _, _, _ => none

/-- Whether the JSON keys of the fields `suf`, which stand at the positions
`n`, `n+1`, … of `fs0`, select exactly those positions. -/
def selectsFrom (fs0 : List (String × String × Ty)) : Nat → List (String × String × Ty) → Bool
  | _, [] => true
  | n, f :: fs => (selectField fs0 (fieldKey f) == some n) && selectsFrom fs0 (n + 1) fs

/-- Two object members that are decoded into different fields. -/
def Apart (fs : List (String × String × Ty)) (a b : String × Json) : Prop :=
  selectField fs a.1 ≠ selectField fs b.1

/-- The effect of one object member on the fields of a struct. -/
def stepMember (fs : List (String × String × Ty)) (vs : List GoVal) (kv : String × Json) :
    Option (List GoVal) :=
  match selectField fs kv.1 with
  | none => some vs
  | some i =>
    match fs[i]?, vs[i]? with
    | some f, some old => (decodeInto f.2.2 old kv.2).map (fun new => vs.set i new)
    | _, _ => none

/-! ## Well-formed response bodies -/

/-- A JSON string, given by its text and whether it was written with an
escape. -/
def strJson (p : String × Bool) : Json := .str p.1 p.2

/-- A JSON array of strings. -/
def strArr (xs : List (String × Bool)) : Json := .arr (xs.map strJson)

/-- The Go slice of the texts of a list of JSON strings. -/
def strSlice (xs : List (String × Bool)) : GoVal :=
  .slice (xs.map (fun p => GoVal.str (goString p.1)))

/-- The members of an object in which some members may be missing. -/
def present : List (String × Option Json) → List (String × Json)
  | [] => []
  | (k, some j) :: rest => (k, j) :: present rest
  | (_, none) :: rest => present rest

/-- What a field of type `t` of a fresh struct holds after decoding an object
in which the member of the field is `o`: its zero value when the member is
missing. -/
def decodeOpt (t : Ty) (o : Option Json) : Option GoVal :=
  match o with
  | none => some (zero t)
  | some j => decodeInto t (zero t) j

/-- The fields shared by the three response types around a result of type
`t`. -/
def envelopeFields (t : Ty) : List (String × String × Ty) := [
  ("Success", "success", .bool),
  ("Errors", "errors", .slice .string),
  ("Messages", "messages", .slice .string),
  ("Result", "result", t)]

/-- The text `body` is an envelope: one JSON object with the members
`success` (a boolean), `errors` and `messages` (arrays of strings) and
`result`, in any order. -/
def EnvelopeOf (body : String) (success : Bool) (errors messages : List (String × Bool))
    (result : Json) : Prop :=
  ∃ kvs, parseJSON body = some (.obj kvs) ∧
    kvs.Perm [("success", .bool success), ("errors", strArr errors),
      ("messages", strArr messages), ("result", result)]

/-- The JSON object `result` is a Spectrum application: its members, in any
order, are the eight plain attributes (with `dns` an object of `type` and
`name`, in any order) and those of `origin_direct`, `created_on`,
`modified_on` that are given. -/
def SpectrumAppObject (result : Json) (id protocol : String × Bool) (ipv4 : Bool)
    (dnsType dnsName : String × Bool) (originDirect : Option Json)
    (ipFirewall proxyProtocol : Bool) (tls : String × Bool)
    (createdOn modifiedOn : Option Json) : Prop :=
  ∃ akvs dkvs, result = .obj akvs ∧
    dkvs.Perm [("type", strJson dnsType), ("name", strJson dnsName)] ∧
    akvs.Perm (present [
      ("id", some (strJson id)),
      ("protocol", some (strJson protocol)),
      ("ipv4", some (.bool ipv4)),
      ("dns", some (.obj dkvs)),
      ("origin_direct", originDirect),
      ("ip_firewall", some (.bool ipFirewall)),
      ("proxy_protocol", some (.bool proxyProtocol)),
      ("tls", some (strJson tls)),
      ("created_on", createdOn),
      ("modified_on", modifiedOn)])

/-- A member that may stand for `success`: missing, `null` or a boolean. -/
def isFlag : Option Json → Bool
  | none => true
  | some .null => true
  | some (.bool _) => true
  | _ => false

/-- A JSON string or `null`. -/
def isStringOrNull : Json → Bool
  | .null => true
  | .str _ _ => true
  | _ => false

/-- A member that may stand for `errors` or `messages`: missing, `null`, or
an array whose elements are strings or `null`. -/
def isStringList : Option Json → Bool
  | none => true
  | some .null => true
  | some (.arr xs) => xs.all isStringOrNull
  | _ => false

/-- The text `body` is one JSON object with the member `result` and those of
`success`, `errors`, `messages` that are given, in any order. -/
def EnvelopeWith (body : String) (success errors messages : Option Json) (result : Json) :
    Prop :=
  ∃ kvs, parseJSON body = some (.obj kvs) ∧
    kvs.Perm (present [("success", success), ("errors", errors), ("messages", messages),
      ("result", some result)])

/-- The operation `name` looks at `success`, `errors` and `messages` only for
their JSON kinds: whenever the transport answered two bodies that are objects
around the same `result`, which decodes into the type `t`, the operation
returned the decoded result and no error for each body whose `success` is
missing, null or a boolean and whose `errors` and `messages` are missing, null
or arrays of strings (or nulls); and it returned a decode error for a body in
which one of the three is of another kind. -/
def FlagsByKindOnly {E : Type} (errUnmarshalError name : String) (t : Ty) (empty : GoVal)
    (answer1 answer2 : Except E String) (ret1 ret2 : GoVal × Option (WrappedError E)) : Prop :=
  ∀ (body1 body2 : String) (success1 success2 errors1 errors2 messages1 messages2 : Option Json)
    (result : Json) (v : GoVal),
    answer1 = .ok body1 → answer2 = .ok body2 →
    EnvelopeWith body1 success1 errors1 messages1 result →
    EnvelopeWith body2 success2 errors2 messages2 result →
    decodeInto t (zero t) result = some v →
    ((isFlag success1 && isStringList errors1 && isStringList messages1) = true →
      (isFlag success2 && isStringList errors2 && isStringList messages2) = true →
      ret1 = (v, none) ∧ ret2 = (v, none))
    ∧ ((isFlag success1 && isStringList errors1 && isStringList messages1) = false →
        ret1 = (empty, some { cause := .decode .mismatch, message := errUnmarshalError,
                              caller := name }))

/-! ## The tokens and the nesting of a serialised structure -/

mutual
/-- The depth to which arrays and objects are nested in a structure. -/
def Doc.nesting : Doc → Nat
  | .arr xs => nestingElems xs + 1
  | .obj kvs => nestingMembers kvs + 1
  | _ => 0
/-- The deepest nesting among the elements. -/
def nestingElems : List Doc → Nat
  | [] => 0
  | x :: xs => max x.nesting (nestingElems xs)
/-- The deepest nesting among the members. -/
def nestingMembers : List (GoString × Doc) → Nat
  | [] => 0
  | (_, x) :: kvs => max x.nesting (nestingMembers kvs)
end

/-- The token of a string literal written by `quote`. -/
def stringToken (s : GoString) : Token :=
  .str (String.mk (textOf s)) ((decodeRunes s).any escapedRune)

mutual
/-- The tokens of the text of a structure. -/
def Doc.tokens : Doc → List Token
  | .null => [.lit .null]
  | .bool b => [.lit (.bool b)]
  | .str s => [stringToken s]
  | .arr xs => .lbrack :: (tokensElems true xs ++ [.rbrack])
  | .obj kvs => .lbrace :: (tokensMembers true kvs ++ [.rbrace])
/-- The tokens of the elements of an array. -/
def tokensElems : Bool → List Doc → List Token
  | _, [] => []
  | first, x :: xs => (if first then [] else [.comma]) ++ (x.tokens ++ tokensElems false xs)
/-- The tokens of the members of an object. -/
def tokensMembers : Bool → List (GoString × Doc) → List Token
  | _, [] => []
  | first, (k, x) :: kvs =>
    (if first then [] else [.comma]) ++
      (stringToken k :: .colon :: (x.tokens ++ tokensMembers false kvs))
end

/-! ## Configuration shapes -/

/-- The field types of the configuration shapes: `string`, `bool`,
`[]string`. -/
def isLeaf : Ty → Bool
  | .string => true
  | .bool => true
  | .slice .string => true
  | _ => false

/-- Whether every field is of a leaf type and is not tagged `omitempty`. -/
def plainFields : List (String × String × Ty) → Bool
  | [] => true
  | f :: fs => isLeaf f.2.2 && !tagOmitEmpty f.2.1 && plainFields fs

/-- Whether the keys are pairwise different. -/
def distinctKeys : List String → Bool
  | [] => true
  | k :: ks => !ks.contains k && distinctKeys ks

/-- Whether every key is read back from its UTF-8 encoding. -/
def keysAreText : List String → Bool
  | [] => true
  | k :: ks => decide (textOf (goString k) = k.data) && keysAreText ks

/-- A struct of leaf fields whose JSON keys are pairwise different texts, each
selecting its own field. -/
def plainShape : Ty → Bool
  | .struct fs =>
    plainFields fs && selectsFrom fs 0 fs && distinctKeys (fs.map fieldKey)
      && keysAreText (fs.map fieldKey)
  | _ => false

/-- Reading a decoded `interface{}` value as a value of the type `t`: the
value is serialised again (`json.Marshal`) and the text is decoded into a
fresh `t` (`json.Unmarshal`). -/
def reinterpret (t : Ty) (v : GoVal) : Option GoVal :=
  match jsonMarshal .iface v with
  | some text =>
    match jsonUnmarshal t text with
    | .ok c => some c
    | .error _ => none
  | none => none

/-- Whether a string value is valid UTF-8 (any other value passes). -/
def validString : GoVal → Bool
  | .str s => validUTF8 s
  | _ => true

/-- Whether the strings of a value of a leaf type are valid UTF-8. -/
def validLeaf : GoVal → Bool
  | .str s => validUTF8 s
  | .slice xs => xs.all validString
  | _ => true

/-- Whether every string in the fields of a configuration value is valid
UTF-8. -/
def validStrings : GoVal → Bool
  | .struct vs => vs.all validLeaf
  | v => validLeaf v

/-- A member of an object, decoded into an empty interface, as an entry of a
map. -/
def genericMember (kv : String × Json) : GoString × GoVal :=
  (goString kv.1, (generic kv.2).getD .ifaceNil)

/-- The structure written for a JSON value that was decoded into an empty
interface. -/
def regenerate (j : Json) : Doc :=
  ((generic j).bind (encodeDoc .iface)).getD .null

/-- A member of an object, decoded into an empty interface and serialised
again. -/
def regenerateMember (kv : String × Json) : GoString × Doc :=
  (goString kv.1, regenerate kv.2)

/-- The members written for the fields `fs` with the structures `ds`. -/
def docMembers : List (String × String × Ty) → List Doc → List (GoString × Doc)
  | f :: fs, d :: ds => (goString (fieldKey f), d) :: docMembers fs ds
  | _, _ => []

/-- The structure `d` is what the value `v` of the leaf type `t` is serialised
to, and it is read back: into the type `t` as `v`, and into an empty interface
as a value that is serialised to `d` again. -/
def LeafRoundTrip (t : Ty) (v : GoVal) (d : Doc) : Prop :=
  encodeDoc t v = some d ∧ d.nesting ≤ 1 ∧ (∀ cur, decodeInto t cur d.toJson = some v)
    ∧ ∃ g, generic d.toJson = some g ∧ encodeDoc .iface g = some d

/-- A member of an object whose key is read back from its UTF-8 encoding and
whose value, decoded into an empty interface, is serialised to a structure
that denotes the value again. -/
def Regenerable (kv : String × Json) : Prop :=
  textOf (goString kv.1) = kv.1.data
    ∧ ∃ g d, generic kv.2 = some g ∧ encodeDoc .iface g = some d ∧ d.toJson = kv.2
        ∧ d.nesting ≤ 1

/-! ## The six operations, by name -/

/-- The six operations of the two files. -/
inductive Operation where
  | accessIdentityProviders
  | accessIdentityProviderDetails
  | createAccessIdentityProvider
  | updateAccessIdentityProvider
  | deleteAccessIdentityProvider
  | spectrumApp
  deriving DecidableEq, Repr

/-- Running an operation: the arguments it does not take are ignored. -/
def Operation.run {σ E : Type} (op : Operation) (api : API σ E)
    (accountID zoneID identifier : String) (provider : GoVal) (w : σ) : Returns σ E :=
  match op with
  | .accessIdentityProviders => api.AccessIdentityProviders accountID w
  | .accessIdentityProviderDetails => api.AccessIdentityProviderDetails accountID identifier w
  | .createAccessIdentityProvider => api.CreateAccessIdentityProvider accountID provider w
  | .updateAccessIdentityProvider =>
    api.UpdateAccessIdentityProvider accountID identifier provider w
  | .deleteAccessIdentityProvider => api.DeleteAccessIdentityProvider accountID identifier w
  | .spectrumApp => api.SpectrumApp zoneID identifier w

/-- The call site an operation's errors record: the method's name. -/
def Operation.name : Operation → String
  | .accessIdentityProviders => "(*API).AccessIdentityProviders"
  | .accessIdentityProviderDetails => "(*API).AccessIdentityProviderDetails"
  | .createAccessIdentityProvider => "(*API).CreateAccessIdentityProvider"
  | .updateAccessIdentityProvider => "(*API).UpdateAccessIdentityProvider"
  | .deleteAccessIdentityProvider => "(*API).DeleteAccessIdentityProvider"
  | .spectrumApp => "(*API).SpectrumApp"


/-! ## Sample response bodies -/

/-- A response body whose result has `modified_on` and no `created_on`. -/
def bodyCreatedOnMissing : String :=
  "\x7b\"success\":true,\"errors\":[],\"messages\":[],\"result\":\x7b\"id\":\"a1\",\"protocol\":\"tcp/22\",\"ipv4\":true,\"dns\":\x7b\"type\":\"CNAME\",\"name\":\"spectrum.example.com\"\x7d,\"origin_direct\":[\"tcp://192.0.2.1:22\"],\"ip_firewall\":true,\"proxy_protocol\":false,\"tls\":\"off\",\"modified_on\":\"2018-03-28T21:25:55.643771Z\"\x7d\x7d"

/-- A response body whose result has `origin_direct` with zero elements. -/
def bodyOriginDirectEmpty : String :=
  "\x7b\"success\":true,\"errors\":[],\"messages\":[],\"result\":\x7b\"id\":\"a1\",\"protocol\":\"tcp/22\",\"ipv4\":true,\"dns\":\x7b\"type\":\"CNAME\",\"name\":\"spectrum.example.com\"\x7d,\"origin_direct\":[],\"ip_firewall\":true,\"proxy_protocol\":false,\"tls\":\"off\",\"created_on\":\"2018-03-28T21:25:55.643771Z\",\"modified_on\":\"2018-03-28T21:25:55.643771Z\"\x7d\x7d"

/-- A response body whose result has no `origin_direct`. -/
def bodyOriginDirectMissing : String :=
  "\x7b\"success\":true,\"errors\":[],\"messages\":[],\"result\":\x7b\"id\":\"a1\",\"protocol\":\"tcp/22\",\"ipv4\":true,\"dns\":\x7b\"type\":\"CNAME\",\"name\":\"spectrum.example.com\"\x7d,\"ip_firewall\":true,\"proxy_protocol\":false,\"tls\":\"off\",\"created_on\":\"2018-03-28T21:25:55.643771Z\",\"modified_on\":\"2018-03-28T21:25:55.643771Z\"\x7d\x7d"

/-- A response body that reports success. -/
def bodySuccess : String :=
  "\x7b\"success\":true,\"errors\":[],\"messages\":[],\"result\":\x7b\"id\":\"a1\",\"protocol\":\"tcp/22\",\"ipv4\":true,\"dns\":\x7b\"type\":\"CNAME\",\"name\":\"spectrum.example.com\"\x7d,\"origin_direct\":[\"tcp://192.0.2.1:22\"],\"ip_firewall\":true,\"proxy_protocol\":false,\"tls\":\"off\",\"created_on\":\"2018-03-28T21:25:55.643771Z\",\"modified_on\":\"2018-03-28T21:25:55.643771Z\"\x7d\x7d"

/-- The same result in an envelope that reports failure, with an error and a
message. -/
def bodyFailure : String :=
  "\x7b\"success\":false,\"errors\":[\"zone is locked\"],\"messages\":[\"try later\"],\"result\":\x7b\"id\":\"a1\",\"protocol\":\"tcp/22\",\"ipv4\":true,\"dns\":\x7b\"type\":\"CNAME\",\"name\":\"spectrum.example.com\"\x7d,\"origin_direct\":[\"tcp://192.0.2.1:22\"],\"ip_firewall\":true,\"proxy_protocol\":false,\"tls\":\"off\",\"created_on\":\"2018-03-28T21:25:55.643771Z\",\"modified_on\":\"2018-03-28T21:25:55.643771Z\"\x7d\x7d"

/-- The Spectrum application record with the given fields. -/
def spectrumRecord (id protocol : String) (ipv4 : Bool) (dnsType dnsName : String)
    (originDirect : GoVal) (ipFirewall proxyProtocol : Bool) (tls : String)
    (createdOn modifiedOn : GoVal) : GoVal :=
  .struct [.str (goString id), .str (goString protocol), .bool ipv4,
    .struct [.str (goString dnsType), .str (goString dnsName)],
    originDirect, .bool ipFirewall, .bool proxyProtocol, .str (goString tls),
    createdOn, modifiedOn]

/-- A client whose transport answers `answer1` in world `0` and `answer2` in
every other world. -/
def twoAnswers {E : Type} (answer1 answer2 : Except E String)
    (errMakeRequestError errUnmarshalError : String) : API Nat E :=
  { makeRequest := fun _ _ _ n => (if n = 0 then answer1 else answer2, n + 1)
    errMakeRequestError := errMakeRequestError
    errUnmarshalError := errUnmarshalError }

/-- The result object of the sample bodies. -/
def sampleResult : Json :=
  .obj [("id", .str "a1" false), ("protocol", .str "tcp/22" false), ("ipv4", .bool true),
    ("dns", .obj [("type", .str "CNAME" false), ("name", .str "spectrum.example.com" false)]),
    ("origin_direct", .arr [.str "tcp://192.0.2.1:22" false]),
    ("ip_firewall", .bool true), ("proxy_protocol", .bool false), ("tls", .str "off" false),
    ("created_on", .str "2018-03-28T21:25:55.643771Z" false),
    ("modified_on", .str "2018-03-28T21:25:55.643771Z" false)]

/-- The record of the sample bodies. -/
def sampleRecord : GoVal :=
  spectrumRecord "a1" "tcp/22" true "CNAME" "spectrum.example.com"
    (.slice [.str (goString "tcp://192.0.2.1:22")]) true false "off"
    (.ptrTime fixtureInstant) (.ptrTime fixtureInstant)

/-- A value of `GenericOIDCConfiguration`. -/
def oidcConfig : GoVal := .struct [
  .str (goString "client"), .str (goString "secret"),
  .str (goString "https://idp.example/auth"), .str (goString "https://idp.example/token"),
  .str (goString "https://idp.example/certs")]


/-- The timestamp `2018-03-28T21:25:55.643771Z` of `TestSpectrumApp`. -/
def fixtureTimestamp : Timestamp :=
  { year := 2018, month := 3, day := 28, hour := 21, minute := 25, second := 55
    fraction := [6, 4, 3, 7, 7, 1], zone := none }

/-- The same result in an envelope that reports failure with an error given as
an object of `code` and `message`. -/
def bodyErrorObjects : String :=
  "\x7b\"success\":false,\"errors\":[\x7b\"code\":10000,\"message\":\"Authentication error\"\x7d],\"messages\":[],\"result\":\x7b\"id\":\"a1\",\"protocol\":\"tcp/22\",\"ipv4\":true,\"dns\":\x7b\"type\":\"CNAME\",\"name\":\"spectrum.example.com\"\x7d,\"origin_direct\":[\"tcp://192.0.2.1:22\"],\"ip_firewall\":true,\"proxy_protocol\":false,\"tls\":\"off\",\"created_on\":\"2018-03-28T21:25:55.643771Z\",\"modified_on\":\"2018-03-28T21:25:55.643771Z\"\x7d\x7d"

/-- The error object of `bodyErrorObjects`. -/
def sampleErrorObject : Json :=
  .obj [("code", .num "10000"), ("message", .str "Authentication error" false)]

/-- A value of `GitHubConfiguration` whose `ClientID` is the seven bytes
`c l 0xFF i e n t`, which are not UTF-8. -/
def invalidClientID : GoVal := .struct [
  .str [99, 108, 255, 105, 101, 110, 116],
  .str (goString "secret")]

/-- The value that comes back for `invalidClientID`: the byte `0xFF` has
become the three bytes of U+FFFD. -/
def coercedClientID : GoVal := .struct [
  .str [99, 108, 239, 191, 189, 105, 101, 110, 116],
  .str (goString "secret")]

/-- A response body whose `created_on` writes the hour with one digit, which
`time.Parse` accepts. -/
def bodyOneDigitHour : String :=
  "\x7b\"success\":true,\"errors\":[],\"messages\":[],\"result\":\x7b\"id\":\"a1\",\"created_on\":\"2018-03-28T1:25:55Z\"\x7d\x7d"

/-- A response body whose `config` holds a number beyond the range of
`float64`. -/
def bodyHugeNumber : String :=
  "\x7b\"success\":true,\"errors\":[],\"messages\":[],\"result\":\x7b\"id\":\"p1\",\"name\":\"n\",\"type\":\"oidc\",\"config\":\x7b\"ttl\":1e999\x7d\x7d\x7d"

/-! ## Paths -/

theorem sprintf_identity_provider (accountID identifier : String) :
    sprintf "/accounts/%s/access/identity_providers/%s" [accountID, identifier]
      = "/accounts/" ++ accountID ++ "/access/identity_providers" ++ "/" ++ identifier := by
  apply String.ext
  simp [sprintf, sprintfChars, String.data_append]

theorem sprintf_spectrum_app (zoneID applicationID : String) :
    sprintf "/zones/%s/spectrum/apps/%s" [zoneID, applicationID]
      = "/zones/" ++ zoneID ++ "/spectrum/apps/" ++ applicationID := by
  apply String.ext
  simp [sprintf, sprintfChars, String.data_append]

/-! ## The six methods share one tail -/

theorem AccessIdentityProviders_eq {σ E : Type} (api : API σ E) (accountID : String) (w : σ) :
    api.AccessIdentityProviders accountID w
      = finish api "(*API).AccessIdentityProviders"
          AccessIdentityProvidersListResponse (.slice [])
          (api.makeRequest "GET" ("/accounts/" ++ accountID ++ "/access/identity_providers")
            .ifaceNil w) := by
  unfold API.AccessIdentityProviders finish
  rfl

theorem AccessIdentityProviderDetails_eq {σ E : Type} (api : API σ E)
    (accountID identityProviderID : String) (w : σ) :
    api.AccessIdentityProviderDetails accountID identityProviderID w
      = finish api "(*API).AccessIdentityProviderDetails"
          AccessIdentityProviderListResponse (zero AccessIdentityProvider)
          (api.makeRequest "GET"
            ("/accounts/" ++ accountID ++ "/access/identity_providers" ++ "/" ++ identityProviderID)
            .ifaceNil w) := by
  unfold API.AccessIdentityProviderDetails finish
  rw [sprintf_identity_provider]

theorem CreateAccessIdentityProvider_eq {σ E : Type} (api : API σ E) (accountID : String)
    (provider : GoVal) (w : σ) :
    api.CreateAccessIdentityProvider accountID provider w
      = finish api "(*API).CreateAccessIdentityProvider"
          AccessIdentityProviderListResponse (zero AccessIdentityProvider)
          (api.makeRequest "POST" ("/accounts/" ++ accountID ++ "/access/identity_providers")
            (.iface AccessIdentityProvider provider) w) := by
  unfold API.CreateAccessIdentityProvider finish
  rfl

theorem UpdateAccessIdentityProvider_eq {σ E : Type} (api : API σ E)
    (accountID identityProviderUUID : String) (provider : GoVal) (w : σ) :
    api.UpdateAccessIdentityProvider accountID identityProviderUUID provider w
      = finish api "(*API).UpdateAccessIdentityProvider"
          AccessIdentityProviderListResponse (zero AccessIdentityProvider)
          (api.makeRequest "PUT"
            ("/accounts/" ++ accountID ++ "/access/identity_providers" ++ "/" ++ identityProviderUUID)
            (.iface AccessIdentityProvider provider) w) := by
  unfold API.UpdateAccessIdentityProvider finish
  rw [sprintf_identity_provider]

theorem DeleteAccessIdentityProvider_eq {σ E : Type} (api : API σ E)
    (accountID identityProviderUUID : String) (w : σ) :
    api.DeleteAccessIdentityProvider accountID identityProviderUUID w
      = finish api "(*API).DeleteAccessIdentityProvider"
          AccessIdentityProviderListResponse (zero AccessIdentityProvider)
          (api.makeRequest "DELETE"
            ("/accounts/" ++ accountID ++ "/access/identity_providers" ++ "/" ++ identityProviderUUID)
            .ifaceNil w) := by
  unfold API.DeleteAccessIdentityProvider finish
  rw [sprintf_identity_provider]

theorem SpectrumApp_eq {σ E : Type} (api : API σ E) (zoneID applicationID : String) (w : σ) :
    api.SpectrumApp zoneID applicationID w
      = finish api "(*API).SpectrumApp"
          SpectrumAppDetailResponse (zero SpectrumApp)
          (api.makeRequest "GET" ("/zones/" ++ zoneID ++ "/spectrum/apps/" ++ applicationID)
            .ifaceNil w) := by
  unfold API.SpectrumApp finish
  rw [sprintf_spectrum_app]

theorem finish_snd {σ E : Type} (api : API σ E) (name : String) (t : Ty) (empty : GoVal)
    (r : Except E String × σ) : (finish api name t empty r).2 = r.2 := by
  obtain ⟨a, w1⟩ := r
  cases a with
  | error e => rfl
  | ok res =>
    simp only [finish]
    split <;> rfl

/-! ## One transport call per operation -/

/-- C1: on a transport that records its calls, each of the six operations
appends exactly one call to the log, with the verb, path and body of its row;
the item path is the collection path followed by "/" and the identifier. -/
theorem C1_one_call_with_verb_path_body {E : Type}
    (respond : List Request → Request → Except E String) (m1 m2 : String)
    (accountID zoneID identifier : String) (provider : GoVal) (log : List Request) :
    ((recorder respond m1 m2).AccessIdentityProviders accountID log).2
        = log ++ [{ verb := "GET"
                    uri := "/accounts/" ++ accountID ++ "/access/identity_providers"
                    body := .ifaceNil }]
    ∧ ((recorder respond m1 m2).AccessIdentityProviderDetails accountID identifier log).2
        = log ++ [{ verb := "GET"
                    uri := "/accounts/" ++ accountID ++ "/access/identity_providers" ++ "/" ++ identifier
                    body := .ifaceNil }]
    ∧ ((recorder respond m1 m2).CreateAccessIdentityProvider accountID provider log).2
        = log ++ [{ verb := "POST"
                    uri := "/accounts/" ++ accountID ++ "/access/identity_providers"
                    body := .iface AccessIdentityProvider provider }]
    ∧ ((recorder respond m1 m2).UpdateAccessIdentityProvider accountID identifier provider log).2
        = log ++ [{ verb := "PUT"
                    uri := "/accounts/" ++ accountID ++ "/access/identity_providers" ++ "/" ++ identifier
                    body := .iface AccessIdentityProvider provider }]
    ∧ ((recorder respond m1 m2).DeleteAccessIdentityProvider accountID identifier log).2
        = log ++ [{ verb := "DELETE"
                    uri := "/accounts/" ++ accountID ++ "/access/identity_providers" ++ "/" ++ identifier
                    body := .ifaceNil }]
    ∧ ((recorder respond m1 m2).SpectrumApp zoneID identifier log).2
        = log ++ [{ verb := "GET"
                    uri := "/zones/" ++ zoneID ++ "/spectrum/apps/" ++ identifier
                    body := .ifaceNil }] := by
  simp only [AccessIdentityProviders_eq, AccessIdentityProviderDetails_eq,
    CreateAccessIdentityProvider_eq, UpdateAccessIdentityProvider_eq,
    DeleteAccessIdentityProvider_eq, SpectrumApp_eq, finish_snd]
  simp [recorder]


/-! ## Errors -/

theorem finish_contract {σ E : Type} (api : API σ E) (name : String) (t : Ty) (empty : GoVal)
    (answer : Except E String) (w : σ) :
    ErrorContract api name t answer (finish api name t empty (answer, w)).1 := by
  cases answer with
  | error e =>
    refine ⟨?_, ?_, ?_, ?_, ?_⟩
    · simp [finish]
    · intro e1 h; cases h; rfl
    · intro body h; cases h
    · intro body j h; cases h
    · intro body j v h; cases h
  | ok res =>
    cases hp : parseJSON res with
    | none =>
      have hf : (finish api name t empty (Except.ok res, w)).1
          = (empty, some (errorsWrap (.decode .malformed) api.errUnmarshalError name)) := by
        simp [finish, jsonUnmarshal, hp]
      rw [hf]
      refine ⟨?_, ?_, ?_, ?_, ?_⟩
      · simp [hp]
      · intro e h; cases h
      · intro body h _; rfl
      · intro body j h h2; cases h; rw [hp] at h2; cases h2
      · intro body j v h h2; cases h; rw [hp] at h2; cases h2
    | some j =>
      cases hd : decodeInto t (zero t) j with
      | none =>
        have hf : (finish api name t empty (Except.ok res, w)).1
            = (empty, some (errorsWrap (.decode .mismatch) api.errUnmarshalError name)) := by
          simp [finish, jsonUnmarshal, hp, hd]
        rw [hf]
        refine ⟨?_, ?_, ?_, ?_, ?_⟩
        · simp [hp, hd]
        · intro e h; cases h
        · intro body h h2; cases h; rw [hp] at h2; cases h2
        · intro body j1 h h2 _; rfl
        · intro body j1 v h h2 h3; cases h; rw [hp] at h2; cases h2; rw [hd] at h3; cases h3
      | some v =>
        have hf : (finish api name t empty (Except.ok res, w)).1
            = (getField t v "Result", none) := by
          simp [finish, jsonUnmarshal, hp, hd]
        rw [hf]
        refine ⟨?_, ?_, ?_, ?_, ?_⟩
        · simp [hp, hd]
        · intro e h; cases h
        · intro body h h2; cases h; rw [hp] at h2; cases h2
        · intro body j1 h h2 h3; cases h; rw [hp] at h2; cases h2; rw [hd] at h3; cases h3
        · intro body j1 v1 h h2 h3; cases h; rw [hp] at h2; cases h2; rw [hd] at h3; cases h3; rfl

theorem finish_identifies {σ E : Type} (api : API σ E) (name : String) (t : Ty) (empty : GoVal)
    (answer : Except E String) (w : σ) :
    Identifies api name t answer (finish api name t empty (answer, w)).1 := by
  intro err h
  cases answer with
  | error e =>
    simp [finish, errorsWrap] at h
    subst h
    exact ⟨rfl, Or.inl ⟨e, rfl, rfl, rfl⟩⟩
  | ok res =>
    cases hu : jsonUnmarshal t res with
    | error d =>
      simp [finish, hu, errorsWrap] at h
      subst h
      exact ⟨rfl, Or.inr ⟨res, d, rfl, hu, rfl, rfl⟩⟩
    | ok v =>
      simp [finish, hu] at h

theorem finish_caller {σ E : Type} (api : API σ E) (name : String) (t : Ty) (empty : GoVal)
    (r : Except E String × σ) (err : WrappedError E)
    (h : (finish api name t empty r).1.2 = some err) : err.caller = name := by
  obtain ⟨answer, w⟩ := r
  exact (finish_identifies api name t empty answer w err h).1

theorem run_caller {σ E : Type} (api : API σ E) (op : Operation)
    (accountID zoneID identifier : String) (provider : GoVal) (w : σ) (err : WrappedError E)
    (h : (op.run api accountID zoneID identifier provider w).1.2 = some err) :
    err.caller = op.name := by
  cases op <;>
    simp only [Operation.run, AccessIdentityProviders_eq, AccessIdentityProviderDetails_eq,
      CreateAccessIdentityProvider_eq, UpdateAccessIdentityProvider_eq,
      DeleteAccessIdentityProvider_eq, SpectrumApp_eq] at h <;>
    exact finish_caller _ _ _ _ _ _ h

/-- C2: each of the six operations returns an error exactly when the transport
call fails or the response body does not decode into its envelope (it is not
well-formed JSON, or a value has the wrong JSON type); the error returned for
a failed transport carries the transport's error as its cause under the
request message, whatever a body would have been; the error returned for a
body that does not decode carries the decoder's error as its cause under the
decode message; and in every other case the decoded result is returned with no
error. -/
theorem C2_error_iff_transport_or_decode {σ E : Type} (api : API σ E)
    (accountID zoneID identifier : String) (provider : GoVal) (w : σ) :
    ErrorContract api "(*API).AccessIdentityProviders" AccessIdentityProvidersListResponse
        (api.makeRequest "GET" ("/accounts/" ++ accountID ++ "/access/identity_providers")
          .ifaceNil w).1
        (api.AccessIdentityProviders accountID w).1
    ∧ ErrorContract api "(*API).AccessIdentityProviderDetails" AccessIdentityProviderListResponse
        (api.makeRequest "GET"
          ("/accounts/" ++ accountID ++ "/access/identity_providers" ++ "/" ++ identifier)
          .ifaceNil w).1
        (api.AccessIdentityProviderDetails accountID identifier w).1
    ∧ ErrorContract api "(*API).CreateAccessIdentityProvider" AccessIdentityProviderListResponse
        (api.makeRequest "POST" ("/accounts/" ++ accountID ++ "/access/identity_providers")
          (.iface AccessIdentityProvider provider) w).1
        (api.CreateAccessIdentityProvider accountID provider w).1
    ∧ ErrorContract api "(*API).UpdateAccessIdentityProvider" AccessIdentityProviderListResponse
        (api.makeRequest "PUT"
          ("/accounts/" ++ accountID ++ "/access/identity_providers" ++ "/" ++ identifier)
          (.iface AccessIdentityProvider provider) w).1
        (api.UpdateAccessIdentityProvider accountID identifier provider w).1
    ∧ ErrorContract api "(*API).DeleteAccessIdentityProvider" AccessIdentityProviderListResponse
        (api.makeRequest "DELETE"
          ("/accounts/" ++ accountID ++ "/access/identity_providers" ++ "/" ++ identifier)
          .ifaceNil w).1
        (api.DeleteAccessIdentityProvider accountID identifier w).1
    ∧ ErrorContract api "(*API).SpectrumApp" SpectrumAppDetailResponse
        (api.makeRequest "GET" ("/zones/" ++ zoneID ++ "/spectrum/apps/" ++ identifier)
          .ifaceNil w).1
        (api.SpectrumApp zoneID identifier w).1 := by
  simp only [AccessIdentityProviders_eq, AccessIdentityProviderDetails_eq,
    CreateAccessIdentityProvider_eq, UpdateAccessIdentityProvider_eq,
    DeleteAccessIdentityProvider_eq, SpectrumApp_eq]
  exact ⟨finish_contract _ _ _ _ _ _, finish_contract _ _ _ _ _ _, finish_contract _ _ _ _ _ _,
    finish_contract _ _ _ _ _ _, finish_contract _ _ _ _ _ _, finish_contract _ _ _ _ _ _⟩

/-- C8: an error returned by any of the six operations carries the underlying
error as its cause (the transport's under the message `errMakeRequestError`,
the decoder's under the message `errUnmarshalError`) and records the operation
that failed as its call site; so whenever two different operations fail, on the
same underlying error or not, the two returned errors are different. -/
theorem C8_error_identifies_operation {σ E : Type} (api : API σ E)
    (accountID zoneID identifier : String) (provider : GoVal) (w : σ) :
    Identifies api "(*API).AccessIdentityProviders" AccessIdentityProvidersListResponse
        (api.makeRequest "GET" ("/accounts/" ++ accountID ++ "/access/identity_providers")
          .ifaceNil w).1
        (api.AccessIdentityProviders accountID w).1
    ∧ Identifies api "(*API).AccessIdentityProviderDetails" AccessIdentityProviderListResponse
        (api.makeRequest "GET"
          ("/accounts/" ++ accountID ++ "/access/identity_providers" ++ "/" ++ identifier)
          .ifaceNil w).1
        (api.AccessIdentityProviderDetails accountID identifier w).1
    ∧ Identifies api "(*API).CreateAccessIdentityProvider" AccessIdentityProviderListResponse
        (api.makeRequest "POST" ("/accounts/" ++ accountID ++ "/access/identity_providers")
          (.iface AccessIdentityProvider provider) w).1
        (api.CreateAccessIdentityProvider accountID provider w).1
    ∧ Identifies api "(*API).UpdateAccessIdentityProvider" AccessIdentityProviderListResponse
        (api.makeRequest "PUT"
          ("/accounts/" ++ accountID ++ "/access/identity_providers" ++ "/" ++ identifier)
          (.iface AccessIdentityProvider provider) w).1
        (api.UpdateAccessIdentityProvider accountID identifier provider w).1
    ∧ Identifies api "(*API).DeleteAccessIdentityProvider" AccessIdentityProviderListResponse
        (api.makeRequest "DELETE"
          ("/accounts/" ++ accountID ++ "/access/identity_providers" ++ "/" ++ identifier)
          .ifaceNil w).1
        (api.DeleteAccessIdentityProvider accountID identifier w).1
    ∧ Identifies api "(*API).SpectrumApp" SpectrumAppDetailResponse
        (api.makeRequest "GET" ("/zones/" ++ zoneID ++ "/spectrum/apps/" ++ identifier)
          .ifaceNil w).1
        (api.SpectrumApp zoneID identifier w).1
    ∧ (∀ (op1 op2 : Operation) (accountID2 zoneID2 identifier2 : String) (provider2 : GoVal)
        (w2 : σ), op1 ≠ op2 →
        Distinguishable (op1.run api accountID zoneID identifier provider w).1.2
          (op2.run api accountID2 zoneID2 identifier2 provider2 w2).1.2) := by
  refine ⟨?_, ?_, ?_, ?_, ?_, ?_, ?_⟩
  · rw [AccessIdentityProviders_eq]; exact finish_identifies _ _ _ _ _ _
  · rw [AccessIdentityProviderDetails_eq]; exact finish_identifies _ _ _ _ _ _
  · rw [CreateAccessIdentityProvider_eq]; exact finish_identifies _ _ _ _ _ _
  · rw [UpdateAccessIdentityProvider_eq]; exact finish_identifies _ _ _ _ _ _
  · rw [DeleteAccessIdentityProvider_eq]; exact finish_identifies _ _ _ _ _ _
  · rw [SpectrumApp_eq]; exact finish_identifies _ _ _ _ _ _
  · intro op1 op2 a2 z2 i2 p2 w2 hne ea eb ha hb heq
    have h1 := run_caller api op1 _ _ _ _ _ ea ha
    have h2 := run_caller api op2 _ _ _ _ _ eb hb
    rw [heq] at h1
    rw [h1] at h2
    cases op1 <;> cases op2 <;> first
      | exact hne rfl
      | (simp [Operation.name] at h2)

/-! ## Decoding an object does not depend on the order of its members -/

theorem decodeMembers_cons (fs : List (String × String × Ty)) (vs : List GoVal)
    (kv : String × Json) (kvs : List (String × Json)) :
    decodeMembers fs vs (kv :: kvs)
      = (stepMember fs vs kv).bind (fun vs1 => decodeMembers fs vs1 kvs) := by
  obtain ⟨k, v⟩ := kv
  rw [decodeMembers]
  unfold stepMember
  simp only [List.get?_eq_getElem?]
  cases selectField fs k with
  | none => rfl
  | some i =>
    simp only
    cases fs[i]? with
    | none => rfl
    | some f =>
      cases vs[i]? with
      | none => rfl
      | some old =>
        simp only
        cases decodeInto f.2.2 old v <;> rfl

theorem stepMember_comm (fs : List (String × String × Ty)) (vs : List GoVal)
    (a b : String × Json) (h : Apart fs a b) :
    (stepMember fs vs a).bind (fun vs1 => stepMember fs vs1 b)
      = (stepMember fs vs b).bind (fun vs1 => stepMember fs vs1 a) := by
  unfold Apart at h
  unfold stepMember
  cases ha : selectField fs a.1 with
  | none =>
    cases hb : selectField fs b.1 with
    | none => simp [ha, hb]
    | some j =>
      cases fs[j]? <;> cases vs[j]? <;> simp [ha, hb]
  | some i =>
    cases hb : selectField fs b.1 with
    | none =>
      cases fs[i]? <;> cases vs[i]? <;> simp [ha, hb]
    | some j =>
      have hij : i ≠ j := by
        intro e; apply h; rw [ha, hb, e]
      have hji : j ≠ i := fun e => hij e.symm
      rcases hfi : fs[i]? with _ | fi
      · rcases hfj : fs[j]? with _ | fj
        · simp [hfi, hfj]
        · rcases hvj : vs[j]? with _ | oj
          · simp [hfi, hfj, hvj]
          · rcases hdb : decodeInto fj.2.2 oj b.2 with _ | nb <;> simp [hdb, hfi, hfj, hvj]
      · rcases hvi : vs[i]? with _ | oi
        · rcases hfj : fs[j]? with _ | fj
          · simp [hfi, hfj, hvi]
          · rcases hvj : vs[j]? with _ | oj
            · simp [hfi, hfj, hvi, hvj]
            · rcases hdb : decodeInto fj.2.2 oj b.2 with _ | nb <;>
                simp [hdb, hfi, hvi, hfj, hvj, List.getElem?_set_ne hji]
        · rcases hfj : fs[j]? with _ | fj
          · rcases hda : decodeInto fi.2.2 oi a.2 with _ | na <;> simp [hda, hfj, hfi, hvi]
          · rcases hvj : vs[j]? with _ | oj
            · rcases hda : decodeInto fi.2.2 oi a.2 with _ | na <;>
                simp [hda, hfj, hvj, hfi, hvi, List.getElem?_set_ne hij]
            · rcases hda : decodeInto fi.2.2 oi a.2 with _ | na <;>
                rcases hdb : decodeInto fj.2.2 oj b.2 with _ | nb <;>
                simp [hda, hdb, hfi, hvi, hfj, hvj, List.getElem?_set_ne hij,
                  List.getElem?_set_ne hji]
              exact List.set_comm _ _ _ hij

theorem decodeMembers_swap (fs : List (String × String × Ty)) (vs : List GoVal)
    (a b : String × Json) (rest : List (String × Json)) (h : Apart fs a b) :
    decodeMembers fs vs (a :: b :: rest) = decodeMembers fs vs (b :: a :: rest) := by
  simp only [decodeMembers_cons]
  rw [← Option.bind_assoc, ← Option.bind_assoc, stepMember_comm fs vs a b h]

theorem apart_symm (fs : List (String × String × Ty)) (a b : String × Json)
    (h : Apart fs a b) : Apart fs b a := fun e => h e.symm

theorem decodeMembers_perm (fs : List (String × String × Ty)) {l1 l2 : List (String × Json)}
    (hp : l1.Perm l2) :
    l1.Pairwise (Apart fs) → ∀ vs, decodeMembers fs vs l1 = decodeMembers fs vs l2 := by
  induction hp with
  | nil => intro _ _; rfl
  | cons x _ ih =>
    intro hpw vs
    simp only [decodeMembers_cons]
    cases stepMember fs vs x with
    | none => rfl
    | some vs1 => exact ih (List.Pairwise.of_cons hpw) vs1
  | swap x y l =>
    intro hpw vs
    apply decodeMembers_swap
    exact (List.pairwise_cons.mp hpw).1 x (List.mem_cons_self _ _)
  | trans h1 _ ih1 ih2 =>
    intro hpw vs
    rw [ih1 hpw vs]
    apply ih2
    exact (h1.pairwise_iff (fun {a b} h => apart_symm fs a b h)).mp hpw


/-! ## Decoding the members of an object, field by field -/

theorem decodeMembers_nil (fs : List (String × String × Ty)) (vs : List GoVal) :
    decodeMembers fs vs [] = some vs := by
  rw [decodeMembers]

theorem decodeMembers_optMembers_aux (fs0 : List (String × String × Ty)) :
    ∀ (suf pre : List (String × String × Ty)) (vpre vsuf : List GoVal) (osuf : List (Option Json)),
      fs0 = pre ++ suf → pre.length = vpre.length → suf.length = vsuf.length →
      suf.length = osuf.length → selectsFrom fs0 pre.length suf = true →
      decodeMembers fs0 (vpre ++ vsuf) (optMembers suf osuf)
        = (decodeEach suf vsuf osuf).map (fun ws => vpre ++ ws) := by
  intro suf
  induction suf with
  | nil =>
    intro pre vpre vsuf osuf _ _ h3 h4 _
    cases vsuf with
    | cons _ _ => simp at h3
    | nil =>
      cases osuf with
      | cons _ _ => simp at h4
      | nil => simp [optMembers, decodeEach, decodeMembers_nil]
  | cons f suf ih =>
    intro pre vpre vsuf osuf h1 h2 h3 h4 h5
    cases vsuf with
    | nil => simp at h3
    | cons v vsuf =>
      cases osuf with
      | nil => simp at h4
      | cons o osuf =>
        simp only [selectsFrom, Bool.and_eq_true, beq_iff_eq] at h5
        have ih1 := ih (pre ++ [f]) (vpre ++ [v]) vsuf osuf (by simp [h1]) (by simp [h2])
          (by simpa using h3) (by simpa using h4) (by simpa using h5.2)
        cases o with
        | none =>
          simp only [optMembers, decodeEach]
          have e : vpre ++ v :: vsuf = (vpre ++ [v]) ++ vsuf := by simp
          rw [e, ih1]
          cases decodeEach suf vsuf osuf <;> simp
        | some j =>
          simp only [optMembers, decodeEach, decodeMembers_cons]
          have hf : fs0[pre.length]? = some f := by
            rw [h1, List.getElem?_append_right (le_refl _)]; simp
          have hv : (vpre ++ v :: vsuf)[pre.length]? = some v := by
            rw [h2, List.getElem?_append_right (le_refl _)]; simp
          have hs : ∀ w, (vpre ++ v :: vsuf).set pre.length w = (vpre ++ [w]) ++ vsuf := by
            intro w; rw [h2, List.set_append_right _ _ (le_refl _)]; simp
          unfold stepMember
          simp only [h5.1, hf, hv]
          cases hd : decodeInto f.2.2 v j with
          | none => simp
          | some w =>
            simp only [Option.map_some', Option.some_bind, hs]
            have ih2 := ih (pre ++ [f]) (vpre ++ [w]) vsuf osuf (by simp [h1]) (by simp [h2])
              (by simpa using h3) (by simpa using h4) (by simpa using h5.2)
            rw [ih2]
            cases decodeEach suf vsuf osuf <;> simp

theorem decodeMembers_optMembers (fs : List (String × String × Ty)) (vs : List GoVal)
    (os : List (Option Json)) (h1 : fs.length = vs.length) (h2 : fs.length = os.length)
    (h3 : selectsFrom fs 0 fs = true) :
    decodeMembers fs vs (optMembers fs os) = decodeEach fs vs os := by
  have h := decodeMembers_optMembers_aux fs fs [] [] vs os rfl rfl h1 h2 h3
  simpa using h

theorem optMembers_select (fs0 : List (String × String × Ty)) :
    ∀ (suf : List (String × String × Ty)) (n : Nat) (os : List (Option Json)),
      selectsFrom fs0 n suf = true →
      (∀ kv ∈ optMembers suf os, ∃ m, n ≤ m ∧ selectField fs0 kv.1 = some m)
      ∧ (optMembers suf os).Pairwise (Apart fs0) := by
  intro suf
  induction suf with
  | nil => intro n os _; simp [optMembers]
  | cons f suf ih =>
    intro n os h
    simp only [selectsFrom, Bool.and_eq_true, beq_iff_eq] at h
    cases os with
    | nil => simp [optMembers]
    | cons o os =>
      obtain ⟨ihm, ihp⟩ := ih (n + 1) os h.2
      cases o with
      | none =>
        simp only [optMembers]
        refine ⟨?_, ihp⟩
        intro kv hk
        obtain ⟨m, hm, hs⟩ := ihm kv hk
        exact ⟨m, by omega, hs⟩
      | some j =>
        simp only [optMembers]
        refine ⟨?_, ?_⟩
        · intro kv hk
          rcases List.mem_cons.mp hk with rfl | hk
          · exact ⟨n, le_refl _, h.1⟩
          · obtain ⟨m, hm, hs⟩ := ihm kv hk
            exact ⟨m, by omega, hs⟩
        · refine List.pairwise_cons.mpr ⟨?_, ihp⟩
          intro kv hk
          obtain ⟨m, hm, hs⟩ := ihm kv hk
          unfold Apart
          simp only [h.1, hs]
          intro e
          cases e
          omega

/-- Decoding an object whose members are, in any order, the values `os` of the
fields `fs` (each at most once) is the field by field decoding. -/
theorem decodeMembers_of_perm (fs : List (String × String × Ty)) (vs : List GoVal)
    (os : List (Option Json)) (kvs : List (String × Json))
    (h1 : fs.length = vs.length) (h2 : fs.length = os.length)
    (h3 : selectsFrom fs 0 fs = true) (hp : kvs.Perm (optMembers fs os)) :
    decodeMembers fs vs kvs = decodeEach fs vs os := by
  rw [← decodeMembers_optMembers fs vs os h1 h2 h3]
  exact (decodeMembers_perm fs hp.symm (optMembers_select fs fs 0 os h3).2 vs).symm


/-! ## Envelopes and Spectrum applications -/

theorem decodeInto_struct_obj (fs : List (String × String × Ty)) (vs : List GoVal)
    (kvs : List (String × Json)) :
    decodeInto (.struct fs) (.struct vs) (.obj kvs) = (decodeMembers fs vs kvs).map GoVal.struct := by
  rw [decodeInto]

theorem decodeElems_strings (xs : List (String × Bool)) :
    decodeElems .string (xs.map strJson) = some (xs.map (fun p => GoVal.str (goString p.1))) := by
  induction xs with
  | nil => simp [decodeElems]
  | cons x xs ih => simp [decodeElems, ih, strJson, decodeInto]

theorem decodeInto_strArr (cur : GoVal) (xs : List (String × Bool)) :
    decodeInto (.slice .string) cur (strArr xs) = some (strSlice xs) := by
  unfold strArr strSlice
  rw [decodeInto, decodeElems_strings]
  rfl

theorem decodeInto_bool (cur : GoVal) (b : Bool) :
    decodeInto .bool cur (.bool b) = some (.bool b) := by
  rw [decodeInto]

theorem decodeInto_strJson (cur : GoVal) (p : String × Bool) :
    decodeInto .string cur (strJson p) = some (.str (goString p.1)) := by
  unfold strJson
  rw [decodeInto]

theorem decodeInto_envelope (t : Ty) (kvs : List (String × Json)) (success : Bool)
    (errors messages : List (String × Bool)) (result : Json) (v : GoVal)
    (hp : kvs.Perm [("success", .bool success), ("errors", strArr errors),
      ("messages", strArr messages), ("result", result)])
    (hv : decodeInto t (zero t) result = some v) :
    decodeInto (.struct (envelopeFields t)) (zero (.struct (envelopeFields t))) (.obj kvs)
      = some (.struct [.bool success, strSlice errors, strSlice messages, v]) := by
  have hz : zero (.struct (envelopeFields t))
      = .struct [.bool false, .sliceNil, .sliceNil, zero t] := by
    simp [zero, zeroFields, envelopeFields]
  rw [hz, decodeInto_struct_obj]
  rw [decodeMembers_of_perm (envelopeFields t) _
    [some (.bool success), some (strArr errors), some (strArr messages), some result] kvs
    rfl rfl rfl hp]
  simp [envelopeFields, decodeEach, decodeInto_strArr, hv, decodeInto_bool]


theorem finish_envelope {σ E : Type} (api : API σ E) (name : String) (t : Ty) (empty : GoVal)
    (answer : Except E String) (w : σ) (body : String) (success : Bool)
    (errors messages : List (String × Bool)) (result : Json) (v : GoVal)
    (ha : answer = .ok body) (he : EnvelopeOf body success errors messages result)
    (hv : decodeInto t (zero t) result = some v) :
    (finish api name (.struct (envelopeFields t)) empty (answer, w)).1 = (v, none) := by
  obtain ⟨kvs, hparse, hperm⟩ := he
  subst ha
  have hd := decodeInto_envelope t kvs success errors messages result v hperm hv
  simp only [finish, jsonUnmarshal, hparse, hd]
  rfl

theorem decodeEach_cons (n tag : String) (t : Ty) (fs : List (String × String × Ty))
    (vs : List GoVal) (o : Option Json) (os : List (Option Json)) :
    decodeEach ((n, tag, t) :: fs) (zero t :: vs) (o :: os)
      = match decodeOpt t o, decodeEach fs vs os with
        | some w, some ws => some (w :: ws)
        | _, _ => none := by
  cases o with
  | none =>
    simp only [decodeEach, decodeOpt]
    cases decodeEach fs vs os <;> rfl
  | some j => rfl

theorem decodeEach_nil : decodeEach [] [] [] = some [] := by
  rw [decodeEach]

theorem decodeOpt_bool (b : Bool) : decodeOpt .bool (some (.bool b)) = some (.bool b) := by
  simp only [decodeOpt, decodeInto_bool]

theorem decodeOpt_strJson (p : String × Bool) :
    decodeOpt .string (some (strJson p)) = some (.str (goString p.1)) := by
  simp only [decodeOpt, decodeInto_strJson]

theorem decodeOpt_strArr (xs : List (String × Bool)) :
    decodeOpt (.slice .string) (some (strArr xs)) = some (strSlice xs) := by
  simp only [decodeOpt, decodeInto_strArr]

theorem selects_dns :
    selectsFrom (Ty.fields SpectrumAppDNS) 0 (Ty.fields SpectrumAppDNS) = true := by
  rfl

theorem selects_spectrumApp :
    selectsFrom (Ty.fields SpectrumApp) 0 (Ty.fields SpectrumApp) = true := by
  rfl

theorem decodeInto_dns (dkvs : List (String × Json)) (dnsType dnsName : String × Bool)
    (hp : dkvs.Perm [("type", strJson dnsType), ("name", strJson dnsName)]) :
    decodeInto SpectrumAppDNS (zero SpectrumAppDNS) (.obj dkvs)
      = some (.struct [.str (goString dnsType.1), .str (goString dnsName.1)]) := by
  have h0 : decodeInto SpectrumAppDNS (zero SpectrumAppDNS) (.obj dkvs)
      = (decodeMembers (Ty.fields SpectrumAppDNS) [zero .string, zero .string] dkvs).map
          GoVal.struct := by
    simp only [SpectrumAppDNS, zero, zeroFields, decodeInto_struct_obj, Ty.fields]
  rw [h0, decodeMembers_of_perm (Ty.fields SpectrumAppDNS) _
    [some (strJson dnsType), some (strJson dnsName)] dkvs rfl rfl selects_dns hp]
  simp only [SpectrumAppDNS, Ty.fields, decodeEach_cons, decodeEach_nil, decodeOpt_strJson,
    Option.map_some']

theorem decodeOpt_dns (dkvs : List (String × Json)) (dnsType dnsName : String × Bool)
    (hp : dkvs.Perm [("type", strJson dnsType), ("name", strJson dnsName)]) :
    decodeOpt SpectrumAppDNS (some (.obj dkvs))
      = some (.struct [.str (goString dnsType.1), .str (goString dnsName.1)]) := by
  simp only [decodeOpt, decodeInto_dns dkvs dnsType dnsName hp]

theorem decodeInto_spectrumApp (result : Json) (id protocol : String × Bool) (ipv4 : Bool)
    (dnsType dnsName : String × Bool) (originDirect : Option Json)
    (ipFirewall proxyProtocol : Bool) (tls : String × Bool)
    (createdOn modifiedOn : Option Json) (odv cv mv : GoVal)
    (hobj : SpectrumAppObject result id protocol ipv4 dnsType dnsName originDirect
      ipFirewall proxyProtocol tls createdOn modifiedOn)
    (hod : decodeOpt (.slice .string) originDirect = some odv)
    (hc : decodeOpt .ptrTime createdOn = some cv)
    (hm : decodeOpt .ptrTime modifiedOn = some mv) :
    decodeInto SpectrumApp (zero SpectrumApp) result
      = some (.struct [.str (goString id.1), .str (goString protocol.1), .bool ipv4,
          .struct [.str (goString dnsType.1), .str (goString dnsName.1)], odv, .bool ipFirewall,
          .bool proxyProtocol, .str (goString tls.1), cv, mv]) := by
  obtain ⟨akvs, dkvs, hres, hdp, hap⟩ := hobj
  subst hres
  have h0 : decodeInto SpectrumApp (zero SpectrumApp) (.obj akvs)
      = (decodeMembers (Ty.fields SpectrumApp)
          [zero .string, zero .string, zero .bool, zero SpectrumAppDNS, zero (.slice .string),
            zero .bool, zero .bool, zero .string, zero .ptrTime, zero .ptrTime] akvs).map
          GoVal.struct := by
    simp only [SpectrumApp, zero, zeroFields, decodeInto_struct_obj, Ty.fields]
  have hperm : akvs.Perm (optMembers (Ty.fields SpectrumApp)
      [some (strJson id), some (strJson protocol), some (.bool ipv4), some (.obj dkvs),
        originDirect, some (.bool ipFirewall), some (.bool proxyProtocol), some (strJson tls),
        createdOn, modifiedOn]) := by
    cases originDirect <;> cases createdOn <;> cases modifiedOn <;> exact hap
  rw [h0, decodeMembers_of_perm (Ty.fields SpectrumApp) _ _ akvs rfl rfl selects_spectrumApp hperm]
  simp only [SpectrumApp, Ty.fields, decodeEach_cons, decodeEach_nil, decodeOpt_strJson,
    decodeOpt_bool, decodeOpt_dns dkvs dnsType dnsName hdp, hod, hc, hm, Option.map_some']


/-! ## The calendar -/

theorem isLeap_iff (y : Nat) :
    isLeap y = true ↔ y % 4 = 0 ∧ (y % 100 ≠ 0 ∨ y % 400 = 0) := by
  simp [isLeap]

theorem leapDay_cases (y : Nat) :
    ((if isLeap y then 1 else 0) = 1 ∧ y % 4 = 0 ∧ (y % 100 ≠ 0 ∨ y % 400 = 0))
      ∨ ((if isLeap y then 1 else 0) = 0 ∧ ¬ (y % 4 = 0 ∧ (y % 100 ≠ 0 ∨ y % 400 = 0))) := by
  by_cases hq : isLeap y = true
  · exact Or.inl ⟨by simp [hq], (isLeap_iff y).1 hq⟩
  · exact Or.inr ⟨by simp [hq], fun q => hq ((isLeap_iff y).2 q)⟩

theorem leaps_shift (y L : Nat)
    (hL : (L = 1 ∧ y % 4 = 0 ∧ (y % 100 ≠ 0 ∨ y % 400 = 0))
      ∨ (L = 0 ∧ ¬ (y % 4 = 0 ∧ (y % 100 ≠ 0 ∨ y % 400 = 0)))) :
    y / 4 + y / 400 + 1 + (y + 99) / 100 = (y + 3) / 4 + (y + 399) / 400 + y / 100 + L := by
  omega

theorem leaps_succ (y L : Nat)
    (hL : (L = 1 ∧ y % 4 = 0 ∧ (y % 100 ≠ 0 ∨ y % 400 = 0))
      ∨ (L = 0 ∧ ¬ (y % 4 = 0 ∧ (y % 100 ≠ 0 ∨ y % 400 = 0)))) :
    (y + 1 + 3) / 4 + (y + 1 + 399) / 400 + (y + 99) / 100
      = (y + 3) / 4 + (y + 399) / 400 + (y + 1 + 99) / 100 + L := by
  omega

theorem daysBeforeYear_succ (y : Nat) :
    daysBeforeYear (y + 1) = daysBeforeYear y + 365 + (if isLeap y then 1 else 0) := by
  rw [daysBeforeYear]
  cases isLeap y <;> simp

theorem daysBeforeYear_closed (y : Nat) :
    daysBeforeYear y + (y + 99) / 100 = 365 * y + (y + 3) / 4 + (y + 399) / 400 := by
  induction y with
  | zero => rfl
  | succ n ih =>
    have h1 := daysBeforeYear_succ n
    have h2 := leaps_succ n _ (leapDay_cases n)
    linarith

theorem hinnant_core (n : Nat) :
    (n / 400) * 146097 + (n % 400) * 365 + (n % 400) / 4 + n / 100
      = 365 * n + n / 4 + n / 400 + (n % 400) / 100 := by
  omega

theorem daysBeforeYear_eras (y : Nat) :
    (y / 400) * 146097 + (y % 400) * 365 + (y % 400) / 4 + 1
      = daysBeforeYear y + (y % 400) / 100 + (if isLeap y then 1 else 0) := by
  have h1 := hinnant_core y
  have h2 := daysBeforeYear_closed y
  have h3 := leaps_shift y _ (leapDay_cases y)
  linarith

theorem daysBeforeMonth_values (y : Nat) :
    daysBeforeMonth 1 y = 0 ∧ daysBeforeMonth 2 y = 31
    ∧ daysBeforeMonth 3 y = 59 + (if isLeap y then 1 else 0)
    ∧ daysBeforeMonth 4 y = 90 + (if isLeap y then 1 else 0)
    ∧ daysBeforeMonth 5 y = 120 + (if isLeap y then 1 else 0)
    ∧ daysBeforeMonth 6 y = 151 + (if isLeap y then 1 else 0)
    ∧ daysBeforeMonth 7 y = 181 + (if isLeap y then 1 else 0)
    ∧ daysBeforeMonth 8 y = 212 + (if isLeap y then 1 else 0)
    ∧ daysBeforeMonth 9 y = 243 + (if isLeap y then 1 else 0)
    ∧ daysBeforeMonth 10 y = 273 + (if isLeap y then 1 else 0)
    ∧ daysBeforeMonth 11 y = 304 + (if isLeap y then 1 else 0)
    ∧ daysBeforeMonth 12 y = 334 + (if isLeap y then 1 else 0) := by
  cases h : isLeap y <;> simp [daysBeforeMonth, daysIn, h]

theorem eras_cast (n : Nat) :
    ((n : Int) / 400 = ((n / 400 : Nat) : Int))
    ∧ ((n : Int) - ((n / 400 : Nat) : Int) * 400 = ((n % 400 : Nat) : Int))
    ∧ (((n % 400 : Nat) : Int) / 4 = ((n % 400 / 4 : Nat) : Int))
    ∧ (((n % 400 : Nat) : Int) / 100 = ((n % 400 / 100 : Nat) : Int)) := by
  refine ⟨by omega, by omega, by omega, by omega⟩

theorem daysFromCivil_late (y m d : Nat) (h3 : 3 ≤ m) :
    daysFromCivil y m d
      = ((y / 400 : Nat) : Int) * 146097
        + (((y % 400 : Nat) : Int) * 365 + ((y % 400 / 4 : Nat) : Int)
            - ((y % 400 / 100 : Nat) : Int) + ((153 * ((m : Int) - 3) + 2) / 5 + (d : Int) - 1))
        - 719468 := by
  unfold daysFromCivil
  have h1 : ¬ m ≤ 2 := by omega
  have h2 : m > 2 := by omega
  obtain ⟨e1, e2, e3, e4⟩ := eras_cast y
  simp only [h1, h2, if_true, if_false]
  rw [e1, e2, e3, e4]

theorem daysFromCivil_early (n m d : Nat) (h2 : m ≤ 2) :
    daysFromCivil (n + 1) m d
      = ((n / 400 : Nat) : Int) * 146097
        + (((n % 400 : Nat) : Int) * 365 + ((n % 400 / 4 : Nat) : Int)
            - ((n % 400 / 100 : Nat) : Int) + ((153 * ((m : Int) + 9) + 2) / 5 + (d : Int) - 1))
        - 719468 := by
  unfold daysFromCivil
  have h3 : ¬ m > 2 := by omega
  obtain ⟨e1, e2, e3, e4⟩ := eras_cast n
  have e0 : (((n + 1 : Nat) : Int) - 1) = (n : Int) := by push_cast; ring
  simp only [h2, h3, if_true, if_false]
  rw [e0, e1, e2, e3, e4]

theorem daysFromCivil_zero (m d : Nat) (h2 : m ≤ 2) :
    daysFromCivil 0 m d = (153 * ((m : Int) + 9) + 2) / 5 + (d : Int) - 1 - 719834 := by
  unfold daysFromCivil
  have h3 : ¬ m > 2 := by omega
  simp only [h2, h3, if_true, if_false]
  norm_num
  ring

theorem daysFromCivil_eq_civilDays (y m d : Nat) (h1 : 1 ≤ m) (h12 : m ≤ 12) (hd : 1 ≤ d) :
    daysFromCivil y m d = civilDays y m d := by
  obtain ⟨m1, m2, m3, m4, m5, m6, m7, m8, m9, m10, m11, m12⟩ := daysBeforeMonth_values y
  unfold civilDays
  rw [Nat.cast_add, Nat.cast_add, Nat.cast_sub hd]
  by_cases hm : m ≤ 2
  · cases y with
    | zero =>
      rw [daysFromCivil_zero m d hm]
      have : m = 1 ∨ m = 2 := by omega
      rcases this with rfl | rfl
      · rw [m1]; norm_num [daysBeforeYear]; ring
      · rw [m2]; norm_num [daysBeforeYear]; ring
    | succ n =>
      rw [daysFromCivil_early n m d hm]
      have hn : ((n / 400 : Nat) : Int) * 146097 + ((n % 400 : Nat) : Int) * 365
          + ((n % 400 / 4 : Nat) : Int) + 1
          = (daysBeforeYear n : Int) + ((n % 400 / 100 : Nat) : Int)
            + (((if isLeap n then 1 else 0 : Nat)) : Int) := by
        exact_mod_cast daysBeforeYear_eras n
      have hs : (daysBeforeYear (n + 1) : Int)
          = (daysBeforeYear n : Int) + 365 + (((if isLeap n then 1 else 0 : Nat)) : Int) := by
        exact_mod_cast daysBeforeYear_succ n
      have : m = 1 ∨ m = 2 := by omega
      rcases this with rfl | rfl
      · rw [m1]; push_cast at hn hs ⊢; norm_num; linarith
      · rw [m2]; push_cast at hn hs ⊢; linarith
  · rw [daysFromCivil_late y m d (by omega)]
    have hn : ((y / 400 : Nat) : Int) * 146097 + ((y % 400 : Nat) : Int) * 365
        + ((y % 400 / 4 : Nat) : Int) + 1
        = (daysBeforeYear y : Int) + ((y % 400 / 100 : Nat) : Int)
          + (((if isLeap y then 1 else 0 : Nat)) : Int) := by
      exact_mod_cast daysBeforeYear_eras y
    have hmm : m = 3 ∨ m = 4 ∨ m = 5 ∨ m = 6 ∨ m = 7 ∨ m = 8 ∨ m = 9 ∨ m = 10 ∨ m = 11
        ∨ m = 12 := by omega
    rcases hmm with rfl | rfl | rfl | rfl | rfl | rfl | rfl | rfl | rfl | rfl
    · rw [m3]; push_cast at hn ⊢; linarith
    · rw [m4]; push_cast at hn ⊢; linarith
    · rw [m5]; push_cast at hn ⊢; linarith
    · rw [m6]; push_cast at hn ⊢; linarith
    · rw [m7]; push_cast at hn ⊢; linarith
    · rw [m8]; push_cast at hn ⊢; linarith
    · rw [m9]; push_cast at hn ⊢; linarith
    · rw [m10]; push_cast at hn ⊢; linarith
    · rw [m11]; push_cast at hn ⊢; linarith
    · rw [m12]; push_cast at hn ⊢; linarith

/-! ## Reading a timestamp back from its text -/

theorem digitVal_digitChar (n : Nat) (h : n ≤ 9) : digitVal (digitChar n) = some n := by
  interval_cases n <;> rfl

theorem digitVal_sign (neg : Bool) : digitVal (if neg then '-' else '+') = none := by
  cases neg <;> rfl

theorem getnum_twoDigits (n : Nat) (h : n ≤ 99) (rest : List Char) ( fixed : Bool) :
    getnum (twoDigits n ++ rest) fixed = some (n, rest) := by
  have h1 : digitVal (digitChar (n / 10)) = some (n / 10) := digitVal_digitChar _ (by omega)
  have h2 : digitVal (digitChar (n % 10)) = some (n % 10) := digitVal_digitChar _ (by omega)
  have h3 : n / 10 * 10 + n % 10 = n := by omega
  simp [twoDigits, getnum, h1, h2, h3]

theorem parseYear_fourDigits (y : Nat) (h : y ≤ 9999) (rest : List Char) :
    parseYear (fourDigits y ++ rest) = some (y, rest) := by
  have h1 : digitVal (digitChar (y / 1000)) = some (y / 1000) := digitVal_digitChar _ (by omega)
  have h2 : digitVal (digitChar (y / 100 % 10)) = some (y / 100 % 10) :=
    digitVal_digitChar _ (by omega)
  have h3 : digitVal (digitChar (y / 10 % 10)) = some (y / 10 % 10) :=
    digitVal_digitChar _ (by omega)
  have h4 : digitVal (digitChar (y % 10)) = some (y % 10) := digitVal_digitChar _ (by omega)
  have h5 : ((y / 1000 * 10 + y / 100 % 10) * 10 + y / 10 % 10) * 10 + y % 10 = y := by omega
  simp [fourDigits, parseYear, digitsVal, h1, h2, h3, h4, h5]

theorem skipChar_cons (c : Char) (rest : List Char) : skipChar c (c :: rest) = some rest := by
  simp [skipChar]

theorem digitsVal_digits (ds : List Nat) (h : ∀ d ∈ ds, d ≤ 9) (acc : Nat) :
    digitsVal (ds.map digitChar) acc = some (digitsNumber ds acc) := by
  induction ds generalizing acc with
  | nil => rfl
  | cons d ds ih =>
    have hd : digitVal (digitChar d) = some d := digitVal_digitChar d (h d (by simp))
    simp only [List.map_cons, digitsVal, hd, digitsNumber]
    exact ih (fun x hx => h x (by simp [hx])) _

theorem zoneText_head (z : Option (Bool × Nat × Nat)) :
    ∃ c rest, zoneText z = c :: rest ∧ digitVal c = none ∧ c ≠ '.' ∧ c ≠ ',' := by
  cases z with
  | none => exact ⟨'Z', [], rfl, rfl, by decide, by decide⟩
  | some p =>
    obtain ⟨neg, hh, mm⟩ := p
    refine ⟨if neg then '-' else '+', _, rfl, digitVal_sign neg, ?_, ?_⟩ <;>
      cases neg <;> decide

theorem takeWhile_digits (ds : List Nat) (h : ∀ d ∈ ds, d ≤ 9) (c : Char) (rest : List Char)
    (hc : digitVal c = none) :
    (ds.map digitChar ++ c :: rest).takeWhile (fun c => (digitVal c).isSome) = ds.map digitChar
    ∧ (ds.map digitChar ++ c :: rest).dropWhile (fun c => (digitVal c).isSome) = c :: rest := by
  induction ds with
  | nil => simp [List.takeWhile, List.dropWhile, hc]
  | cons d ds ih =>
    have hd : digitVal (digitChar d) = some d := digitVal_digitChar d (h d (by simp))
    have := ih (fun x hx => h x (by simp [hx]))
    simp [List.takeWhile, List.dropWhile, hd, this]

theorem parseFraction_text (ds : List Nat) (h : ∀ d ∈ ds, d ≤ 9)
    (z : Option (Bool × Nat × Nat)) :
    parseFraction (fractionText ds ++ zoneText z)
      = some (digitsNumber (ds.take 9) 0 * 10 ^ (9 - (ds.take 9).length), zoneText z) := by
  obtain ⟨c, rest, hz, hc, hp, hk⟩ := zoneText_head z
  cases ds with
  | nil =>
    rw [hz]
    simp only [fractionText, List.nil_append, List.take_nil, digitsNumber, List.length_nil]
    cases rest with
    | nil => simp [parseFraction]
    | cons r rest => simp [parseFraction, hp, hk]
  | cons d ds =>
    have hd : digitVal (digitChar d) = some d := digitVal_digitChar d (h d (by simp))
    have ht := takeWhile_digits (d :: ds) h c rest hc
    rw [hz]
    simp only [fractionText, List.map_cons, List.cons_append] at ht ⊢
    simp only [parseFraction, hd, Option.isSome_some, true_or, and_self, if_true]
    rw [ht.1, ht.2]
    have hm : digitChar d :: List.map digitChar ds = (d :: ds).map digitChar := rfl
    rw [hm, parseNanoseconds, ← List.map_take,
      digitsVal_digits _ (fun x hx => h x (List.mem_of_mem_take hx))]
    simp

theorem parseZone_sign (sg h1 h2 c m1 m2 : Char) (hs : sg ≠ 'Z') :
    parseZone [sg, h1, h2, c, m1, m2]
      = if c ≠ ':' then none else
        match getnum [h1, h2] true, getnum [m1, m2] true with
        | some (hr, _), some (mm, _) =>
          if hr > 24 ∨ mm > 60 then none
          else if sg = '+' then some (some (((hr * 60 + mm) * 60 : Nat) : Int))
          else if sg = '-' then some (some (-(((hr * 60 + mm) * 60 : Nat) : Int)))
          else none
        | _, _ => none := by
  unfold parseZone
  split
  · rename_i heq
    simp at heq
    exact absurd heq.1 hs
  · rename_i heq
    simp at heq
    obtain ⟨rfl, rfl, rfl, rfl, rfl, rfl⟩ := heq
    rfl
  · rename_i hZ hne
    exact (hne _ _ _ _ _ _ rfl).elim

theorem parseZone_text (z : Option (Bool × Nat × Nat))
    (h : ∀ p, z = some p → p.2.1 ≤ 23 ∧ p.2.2 ≤ 59) :
    parseZone (zoneText z) = some (zoneSeconds z) := by
  cases z with
  | none => rfl
  | some p =>
    obtain ⟨neg, hh, mm⟩ := p
    obtain ⟨h1, h2⟩ := h _ rfl
    simp only at h1 h2
    have g1 := getnum_twoDigits hh (by omega) [] true
    have g2 := getnum_twoDigits mm (by omega) [] true
    simp only [List.append_nil, twoDigits] at g1 g2
    have hr : ¬ (hh > 24 ∨ mm > 60) := by omega
    have e : zoneText (some (neg, hh, mm))
        = [if neg then '-' else '+', digitChar (hh / 10), digitChar (hh % 10), ':',
            digitChar (mm / 10), digitChar (mm % 10)] := rfl
    rw [e, parseZone_sign _ _ _ _ _ _ (by cases neg <;> decide), g1, g2]
    cases neg <;> simp [hr, zoneSeconds]
theorem parseRFC3339_text (t : Timestamp) (h : t.wellFormed) :
    parseRFC3339 t.text.data = some t.instant := by
  obtain ⟨hy, hm1, hm12, hd1, hdn, hh, hmi, hs, hf, hz⟩ := h
  have hdays : daysIn t.month t.year ≤ 31 := by
    unfold daysIn
    split
    · split <;> omega
    · split <;> omega
  have hc := daysFromCivil_eq_civilDays t.year t.month t.day hm1 hm12 hd1
  have hrange : 1 ≤ t.month ∧ t.month ≤ 12 ∧ 1 ≤ t.day ∧ t.day ≤ daysIn t.month t.year
      ∧ t.hour < 24 ∧ t.minute < 60 ∧ t.second < 60 :=
    ⟨hm1, hm12, hd1, hdn, by omega, by omega, by omega⟩
  simp only [Timestamp.text, parseRFC3339, parseYear_fourDigits t.year hy, skipChar_cons,
    Option.some_bind, getnum_twoDigits t.month (by omega), getnum_twoDigits t.day (by omega),
    getnum_twoDigits t.hour (by omega), getnum_twoDigits t.minute (by omega),
    getnum_twoDigits t.second (by omega), parseFraction_text t.fraction hf,
    parseZone_text t.zone hz, hrange, and_self, if_true, hc, Timestamp.instant]

/-! ## What `SpectrumApp` returns -/

theorem spectrumApp_returns {σ E : Type} (api : API σ E) (zoneID applicationID : String) (w : σ)
    (body : String) (success : Bool) (errors messages : List (String × Bool)) (result : Json)
    (id protocol : String × Bool) (ipv4 : Bool) (dnsType dnsName : String × Bool)
    (originDirect : Option Json) (ipFirewall proxyProtocol : Bool) (tls : String × Bool)
    (createdOn modifiedOn : Option Json) (odv cv mv : GoVal)
    (ha : (api.makeRequest "GET" ("/zones/" ++ zoneID ++ "/spectrum/apps/" ++ applicationID)
      .ifaceNil w).1 = .ok body)
    (he : EnvelopeOf body success errors messages result)
    (hobj : SpectrumAppObject result id protocol ipv4 dnsType dnsName originDirect
      ipFirewall proxyProtocol tls createdOn modifiedOn)
    (hod : decodeOpt (.slice .string) originDirect = some odv)
    (hc : decodeOpt .ptrTime createdOn = some cv)
    (hm : decodeOpt .ptrTime modifiedOn = some mv) :
    (api.SpectrumApp zoneID applicationID w).1
      = (spectrumRecord id.1 protocol.1 ipv4 dnsType.1 dnsName.1 odv ipFirewall proxyProtocol
          tls.1 cv mv, none) := by
  rw [SpectrumApp_eq]
  have hd := decodeInto_spectrumApp result id protocol ipv4 dnsType dnsName originDirect
    ipFirewall proxyProtocol tls createdOn modifiedOn odv cv mv hobj hod hc hm
  exact finish_envelope api _ SpectrumApp (zero SpectrumApp) _ _ body success errors messages
    result _ ha he hd

theorem decodeOpt_instant (s : String) (t : Time) (h : parseRFC3339 s.data = some t) :
    decodeOpt .ptrTime (some (.str s false)) = some (.ptrTime t) := by
  simp [decodeOpt, decodeInto, h]

theorem decodeOpt_timestamp (t : Timestamp) (h : t.wellFormed) :
    decodeOpt .ptrTime (some (.str t.text false)) = some (.ptrTime t.instant) :=
  decodeOpt_instant _ _ (parseRFC3339_text t h)

theorem fixtureTimestamp_wellFormed : fixtureTimestamp.wellFormed := by
  refine ⟨by decide, by decide, by decide, by decide, by decide, by decide, by decide,
    by decide, ?_, ?_⟩
  · intro d hd
    simp [fixtureTimestamp] at hd
    omega
  · intro z hz
    cases hz

theorem fixtureTimestamp_instant : fixtureTimestamp.instant = fixtureInstant := by
  have h := daysFromCivil_eq_civilDays 2018 3 28 (by decide) (by decide) (by decide)
  have e : daysFromCivil 2018 3 28 = 17618 := by decide
  rw [e] at h
  simp only [Timestamp.instant, fixtureTimestamp, ← h, fixtureInstant, zoneSeconds]
  decide

set_option maxRecDepth 1000000 in
theorem fixture_returns (m1 m2 : String) :
    ((fixed (Except.ok fixtureBody : Except Unit String) m1 m2).SpectrumApp
      "01a7362d577a6c3019a474fd6f485823" "f68579455bd947efb65ffa1bcf33b52c" 0).1
      = (fixtureWant, none) := by
  rfl

set_option maxRecDepth 1000000 in
/-- C3: for every response body that is an envelope around a Spectrum
application object whose `created_on` and `modified_on` are RFC 3339
timestamps, `SpectrumApp` returns, with no error, the record whose fields are
those of the object, `origin_direct` element by element in order, and
`created_on` / `modified_on` as the instants the two timestamps denote (the
seconds counted on the calendar from 1970-01-01T00:00:00Z, less the zone
offset, and the fraction in nanoseconds).  The body of `TestSpectrumApp` gives
exactly the record the test expects, both of whose timestamps are the instant
that `2018-03-28T21:25:55.643771Z` denotes. -/
theorem C3_spectrum_app_decodes_field_for_field :
    (∀ (σ E : Type) (api : API σ E) (zoneID applicationID : String) (w : σ)
      (body : String) (success : Bool) (errors messages : List (String × Bool)) (result : Json)
      (id protocol : String × Bool) (ipv4 : Bool) (dnsType dnsName : String × Bool)
      (originDirect : List (String × Bool)) (ipFirewall proxyProtocol : Bool)
      (tls : String × Bool) (createdOn modifiedOn : Timestamp),
      (api.makeRequest "GET" ("/zones/" ++ zoneID ++ "/spectrum/apps/" ++ applicationID)
        .ifaceNil w).1 = .ok body →
      EnvelopeOf body success errors messages result →
      SpectrumAppObject result id protocol ipv4 dnsType dnsName (some (strArr originDirect))
        ipFirewall proxyProtocol tls (some (.str createdOn.text false))
        (some (.str modifiedOn.text false)) →
      createdOn.wellFormed →
      modifiedOn.wellFormed →
      (api.SpectrumApp zoneID applicationID w).1
        = (spectrumRecord id.1 protocol.1 ipv4 dnsType.1 dnsName.1
            (.slice (originDirect.map (fun p => GoVal.str (goString p.1))))
            ipFirewall proxyProtocol tls.1
            (.ptrTime createdOn.instant) (.ptrTime modifiedOn.instant), none))
    ∧ (∀ (m1 m2 : String),
        ((fixed (Except.ok fixtureBody : Except Unit String) m1 m2).SpectrumApp
          "01a7362d577a6c3019a474fd6f485823" "f68579455bd947efb65ffa1bcf33b52c" 0).1
          = (fixtureWant, none))
    ∧ fixtureTimestamp.text = "2018-03-28T21:25:55.643771Z"
    ∧ fixtureTimestamp.instant = fixtureInstant
    ∧ getField SpectrumApp fixtureWant "CreatedOn" = .ptrTime fixtureTimestamp.instant
    ∧ getField SpectrumApp fixtureWant "ModifiedOn" = .ptrTime fixtureTimestamp.instant
      := by
  refine ⟨?_, ?_, ?_, ?_, ?_, ?_⟩
  · intro σ E api zoneID applicationID w body success errors messages result id protocol ipv4
      dnsType dnsName originDirect ipFirewall proxyProtocol tls createdOn modifiedOn
      ha he hobj hc hm
    exact spectrumApp_returns api zoneID applicationID w body success errors messages result
      id protocol ipv4 dnsType dnsName _ ipFirewall proxyProtocol tls _ _ _ _ _ ha he hobj
      (decodeOpt_strArr originDirect) (decodeOpt_timestamp createdOn hc)
      (decodeOpt_timestamp modifiedOn hm)
  · exact fixture_returns
  · rfl
  · exact fixtureTimestamp_instant
  · rw [fixtureTimestamp_instant]; rfl
  · rw [fixtureTimestamp_instant]; rfl

set_option maxRecDepth 1000000 in
/-- C3 at the body of `TestSpectrumApp`. -/
theorem C3_witness :
    ((fixed (Except.ok fixtureBody : Except Unit String) "" "").SpectrumApp
      "01a7362d577a6c3019a474fd6f485823" "f68579455bd947efb65ffa1bcf33b52c" 0).1
      = (spectrumRecord "f68579455bd947efb65ffa1bcf33b52c" "tcp/22" true "CNAME"
          "spectrum.example.com" (.slice [.str (goString "tcp://192.0.2.1:22")]) true false
          "off" (.ptrTime fixtureTimestamp.instant) (.ptrTime fixtureTimestamp.instant), none) :=
  C3_spectrum_app_decodes_field_for_field.1 Nat Unit
    (fixed (Except.ok fixtureBody) "" "")
    "01a7362d577a6c3019a474fd6f485823" "f68579455bd947efb65ffa1bcf33b52c" 0
    fixtureBody true [] []
    (.obj [("id", .str "f68579455bd947efb65ffa1bcf33b52c" false),
      ("protocol", .str "tcp/22" false), ("ipv4", .bool true),
      ("dns", .obj [("type", .str "CNAME" false), ("name", .str "spectrum.example.com" false)]),
      ("origin_direct", .arr [.str "tcp://192.0.2.1:22" false]),
      ("ip_firewall", .bool true), ("proxy_protocol", .bool false), ("tls", .str "off" false),
      ("created_on", .str "2018-03-28T21:25:55.643771Z" false),
      ("modified_on", .str "2018-03-28T21:25:55.643771Z" false)])
    ("f68579455bd947efb65ffa1bcf33b52c", false) ("tcp/22", false) true
    ("CNAME", false) ("spectrum.example.com", false) [("tcp://192.0.2.1:22", false)]
    true false ("off", false) fixtureTimestamp fixtureTimestamp
    rfl
    ⟨_, rfl, (List.perm_append_singleton _ _).symm⟩
    ⟨_, _, rfl, List.Perm.refl _, List.Perm.refl _⟩
    fixtureTimestamp_wellFormed fixtureTimestamp_wellFormed

/-! ## The envelope's flag and lists are looked at for their kinds only -/

theorem decodeInto_string_isSome (j : Json) :
    (decodeInto .string (zero .string) j).isSome = isStringOrNull j := by
  cases j <;> simp [decodeInto, isStringOrNull]

theorem decodeElems_string_isSome (xs : List Json) :
    (decodeElems .string xs).isSome = xs.all isStringOrNull := by
  induction xs with
  | nil => simp [decodeElems]
  | cons x xs ih =>
    have hx := decodeInto_string_isSome x
    rw [decodeElems, List.all_cons, ← ih, ← hx]
    cases decodeInto .string (zero .string) x <;> cases decodeElems .string xs <;> rfl

theorem decodeOpt_flag (o : Option Json) : (decodeOpt .bool o).isSome = isFlag o := by
  cases o with
  | none => rfl
  | some j => cases j <;> simp [decodeOpt, decodeInto, isFlag]

theorem decodeOpt_stringList (o : Option Json) :
    (decodeOpt (.slice .string) o).isSome = isStringList o := by
  cases o with
  | none => rfl
  | some j =>
    cases j with
    | arr xs =>
      have h := decodeElems_string_isSome xs
      simp only [decodeOpt, decodeInto, isStringList, ← h]
      cases decodeElems .string xs <;> rfl
    | _ => simp [decodeOpt, decodeInto, isStringList]

theorem optMembers_envelope (t : Ty) (s e m : Option Json) (result : Json) :
    optMembers (envelopeFields t) [s, e, m, some result]
      = present [("success", s), ("errors", e), ("messages", m), ("result", some result)] := by
  cases s <;> cases e <;> cases m <;> rfl

theorem decodeInto_envelopeWith (t : Ty) (kvs : List (String × Json)) (s e m : Option Json)
    (result : Json)
    (hp : kvs.Perm (present [("success", s), ("errors", e), ("messages", m),
      ("result", some result)])) :
    decodeInto (.struct (envelopeFields t)) (zero (.struct (envelopeFields t))) (.obj kvs)
      = match decodeOpt .bool s, decodeOpt (.slice .string) e, decodeOpt (.slice .string) m,
          decodeInto t (zero t) result with
        | some a, some b, some c, some v => some (.struct [a, b, c, v])
        | _, _, _, _ => none := by
  have hz : zero (.struct (envelopeFields t))
      = .struct [zero .bool, zero (.slice .string), zero (.slice .string), zero t] := by
    simp [zero, zeroFields, envelopeFields]
  rw [← optMembers_envelope t] at hp
  rw [hz, decodeInto_struct_obj,
    decodeMembers_of_perm (envelopeFields t) _ [s, e, m, some result] kvs rfl rfl rfl hp]
  simp only [envelopeFields, decodeEach_cons, decodeEach_nil]
  have hr : decodeOpt t (some result) = decodeInto t (zero t) result := rfl
  rw [hr]
  cases decodeOpt .bool s <;> cases decodeOpt (.slice .string) e <;>
    cases decodeOpt (.slice .string) m <;> cases decodeInto t (zero t) result <;> rfl

theorem isSome_of_flags (s e m : Option Json)
    (h : (isFlag s && isStringList e && isStringList m) = true) :
    ∃ a b c, decodeOpt .bool s = some a ∧ decodeOpt (.slice .string) e = some b
      ∧ decodeOpt (.slice .string) m = some c := by
  simp only [Bool.and_eq_true] at h
  obtain ⟨⟨h1, h2⟩, h3⟩ := h
  rw [← decodeOpt_flag] at h1
  rw [← decodeOpt_stringList] at h2 h3
  obtain ⟨a, ha⟩ := Option.isSome_iff_exists.1 h1
  obtain ⟨b, hb⟩ := Option.isSome_iff_exists.1 h2
  obtain ⟨c, hc⟩ := Option.isSome_iff_exists.1 h3
  exact ⟨a, b, c, ha, hb, hc⟩

theorem finish_envelopeWith {σ E : Type} (api : API σ E) (name : String) (t : Ty)
    (empty : GoVal) (answer : Except E String) (w : σ) (body : String)
    (s e m : Option Json) (result : Json) (v : GoVal)
    (ha : answer = .ok body) (he : EnvelopeWith body s e m result)
    (hv : decodeInto t (zero t) result = some v) :
    ((isFlag s && isStringList e && isStringList m) = true →
      (finish api name (.struct (envelopeFields t)) empty (answer, w)).1 = (v, none))
    ∧ ((isFlag s && isStringList e && isStringList m) = false →
      (finish api name (.struct (envelopeFields t)) empty (answer, w)).1
        = (empty, some { cause := .decode .mismatch, message := api.errUnmarshalError,
                         caller := name })) := by
  obtain ⟨kvs, hparse, hperm⟩ := he
  subst ha
  have hd := decodeInto_envelopeWith t kvs s e m result hperm
  rw [hv] at hd
  constructor
  · intro h
    obtain ⟨a, b, c, h1, h2, h3⟩ := isSome_of_flags s e m h
    rw [h1, h2, h3] at hd
    simp only [finish, jsonUnmarshal, hparse, hd]
    rfl
  · intro h
    have hn : decodeInto (.struct (envelopeFields t)) (zero (.struct (envelopeFields t)))
        (.obj kvs) = none := by
      rw [hd]
      rw [← decodeOpt_flag, ← decodeOpt_stringList, ← decodeOpt_stringList] at h
      cases h1 : decodeOpt .bool s <;> cases h2 : decodeOpt (.slice .string) e <;>
        cases h3 : decodeOpt (.slice .string) m <;> simp_all
    simp only [finish, jsonUnmarshal, hparse, hn]
    rfl

theorem finish_flagsByKind {σ E : Type} (api : API σ E) (name : String) (t : Ty)
    (empty : GoVal) (answer1 answer2 : Except E String) (w1 w2 : σ) :
    FlagsByKindOnly api.errUnmarshalError name t empty answer1 answer2
      (finish api name (.struct (envelopeFields t)) empty (answer1, w1)).1
      (finish api name (.struct (envelopeFields t)) empty (answer2, w2)).1 := by
  intro body1 body2 s1 s2 e1 e2 m1 m2 result v ha1 ha2 he1 he2 hv
  have f1 := finish_envelopeWith api name t empty answer1 w1 body1 s1 e1 m1 result v ha1 he1 hv
  have f2 := finish_envelopeWith api name t empty answer2 w2 body2 s2 e2 m2 result v ha2 he2 hv
  exact ⟨fun g1 g2 => ⟨f1.1 g1, f2.1 g2⟩, f1.2⟩

set_option maxRecDepth 1000000 in
/-- C4 (as the claim states it, refuted): two bodies carry the same `result`
and differ only in `success` and `errors`; for the first `SpectrumApp` returns
the record and no error, for the second, whose `errors` holds an object of
`code` and `message`, it returns the empty record and a decode error. -/
theorem C4_counterexample :
    EnvelopeWith bodySuccess (some (.bool true)) (some (.arr [])) (some (.arr [])) sampleResult
    ∧ EnvelopeWith bodyErrorObjects (some (.bool false)) (some (.arr [sampleErrorObject]))
        (some (.arr [])) sampleResult
    ∧ ((fixed (Except.ok bodySuccess : Except Unit String) "request" "decode").SpectrumApp
        "zone" "app" 0).1 = (sampleRecord, none)
    ∧ ((fixed (Except.ok bodyErrorObjects : Except Unit String) "request" "decode").SpectrumApp
        "zone" "app" 0).1
      = (zero SpectrumApp, some { cause := .decode .mismatch, message := "decode",
                                  caller := "(*API).SpectrumApp" }) := by
  refine ⟨⟨_, rfl, List.Perm.refl _⟩, ⟨_, rfl, List.Perm.refl _⟩, rfl, rfl⟩

/-- C4 (amended): each of the six operations looks at `success`, `errors` and
`messages` only for their JSON kinds.  For any two response bodies that are
objects around the same `result` (which decodes into the result type) and
differ only in `success`, `errors` and `messages`, the operation returns the
same decoded result, with no error, for both, provided that in each body
`success` is missing, null or a boolean and `errors` and `messages` are
missing, null or arrays of strings; and it returns a decode error for a body
in which one of the three is of another kind. -/
theorem C4_result_independent_of_flags_of_the_declared_kinds {σ E : Type} (api : API σ E)
    (accountID zoneID identifier : String) (provider : GoVal) (w1 w2 : σ) :
    FlagsByKindOnly api.errUnmarshalError "(*API).AccessIdentityProviders"
        (.slice AccessIdentityProvider) (.slice [])
        (api.makeRequest "GET" ("/accounts/" ++ accountID ++ "/access/identity_providers")
          .ifaceNil w1).1
        (api.makeRequest "GET" ("/accounts/" ++ accountID ++ "/access/identity_providers")
          .ifaceNil w2).1
        (api.AccessIdentityProviders accountID w1).1
        (api.AccessIdentityProviders accountID w2).1
    ∧ FlagsByKindOnly api.errUnmarshalError "(*API).AccessIdentityProviderDetails"
        AccessIdentityProvider (zero AccessIdentityProvider)
        (api.makeRequest "GET"
          ("/accounts/" ++ accountID ++ "/access/identity_providers" ++ "/" ++ identifier)
          .ifaceNil w1).1
        (api.makeRequest "GET"
          ("/accounts/" ++ accountID ++ "/access/identity_providers" ++ "/" ++ identifier)
          .ifaceNil w2).1
        (api.AccessIdentityProviderDetails accountID identifier w1).1
        (api.AccessIdentityProviderDetails accountID identifier w2).1
    ∧ FlagsByKindOnly api.errUnmarshalError "(*API).CreateAccessIdentityProvider"
        AccessIdentityProvider (zero AccessIdentityProvider)
        (api.makeRequest "POST" ("/accounts/" ++ accountID ++ "/access/identity_providers")
          (.iface AccessIdentityProvider provider) w1).1
        (api.makeRequest "POST" ("/accounts/" ++ accountID ++ "/access/identity_providers")
          (.iface AccessIdentityProvider provider) w2).1
        (api.CreateAccessIdentityProvider accountID provider w1).1
        (api.CreateAccessIdentityProvider accountID provider w2).1
    ∧ FlagsByKindOnly api.errUnmarshalError "(*API).UpdateAccessIdentityProvider"
        AccessIdentityProvider (zero AccessIdentityProvider)
        (api.makeRequest "PUT"
          ("/accounts/" ++ accountID ++ "/access/identity_providers" ++ "/" ++ identifier)
          (.iface AccessIdentityProvider provider) w1).1
        (api.makeRequest "PUT"
          ("/accounts/" ++ accountID ++ "/access/identity_providers" ++ "/" ++ identifier)
          (.iface AccessIdentityProvider provider) w2).1
        (api.UpdateAccessIdentityProvider accountID identifier provider w1).1
        (api.UpdateAccessIdentityProvider accountID identifier provider w2).1
    ∧ FlagsByKindOnly api.errUnmarshalError "(*API).DeleteAccessIdentityProvider"
        AccessIdentityProvider (zero AccessIdentityProvider)
        (api.makeRequest "DELETE"
          ("/accounts/" ++ accountID ++ "/access/identity_providers" ++ "/" ++ identifier)
          .ifaceNil w1).1
        (api.makeRequest "DELETE"
          ("/accounts/" ++ accountID ++ "/access/identity_providers" ++ "/" ++ identifier)
          .ifaceNil w2).1
        (api.DeleteAccessIdentityProvider accountID identifier w1).1
        (api.DeleteAccessIdentityProvider accountID identifier w2).1
    ∧ FlagsByKindOnly api.errUnmarshalError "(*API).SpectrumApp"
        SpectrumApp (zero SpectrumApp)
        (api.makeRequest "GET" ("/zones/" ++ zoneID ++ "/spectrum/apps/" ++ identifier)
          .ifaceNil w1).1
        (api.makeRequest "GET" ("/zones/" ++ zoneID ++ "/spectrum/apps/" ++ identifier)
          .ifaceNil w2).1
        (api.SpectrumApp zoneID identifier w1).1
        (api.SpectrumApp zoneID identifier w2).1 := by
  simp only [AccessIdentityProviders_eq, AccessIdentityProviderDetails_eq,
    CreateAccessIdentityProvider_eq, UpdateAccessIdentityProvider_eq,
    DeleteAccessIdentityProvider_eq, SpectrumApp_eq]
  exact ⟨finish_flagsByKind api _ (.slice AccessIdentityProvider) _ _ _ _ _,
    finish_flagsByKind api _ AccessIdentityProvider _ _ _ _ _,
    finish_flagsByKind api _ AccessIdentityProvider _ _ _ _ _,
    finish_flagsByKind api _ AccessIdentityProvider _ _ _ _ _,
    finish_flagsByKind api _ AccessIdentityProvider _ _ _ _ _,
    finish_flagsByKind api _ SpectrumApp _ _ _ _ _⟩

set_option maxRecDepth 1000000 in
/-- C4 (amended) at two bodies with the same result: one reports success, the
other reports failure with a non-empty `errors` list of strings. -/
theorem C4_witness :
    ((twoAnswers (Except.ok bodySuccess : Except Unit String) (Except.ok bodyFailure) "" "").SpectrumApp
        "zone" "a1" 0).1 = (sampleRecord, none)
    ∧ ((twoAnswers (Except.ok bodySuccess : Except Unit String) (Except.ok bodyFailure) "" "").SpectrumApp
        "zone" "a1" 1).1 = (sampleRecord, none) :=
  ((C4_result_independent_of_flags_of_the_declared_kinds
    (twoAnswers (Except.ok bodySuccess : Except Unit String) (Except.ok bodyFailure) "" "")
    "account" "zone" "a1" .ifaceNil 0 1).2.2.2.2.2
    bodySuccess bodyFailure (some (.bool true)) (some (.bool false))
    (some (.arr [])) (some (.arr [.str "zone is locked" false]))
    (some (.arr [])) (some (.arr [.str "try later" false]))
    sampleResult sampleRecord rfl rfl
    ⟨_, rfl, List.Perm.refl _⟩ ⟨_, rfl, List.Perm.refl _⟩ rfl).1 rfl rfl

/-! ## Timestamps and `origin_direct` -/

theorem decodeOpt_ptrTime_nil (o : Option Json) (h : decodeOpt .ptrTime o = some .ptrNil) :
    o = none ∨ o = some .null := by
  cases o with
  | none => exact Or.inl rfl
  | some j =>
    right
    cases j with
    | null => rfl
    | str s esc =>
      simp only [decodeOpt, decodeInto] at h
      split at h
      · cases h
      · cases hp : parseRFC3339 s.data <;> simp [hp] at h
    | bool b => simp [decodeOpt, decodeInto] at h
    | num l => simp [decodeOpt, decodeInto] at h
    | arr xs => simp [decodeOpt, decodeInto] at h
    | obj kvs => simp [decodeOpt, decodeInto] at h

theorem getField_createdOn (id protocol : String) (ipv4 : Bool) (dnsType dnsName : String)
    (od : GoVal) (fw pp : Bool) (tls : String) (cv mv : GoVal) :
    getField SpectrumApp (spectrumRecord id protocol ipv4 dnsType dnsName od fw pp tls cv mv)
      "CreatedOn" = cv := by
  rfl

theorem getField_modifiedOn (id protocol : String) (ipv4 : Bool) (dnsType dnsName : String)
    (od : GoVal) (fw pp : Bool) (tls : String) (cv mv : GoVal) :
    getField SpectrumApp (spectrumRecord id protocol ipv4 dnsType dnsName od fw pp tls cv mv)
      "ModifiedOn" = mv := by
  rfl

theorem getField_originDirect (id protocol : String) (ipv4 : Bool) (dnsType dnsName : String)
    (od : GoVal) (fw pp : Bool) (tls : String) (cv mv : GoVal) :
    getField SpectrumApp (spectrumRecord id protocol ipv4 dnsType dnsName od fw pp tls cv mv)
      "OriginDirect" = od := by
  rfl

/-- C9: for every response body that is an envelope around a Spectrum
application object, the operation returns a record, with no error, in which a
timestamp whose member is missing from the object is nil (the no-value state,
which is not a timestamp at all, so not the zero instant); `CreatedOn` depends
on the member `created_on` only and `ModifiedOn` on `modified_on` only. -/
theorem C9_missing_timestamp_is_nil {σ E : Type} (api : API σ E)
    (zoneID applicationID : String) (w : σ)
    (body : String) (success : Bool) (errors messages : List (String × Bool)) (result : Json)
    (id protocol : String × Bool) (ipv4 : Bool) (dnsType dnsName : String × Bool)
    (originDirect : List (String × Bool)) (ipFirewall proxyProtocol : Bool) (tls : String × Bool)
    (createdOn modifiedOn : Option Json) (cv mv : GoVal)
    (ha : (api.makeRequest "GET" ("/zones/" ++ zoneID ++ "/spectrum/apps/" ++ applicationID)
      .ifaceNil w).1 = .ok body)
    (he : EnvelopeOf body success errors messages result)
    (hobj : SpectrumAppObject result id protocol ipv4 dnsType dnsName
      (some (strArr originDirect)) ipFirewall proxyProtocol tls createdOn modifiedOn)
    (hc : decodeOpt .ptrTime createdOn = some cv)
    (hm : decodeOpt .ptrTime modifiedOn = some mv) :
    (api.SpectrumApp zoneID applicationID w).1.2 = none
    ∧ getField SpectrumApp (api.SpectrumApp zoneID applicationID w).1.1 "CreatedOn" = cv
    ∧ getField SpectrumApp (api.SpectrumApp zoneID applicationID w).1.1 "ModifiedOn" = mv
    ∧ (createdOn = none →
        getField SpectrumApp (api.SpectrumApp zoneID applicationID w).1.1 "CreatedOn" = .ptrNil
        ∧ ∀ t, getField SpectrumApp (api.SpectrumApp zoneID applicationID w).1.1 "CreatedOn"
            ≠ .ptrTime t)
    ∧ (modifiedOn = none →
        getField SpectrumApp (api.SpectrumApp zoneID applicationID w).1.1 "ModifiedOn" = .ptrNil
        ∧ ∀ t, getField SpectrumApp (api.SpectrumApp zoneID applicationID w).1.1 "ModifiedOn"
            ≠ .ptrTime t) := by
  have hr := spectrumApp_returns api zoneID applicationID w body success errors messages result
    id protocol ipv4 dnsType dnsName _ ipFirewall proxyProtocol tls createdOn modifiedOn _ cv mv
    ha he hobj (decodeOpt_strArr originDirect) hc hm
  rw [hr]
  refine ⟨rfl, getField_createdOn _ _ _ _ _ _ _ _ _ _ _, getField_modifiedOn _ _ _ _ _ _ _ _ _ _ _,
    ?_, ?_⟩ <;> simp only [getField_createdOn, getField_modifiedOn]
  · intro h
    subst h
    simp only [decodeOpt, zero, Option.some.injEq] at hc
    subst hc
    exact ⟨rfl, fun t h => by cases h⟩
  · intro h
    subst h
    simp only [decodeOpt, zero, Option.some.injEq] at hm
    subst hm
    exact ⟨rfl, fun t h => by cases h⟩

set_option maxRecDepth 1000000 in
/-- C9 at a body whose result has `modified_on` and no `created_on`. -/
theorem C9_witness :
    getField SpectrumApp
        ((fixed (Except.ok bodyCreatedOnMissing : Except Unit String) "" "").SpectrumApp
          "zone" "a1" 0).1.1 "CreatedOn" = .ptrNil
    ∧ getField SpectrumApp
        ((fixed (Except.ok bodyCreatedOnMissing : Except Unit String) "" "").SpectrumApp
          "zone" "a1" 0).1.1 "ModifiedOn" = .ptrTime fixtureInstant :=
  have h := C9_missing_timestamp_is_nil
    (fixed (Except.ok bodyCreatedOnMissing : Except Unit String) "" "") "zone" "a1" 0
    bodyCreatedOnMissing true [] []
    (.obj [("id", .str "a1" false), ("protocol", .str "tcp/22" false), ("ipv4", .bool true),
      ("dns", .obj [("type", .str "CNAME" false), ("name", .str "spectrum.example.com" false)]),
      ("origin_direct", .arr [.str "tcp://192.0.2.1:22" false]),
      ("ip_firewall", .bool true), ("proxy_protocol", .bool false), ("tls", .str "off" false),
      ("modified_on", .str "2018-03-28T21:25:55.643771Z" false)])
    ("a1", false) ("tcp/22", false) true ("CNAME", false) ("spectrum.example.com", false)
    [("tcp://192.0.2.1:22", false)] true false ("off", false)
    none (some (.str "2018-03-28T21:25:55.643771Z" false)) .ptrNil (.ptrTime fixtureInstant)
    rfl ⟨_, rfl, List.Perm.refl _⟩ ⟨_, _, rfl, List.Perm.refl _, List.Perm.refl _⟩ rfl rfl
  ⟨(h.2.2.2.1 rfl).1, h.2.2.1⟩


theorem decodeOpt_emptyArr : decodeOpt (.slice .string) (some (.arr [])) = some (.slice []) := by
  simp [decodeOpt, decodeInto, decodeElems]

theorem decodeOpt_slice_absent (o : Option Json) (h : o = none ∨ o = some .null) :
    decodeOpt (.slice .string) o = some .sliceNil := by
  rcases h with rfl | rfl
  · simp [decodeOpt, zero]
  · simp [decodeOpt, decodeInto, nullInto]

/-- C10: for every response body that is an envelope around a Spectrum
application object, if `origin_direct` is an array with zero elements the
operation returns, with no error, a record whose `OriginDirect` is the empty
slice (present, of length 0); if `origin_direct` is missing or null it is the
nil slice; and the two are different values. -/
theorem C10_empty_origin_direct_is_empty_slice {σ E : Type} (api : API σ E)
    (zoneID applicationID : String) (w : σ)
    (body : String) (success : Bool) (errors messages : List (String × Bool)) (result : Json)
    (id protocol : String × Bool) (ipv4 : Bool) (dnsType dnsName : String × Bool)
    (originDirect : Option Json) (ipFirewall proxyProtocol : Bool) (tls : String × Bool)
    (createdOn modifiedOn : Option Json) (cv mv : GoVal)
    (ha : (api.makeRequest "GET" ("/zones/" ++ zoneID ++ "/spectrum/apps/" ++ applicationID)
      .ifaceNil w).1 = .ok body)
    (he : EnvelopeOf body success errors messages result)
    (hobj : SpectrumAppObject result id protocol ipv4 dnsType dnsName originDirect
      ipFirewall proxyProtocol tls createdOn modifiedOn)
    (hc : decodeOpt .ptrTime createdOn = some cv)
    (hm : decodeOpt .ptrTime modifiedOn = some mv) :
    (originDirect = some (.arr []) →
        (api.SpectrumApp zoneID applicationID w).1.2 = none
        ∧ getField SpectrumApp (api.SpectrumApp zoneID applicationID w).1.1 "OriginDirect"
            = .slice [])
    ∧ (originDirect = none ∨ originDirect = some .null →
        (api.SpectrumApp zoneID applicationID w).1.2 = none
        ∧ getField SpectrumApp (api.SpectrumApp zoneID applicationID w).1.1 "OriginDirect"
            = .sliceNil)
    ∧ GoVal.slice [] ≠ GoVal.sliceNil := by
  refine ⟨?_, ?_, fun h => by cases h⟩
  · intro h
    subst h
    have hr := spectrumApp_returns api zoneID applicationID w body success errors messages
      result id protocol ipv4 dnsType dnsName _ ipFirewall proxyProtocol tls createdOn
      modifiedOn _ cv mv ha he hobj decodeOpt_emptyArr hc hm
    rw [hr]
    exact ⟨rfl, getField_originDirect _ _ _ _ _ _ _ _ _ _ _⟩
  · intro h
    have hr := spectrumApp_returns api zoneID applicationID w body success errors messages
      result id protocol ipv4 dnsType dnsName _ ipFirewall proxyProtocol tls createdOn
      modifiedOn _ cv mv ha he hobj (decodeOpt_slice_absent originDirect h) hc hm
    rw [hr]
    exact ⟨rfl, getField_originDirect _ _ _ _ _ _ _ _ _ _ _⟩

set_option maxRecDepth 1000000 in
/-- C10 at a body whose `origin_direct` is `[]`. -/
theorem C10_witness :
    ((fixed (Except.ok bodyOriginDirectEmpty : Except Unit String) "" "").SpectrumApp
        "zone" "a1" 0).1.2 = none
    ∧ getField SpectrumApp
        ((fixed (Except.ok bodyOriginDirectEmpty : Except Unit String) "" "").SpectrumApp
          "zone" "a1" 0).1.1 "OriginDirect" = .slice [] :=
  (C10_empty_origin_direct_is_empty_slice
    (fixed (Except.ok bodyOriginDirectEmpty : Except Unit String) "" "") "zone" "a1" 0
    bodyOriginDirectEmpty true [] []
    (.obj [("id", .str "a1" false), ("protocol", .str "tcp/22" false), ("ipv4", .bool true),
      ("dns", .obj [("type", .str "CNAME" false), ("name", .str "spectrum.example.com" false)]),
      ("origin_direct", .arr []),
      ("ip_firewall", .bool true), ("proxy_protocol", .bool false), ("tls", .str "off" false),
      ("created_on", .str "2018-03-28T21:25:55.643771Z" false),
      ("modified_on", .str "2018-03-28T21:25:55.643771Z" false)])
    ("a1", false) ("tcp/22", false) true ("CNAME", false) ("spectrum.example.com", false)
    (some (.arr [])) true false ("off", false)
    (some (.str "2018-03-28T21:25:55.643771Z" false))
    (some (.str "2018-03-28T21:25:55.643771Z" false))
    (.ptrTime fixtureInstant) (.ptrTime fixtureInstant)
    rfl ⟨_, rfl, List.Perm.refl _⟩ ⟨_, _, rfl, List.Perm.refl _, List.Perm.refl _⟩ rfl rfl).1 rfl

set_option maxRecDepth 1000000 in
/-- C7 (as the claim states it, refuted): on a response body whose result has
`modified_on` but no `created_on`, `SpectrumApp` returns without error a
record whose `CreatedOn` is nil while its `ModifiedOn` is set. -/
theorem C7_counterexample :
    ((fixed (Except.ok bodyCreatedOnMissing : Except Unit String) "" "").SpectrumApp
        "zone" "a1" 0).1
      = (spectrumRecord "a1" "tcp/22" true "CNAME" "spectrum.example.com"
          (.slice [.str (goString "tcp://192.0.2.1:22")]) true false "off"
          .ptrNil (.ptrTime fixtureInstant), none)
    ∧ ¬ (GoVal.ptrNil = GoVal.ptrNil ↔ GoVal.ptrTime fixtureInstant = GoVal.ptrNil) := by
  refine ⟨rfl, ?_⟩
  intro h
  have := h.mp rfl
  cases this

/-- C7 (amended): for every response body that is an envelope around a
Spectrum application object, the operation returns, with no error, a record
whose `CreatedOn` is nil exactly when `created_on` is missing or null, and
whose `ModifiedOn` is nil exactly when `modified_on` is missing or null; so the
two are both nil or both set for the bodies in which the two members are both
missing-or-null or both timestamps. -/
theorem C7_timestamps_follow_their_members {σ E : Type} (api : API σ E)
    (zoneID applicationID : String) (w : σ)
    (body : String) (success : Bool) (errors messages : List (String × Bool)) (result : Json)
    (id protocol : String × Bool) (ipv4 : Bool) (dnsType dnsName : String × Bool)
    (originDirect : List (String × Bool)) (ipFirewall proxyProtocol : Bool) (tls : String × Bool)
    (createdOn modifiedOn : Option Json) (cv mv : GoVal)
    (ha : (api.makeRequest "GET" ("/zones/" ++ zoneID ++ "/spectrum/apps/" ++ applicationID)
      .ifaceNil w).1 = .ok body)
    (he : EnvelopeOf body success errors messages result)
    (hobj : SpectrumAppObject result id protocol ipv4 dnsType dnsName
      (some (strArr originDirect)) ipFirewall proxyProtocol tls createdOn modifiedOn)
    (hc : decodeOpt .ptrTime createdOn = some cv)
    (hm : decodeOpt .ptrTime modifiedOn = some mv) :
    (api.SpectrumApp zoneID applicationID w).1.2 = none
    ∧ (getField SpectrumApp (api.SpectrumApp zoneID applicationID w).1.1 "CreatedOn" = .ptrNil
        ↔ createdOn = none ∨ createdOn = some .null)
    ∧ (getField SpectrumApp (api.SpectrumApp zoneID applicationID w).1.1 "ModifiedOn" = .ptrNil
        ↔ modifiedOn = none ∨ modifiedOn = some .null)
    ∧ (((createdOn = none ∨ createdOn = some .null)
          ↔ (modifiedOn = none ∨ modifiedOn = some .null)) →
        (getField SpectrumApp (api.SpectrumApp zoneID applicationID w).1.1 "CreatedOn" = .ptrNil
          ↔ getField SpectrumApp (api.SpectrumApp zoneID applicationID w).1.1 "ModifiedOn"
              = .ptrNil)) := by
  have hr := spectrumApp_returns api zoneID applicationID w body success errors messages result
    id protocol ipv4 dnsType dnsName _ ipFirewall proxyProtocol tls createdOn modifiedOn _ cv mv
    ha he hobj (decodeOpt_strArr originDirect) hc hm
  rw [hr]
  have nil_iff : ∀ (o : Option Json) (v : GoVal), decodeOpt .ptrTime o = some v →
      (v = .ptrNil ↔ o = none ∨ o = some .null) := by
    intro o v h
    constructor
    · intro e
      subst e
      exact decodeOpt_ptrTime_nil o h
    · intro e
      rcases e with rfl | rfl
      · simp only [decodeOpt, zero, Option.some.injEq] at h
        exact h.symm
      · simp only [decodeOpt, decodeInto, nullInto, Option.some.injEq] at h
        exact h.symm
  have h1 := nil_iff createdOn cv hc
  have h2 := nil_iff modifiedOn mv hm
  refine ⟨rfl, ?_, ?_, ?_⟩
  · rw [getField_createdOn]; exact h1
  · rw [getField_modifiedOn]; exact h2
  · intro hb
    rw [getField_createdOn, getField_modifiedOn, h1, h2]
    exact hb

set_option maxRecDepth 1000000 in
/-- C7 (amended) at a body that carries both timestamps. -/
theorem C7_witness :
    ((fixed (Except.ok bodySuccess : Except Unit String) "" "").SpectrumApp "zone" "a1" 0).1.2
      = none
    ∧ (getField SpectrumApp
          ((fixed (Except.ok bodySuccess : Except Unit String) "" "").SpectrumApp
            "zone" "a1" 0).1.1 "CreatedOn" = .ptrNil
        ↔ getField SpectrumApp
          ((fixed (Except.ok bodySuccess : Except Unit String) "" "").SpectrumApp
            "zone" "a1" 0).1.1 "ModifiedOn" = .ptrNil) :=
  have h := C7_timestamps_follow_their_members
    (fixed (Except.ok bodySuccess : Except Unit String) "" "") "zone" "a1" 0
    bodySuccess true [] [] sampleResult
    ("a1", false) ("tcp/22", false) true ("CNAME", false) ("spectrum.example.com", false)
    [("tcp://192.0.2.1:22", false)] true false ("off", false)
    (some (.str "2018-03-28T21:25:55.643771Z" false))
    (some (.str "2018-03-28T21:25:55.643771Z" false))
    (.ptrTime fixtureInstant) (.ptrTime fixtureInstant)
    rfl ⟨_, rfl, List.Perm.refl _⟩ ⟨_, _, rfl, List.Perm.refl _, List.Perm.refl _⟩ rfl rfl
  ⟨h.1, h.2.2.2 (by simp)⟩


/-! ## The builder on the tokens of a serialised structure -/

theorem build_cons (stack : List Frame) (e : Expect) (t : Token) (ts : List Token) :
    build stack e (t :: ts) = match buildStep stack e t with
      | none => none
      | some (stack1, e1) => build stack1 e1 ts := by
  cases e <;> rfl

mutual
theorem build_value : ∀ (d : Doc) (stack : List Frame) (e : Expect) (rest : List Token),
    (e = .value ∨ e = .valueOrClose) → stack.length + d.nesting ≤ maxNestingDepth →
    build stack e (d.tokens ++ rest)
      = build (complete d.toJson stack).1 (complete d.toJson stack).2 rest
  | .null, stack, e, rest, he, _ => by
    rcases he with rfl | rfl <;> cases stack <;>
      simp [Doc.tokens, Doc.toJson, build_cons, buildStep, startValue]
  | .bool b, stack, e, rest, he, _ => by
    rcases he with rfl | rfl <;> cases stack <;>
      simp [Doc.tokens, Doc.toJson, build_cons, buildStep, startValue]
  | .str s, stack, e, rest, he, _ => by
    rcases he with rfl | rfl <;> cases stack <;>
      simp [Doc.tokens, Doc.toJson, stringToken, build_cons, buildStep, startValue]
  | .arr xs, stack, e, rest, he, hd => by
    have hlen : stack.length < maxNestingDepth := by
      simp [Doc.nesting] at hd; omega
    have h1 : build stack e ((Doc.arr xs).tokens ++ rest)
        = build (.arr [] :: stack) .valueOrClose (tokensElems true xs ++ .rbrack :: rest) := by
      rcases he with rfl | rfl <;> cases stack <;>
        simp [Doc.tokens, build_cons, buildStep, startValue, hlen] <;> simp_all
    have h2 := build_elems xs stack [] true rest (Or.inl ⟨rfl, rfl⟩)
      (by simp [Doc.nesting] at hd; omega)
    simp only [if_true, List.reverse_nil, List.nil_append] at h2
    rw [h1, h2, Doc.toJson]
  | .obj kvs, stack, e, rest, he, hd => by
    have hlen : stack.length < maxNestingDepth := by
      simp [Doc.nesting] at hd; omega
    have h1 : build stack e ((Doc.obj kvs).tokens ++ rest)
        = build (.obj [] "" :: stack) .keyOrClose (tokensMembers true kvs ++ .rbrace :: rest) := by
      rcases he with rfl | rfl <;> cases stack <;>
        simp [Doc.tokens, build_cons, buildStep, startValue, hlen] <;> simp_all
    have h2 := build_members kvs stack [] "" true rest (Or.inl ⟨rfl, rfl⟩)
      (by simp [Doc.nesting] at hd; omega)
    simp only [if_true, List.reverse_nil, List.nil_append] at h2
    rw [h1, h2, Doc.toJson]
theorem build_elems : ∀ (xs : List Doc) (stack : List Frame) (rev : List Json) (first : Bool)
    (rest : List Token),
    ((first = true ∧ rev = []) ∨ first = false) →
    stack.length + 1 + nestingElems xs ≤ maxNestingDepth →
    build (.arr rev :: stack) (if first then .valueOrClose else .endValue)
        (tokensElems first xs ++ .rbrack :: rest)
      = build (complete (.arr (rev.reverse ++ toJsonElems xs)) stack).1
          (complete (.arr (rev.reverse ++ toJsonElems xs)) stack).2 rest
  | [], stack, rev, first, rest, hf, _ => by
    cases first <;> simp [tokensElems, toJsonElems, build_cons, buildStep]
  | x :: xs, stack, rev, first, rest, hf, hd => by
    have hx : (.arr rev :: stack : List Frame).length + x.nesting ≤ maxNestingDepth := by
      simp [nestingElems] at hd; simp; omega
    have hxs : stack.length + 1 + nestingElems xs ≤ maxNestingDepth := by
      simp [nestingElems] at hd; omega
    cases first with
    | true =>
      simp only [tokensElems, if_true, List.nil_append, List.append_assoc]
      rw [build_value x (.arr rev :: stack) .valueOrClose _ (Or.inr rfl) hx]
      simp only [complete]
      have := build_elems xs stack (x.toJson :: rev) false rest (Or.inr rfl) hxs
      simp [toJsonElems] at this ⊢
      exact this
    | false =>
      simp only [tokensElems, List.append_assoc, List.cons_append, List.nil_append]
      simp only [Bool.false_eq_true, if_false, List.cons_append, List.nil_append, build_cons,
        buildStep]
      rw [build_value x (.arr rev :: stack) .value _ (Or.inl rfl) hx]
      simp only [complete]
      have := build_elems xs stack (x.toJson :: rev) false rest (Or.inr rfl) hxs
      simp [toJsonElems] at this ⊢
      exact this
theorem build_members : ∀ (kvs : List (GoString × Doc)) (stack : List Frame)
    (rev : List (String × Json)) (key : String) (first : Bool) (rest : List Token),
    ((first = true ∧ rev = []) ∨ first = false) →
    stack.length + 1 + nestingMembers kvs ≤ maxNestingDepth →
    build (.obj rev key :: stack) (if first then .keyOrClose else .endValue)
        (tokensMembers first kvs ++ .rbrace :: rest)
      = build (complete (.obj (rev.reverse ++ toJsonMembers kvs)) stack).1
          (complete (.obj (rev.reverse ++ toJsonMembers kvs)) stack).2 rest
  | [], stack, rev, key, first, rest, hf, _ => by
    cases first <;> simp [tokensMembers, toJsonMembers, build_cons, buildStep]
  | (k, x) :: kvs, stack, rev, key, first, rest, hf, hd => by
    have hx : (.obj rev (String.mk (textOf k)) :: stack : List Frame).length + x.nesting
        ≤ maxNestingDepth := by
      simp [nestingMembers] at hd; simp; omega
    have hxs : stack.length + 1 + nestingMembers kvs ≤ maxNestingDepth := by
      simp [nestingMembers] at hd; omega
    cases first with
    | true =>
      simp only [tokensMembers, stringToken, if_true, List.nil_append, List.append_assoc,
        List.cons_append, build_cons, buildStep, startKey]
      rw [build_value x (.obj rev (String.mk (textOf k)) :: stack) .value _ (Or.inl rfl) hx]
      simp only [complete]
      have := build_members kvs stack ((String.mk (textOf k), x.toJson) :: rev)
        (String.mk (textOf k)) false rest (Or.inr rfl) hxs
      simp [toJsonMembers] at this ⊢
      exact this
    | false =>
      simp only [tokensMembers, stringToken, Bool.false_eq_true, if_false, List.nil_append,
        List.append_assoc, List.cons_append, build_cons, buildStep, startKey]
      rw [build_value x (.obj rev (String.mk (textOf k)) :: stack) .value _ (Or.inl rfl) hx]
      simp only [complete]
      have := build_members kvs stack ((String.mk (textOf k), x.toJson) :: rev)
        (String.mk (textOf k)) false rest (Or.inr rfl) hxs
      simp [toJsonMembers] at this ⊢
      exact this
end

theorem build_tokens (d : Doc) (h : d.nesting ≤ maxNestingDepth) :
    build [] .value d.tokens = some d.toJson := by
  have h1 := build_value d [] .value [] (Or.inl rfl) (by simpa using h)
  simp only [List.append_nil, complete] at h1
  rw [h1, build]

/-! ## The tokeniser on the text of a serialised structure -/

theorem lex_cons (m : LexMode) (c : Char) (cs : List Char) :
    lex m (c :: cs) = match lexStep m c with
      | none => none
      | some (m1, toks) => (lex m1 cs).map (fun r => toks ++ r) := by
  cases m <;> rfl

theorem hexVal_hexDigit (d : Nat) (h : d < 16) : hexVal (hexDigit d) = some d := by
  interval_cases d <;> rfl

theorem needsEscape_bound (c : Char) (h : needsEscape c = true) : c.toNat < 8234 := by
  simp only [needsEscape, Bool.or_eq_true, decide_eq_true_eq] at h
  rcases h with ((((((h | h) | h) | h) | h) | h) | h) | h
  · omega
  · subst h; decide
  · subst h; decide
  · subst h; decide
  · subst h; decide
  · subst h; decide
  · omega
  · omega

theorem lex_unicode_escape (acc : List Char) (esc : Bool) (n : Nat) (more : List Char)
    (hn : n < 65536) (hs : n < 55296 ∨ 57344 ≤ n) :
    lex (.str acc esc) ('\\' :: 'u' :: hexDigit (n / 4096) :: hexDigit (n / 256 % 16)
        :: hexDigit (n / 16 % 16) :: hexDigit (n % 16) :: more)
      = lex (.str (Char.ofNat n :: acc) true) more := by
  have h1 := hexVal_hexDigit (n / 4096) (by omega)
  have h2 := hexVal_hexDigit (n / 256 % 16) (by omega)
  have h3 := hexVal_hexDigit (n / 16 % 16) (by omega)
  have h4 := hexVal_hexDigit (n % 16) (by omega)
  have hv : ((n / 4096 * 16 + n / 256 % 16) * 16 + n / 16 % 16) * 16 + n % 16 = n := by omega
  have e1 : lexStep (.str acc esc) '\\' = some (.strEsc acc, []) := rfl
  have e2 : lexStep (.strEsc acc) 'u' = some (.strU acc [] none, []) := rfl
  have e3 : lexStep (.strU acc [] none) (hexDigit (n / 4096))
      = some (.strU acc [n / 4096] none, []) := by
    simp [lexStep, h1]
  have e4 : lexStep (.strU acc [n / 4096] none) (hexDigit (n / 256 % 16))
      = some (.strU acc [n / 4096, n / 256 % 16] none, []) := by
    simp [lexStep, h2]
  have e5 : lexStep (.strU acc [n / 4096, n / 256 % 16] none) (hexDigit (n / 16 % 16))
      = some (.strU acc [n / 4096, n / 256 % 16, n / 16 % 16] none, []) := by
    simp [lexStep, h3]
  have e6 : lexStep (.strU acc [n / 4096, n / 256 % 16, n / 16 % 16] none) (hexDigit (n % 16))
      = some (.str (Char.ofNat n :: acc) true, []) := by
    have hh : ¬ (55296 ≤ n ∧ n < 56320) := by omega
    have hl : ¬ (56320 ≤ n ∧ n < 57344) := by omega
    simp [lexStep, h4, hv, lexUnicode, hh, hl]
  simp only [lex_cons, e1, e2, e3, e4, e5, e6, List.nil_append, Option.map_map]
  cases lex (.str (Char.ofNat n :: acc) true) more <;> rfl

theorem lex_short_escape (acc : List Char) (esc : Bool) (c e : Char) (more : List Char)
    (h : escapeChar c = some e) (hc : c ≠ 'u') :
    lex (.str acc esc) ('\\' :: c :: more) = lex (.str (e :: acc) true) more := by
  have e1 : lexStep (.str acc esc) '\\' = some (.strEsc acc, []) := rfl
  have e2 : lexStep (.strEsc acc) c = some (.str (e :: acc) true, []) := by
    simp [lexStep, lexAfterBackslash, hc, h]
  simp only [lex_cons, e1, e2, List.nil_append, Option.map_map]
  cases lex (.str (e :: acc) true) more <;> rfl

theorem lex_printRune (r : Option Char) (acc : List Char) (esc : Bool) (more : List Char) :
    lex (.str acc esc) (printRune r ++ more)
      = lex (.str (r.getD replacementChar :: acc) (escapedRune r || esc)) more := by
  cases r with
  | none =>
    exact lex_unicode_escape acc esc 65533 more (by decide) (by decide)
  | some c =>
    simp only [Option.getD_some, escapedRune]
    by_cases h1 : c = '"'
    · subst h1
      exact lex_short_escape acc esc '"' '"' more rfl (by decide)
    by_cases h2 : c = '\\'
    · subst h2
      exact lex_short_escape acc esc '\\' '\\' more rfl (by decide)
    by_cases h3 : c.toNat = 8
    · have : c = Char.ofNat 8 := by rw [← h3, Char.ofNat_toNat]
      subst this
      exact lex_short_escape acc esc 'b' (Char.ofNat 8) more rfl (by decide)
    by_cases h4 : c.toNat = 12
    · have : c = Char.ofNat 12 := by rw [← h4, Char.ofNat_toNat]
      subst this
      exact lex_short_escape acc esc 'f' (Char.ofNat 12) more rfl (by decide)
    by_cases h5 : c.toNat = 10
    · have : c = Char.ofNat 10 := by rw [← h5, Char.ofNat_toNat]
      subst this
      exact lex_short_escape acc esc 'n' (Char.ofNat 10) more rfl (by decide)
    by_cases h6 : c.toNat = 13
    · have : c = Char.ofNat 13 := by rw [← h6, Char.ofNat_toNat]
      subst this
      exact lex_short_escape acc esc 'r' (Char.ofNat 13) more rfl (by decide)
    by_cases h7 : c.toNat = 9
    · have : c = Char.ofNat 9 := by rw [← h7, Char.ofNat_toNat]
      subst this
      exact lex_short_escape acc esc 't' (Char.ofNat 9) more rfl (by decide)
    by_cases h8 : needsEscape c = true
    · have hb := needsEscape_bound c h8
      have hp : printRune (some c) = ['\\', 'u', hexDigit (c.toNat / 4096),
          hexDigit (c.toNat / 256 % 16), hexDigit (c.toNat / 16 % 16),
          hexDigit (c.toNat % 16)] := by
        simp [printRune, h1, h2, h3, h4, h5, h6, h7, h8]
      rw [hp, h8, Bool.true_or]
      have := lex_unicode_escape acc esc c.toNat more (by omega) (by omega)
      rw [Char.ofNat_toNat] at this
      exact this
    · have hp : printRune (some c) = [c] := by
        simp [printRune, h1, h2, h3, h4, h5, h6, h7, h8]
      have h9 : needsEscape c = false := by simpa using h8
      have hc : ¬ c.toNat < 32 := by
        intro hlt
        simp [needsEscape, hlt] at h9
      have e1 : lexStep (.str acc esc) c = some (.str (c :: acc) esc, []) := by
        simp [lexStep, lexInString, h1, h2, hc]
      rw [hp, h9, Bool.false_or]
      simp only [List.singleton_append, lex_cons, e1, List.nil_append]
      cases lex (.str (c :: acc) esc) more <;> rfl

theorem lex_printRunes (rs : List (Option Char)) (acc : List Char) (esc : Bool)
    (rest : List Char) :
    lex (.str acc esc) (printRunes rs ++ '"' :: rest)
      = (lex .top rest).map (fun r =>
          Token.str (String.mk (acc.reverse ++ rs.map (fun x => x.getD replacementChar)))
            (rs.any escapedRune || esc) :: r) := by
  induction rs generalizing acc esc with
  | nil =>
    have e1 : lexStep (.str acc esc) '"' = some (.top, [.str (String.mk acc.reverse) esc]) := rfl
    simp only [printRunes, List.nil_append, lex_cons, e1, List.map_nil, List.append_nil,
      List.any_nil, Bool.false_or]
    rfl
  | cons r rs ih =>
    rw [printRunes, List.append_assoc, lex_printRune, ih]
    simp only [List.reverse_cons, List.append_assoc, List.singleton_append, List.map_cons,
      List.any_cons]
    cases escapedRune r <;> cases rs.any escapedRune <;> cases esc <;> rfl

theorem lex_quote (s : GoString) (rest : List Char) :
    lex .top (quote s ++ rest) = (lex .top rest).map (fun r => stringToken s :: r) := by
  have e1 : lexStep .top '"' = some (.str [] false, []) := rfl
  have h := lex_printRunes (decodeRunes s) [] false rest
  simp only [quote, List.cons_append, List.append_assoc, List.singleton_append, lex_cons, e1,
    h, Option.map_map, List.reverse_nil, List.nil_append, Bool.or_false]
  rfl

theorem lex_char (c : Char) (t : Token) (more : List Char)
    (h : lexStep .top c = some (.top, [t])) :
    lex .top (c :: more) = (lex .top more).map (fun r => t :: r) := by
  rw [lex_cons, h]
  rfl

theorem lex_null (more : List Char) :
    lex .top ('n' :: 'u' :: 'l' :: 'l' :: more)
      = (lex .top more).map (fun r => Token.lit .null :: r) := by
  have e1 : lexStep .top 'n' = some (.word ['u', 'l', 'l'] .null, []) := rfl
  have e2 : lexStep (.word ['u', 'l', 'l'] .null) 'u' = some (.word ['l', 'l'] .null, []) := rfl
  have e3 : lexStep (.word ['l', 'l'] .null) 'l' = some (.word ['l'] .null, []) := rfl
  have e4 : lexStep (.word ['l'] .null) 'l' = some (.top, [.lit .null]) := rfl
  simp only [lex_cons, e1, e2, e3, e4, Option.map_map]
  cases lex .top more <;> rfl

theorem lex_true (more : List Char) :
    lex .top ('t' :: 'r' :: 'u' :: 'e' :: more)
      = (lex .top more).map (fun r => Token.lit (.bool true) :: r) := by
  have e1 : lexStep .top 't' = some (.word ['r', 'u', 'e'] (.bool true), []) := rfl
  have e2 : lexStep (.word ['r', 'u', 'e'] (.bool true)) 'r'
      = some (.word ['u', 'e'] (.bool true), []) := rfl
  have e3 : lexStep (.word ['u', 'e'] (.bool true)) 'u' = some (.word ['e'] (.bool true), []) :=
    rfl
  have e4 : lexStep (.word ['e'] (.bool true)) 'e' = some (.top, [.lit (.bool true)]) := rfl
  simp only [lex_cons, e1, e2, e3, e4, Option.map_map]
  cases lex .top more <;> rfl

theorem lex_false (more : List Char) :
    lex .top ('f' :: 'a' :: 'l' :: 's' :: 'e' :: more)
      = (lex .top more).map (fun r => Token.lit (.bool false) :: r) := by
  have e1 : lexStep .top 'f' = some (.word ['a', 'l', 's', 'e'] (.bool false), []) := rfl
  have e2 : lexStep (.word ['a', 'l', 's', 'e'] (.bool false)) 'a'
      = some (.word ['l', 's', 'e'] (.bool false), []) := rfl
  have e3 : lexStep (.word ['l', 's', 'e'] (.bool false)) 'l'
      = some (.word ['s', 'e'] (.bool false), []) := rfl
  have e4 : lexStep (.word ['s', 'e'] (.bool false)) 's'
      = some (.word ['e'] (.bool false), []) := rfl
  have e5 : lexStep (.word ['e'] (.bool false)) 'e' = some (.top, [.lit (.bool false)]) := rfl
  simp only [lex_cons, e1, e2, e3, e4, e5, Option.map_map]
  cases lex .top more <;> rfl

mutual
theorem lex_doc : ∀ (d : Doc) (rest : List Char),
    lex .top (d.print ++ rest) = (lex .top rest).map (fun r => d.tokens ++ r)
  | .null, rest => by
    simp only [Doc.print, Doc.tokens, List.cons_append, List.nil_append, lex_null]
  | .bool b, rest => by
    cases b <;>
      simp only [Doc.print, Doc.tokens, List.cons_append, List.nil_append, lex_true, lex_false,
        if_true, if_false, Bool.false_eq_true]
  | .str s, rest => by
    simp only [Doc.print, Doc.tokens, lex_quote, List.cons_append, List.nil_append]
  | .arr xs, rest => by
    simp only [Doc.print, Doc.tokens, List.cons_append, List.append_assoc, List.nil_append]
    rw [lex_char '[' .lbrack _ rfl, lex_elems true xs, lex_char ']' .rbrack _ rfl]
    simp only [Option.map_map]
    cases lex .top rest <;> simp
  | .obj kvs, rest => by
    simp only [Doc.print, Doc.tokens, List.cons_append, List.append_assoc, List.nil_append]
    rw [lex_char (Char.ofNat 123) .lbrace _ rfl, lex_members true kvs,
      lex_char (Char.ofNat 125) .rbrace _ rfl]
    simp only [Option.map_map]
    cases lex .top rest <;> simp
theorem lex_elems : ∀ (first : Bool) (xs : List Doc) (rest : List Char),
    lex .top (printElems first xs ++ rest)
      = (lex .top rest).map (fun r => tokensElems first xs ++ r)
  | first, [], rest => by
    simp [printElems, tokensElems]
  | first, x :: xs, rest => by
    cases first with
    | true =>
      simp only [printElems, tokensElems, if_true, List.nil_append, List.append_assoc]
      rw [lex_doc x, lex_elems false xs]
      simp only [Option.map_map]
      cases lex .top rest <;> simp
    | false =>
      simp only [printElems, tokensElems, if_false, Bool.false_eq_true, List.cons_append,
        List.nil_append, List.append_assoc]
      rw [lex_char ',' .comma _ rfl, lex_doc x, lex_elems false xs]
      simp only [Option.map_map]
      cases lex .top rest <;> simp
theorem lex_members : ∀ (first : Bool) (kvs : List (GoString × Doc)) (rest : List Char),
    lex .top (printMembers first kvs ++ rest)
      = (lex .top rest).map (fun r => tokensMembers first kvs ++ r)
  | first, [], rest => by
    simp [printMembers, tokensMembers]
  | first, (k, x) :: kvs, rest => by
    cases first with
    | true =>
      simp only [printMembers, tokensMembers, if_true, List.nil_append, List.append_assoc,
        List.cons_append]
      rw [lex_quote k, lex_char ':' .colon _ rfl, lex_doc x, lex_members false kvs]
      simp only [Option.map_map]
      cases lex .top rest <;> simp
    | false =>
      simp only [printMembers, tokensMembers, if_false, Bool.false_eq_true, List.cons_append,
        List.nil_append, List.append_assoc]
      rw [lex_char ',' .comma _ rfl, lex_quote k, lex_char ':' .colon _ rfl, lex_doc x,
        lex_members false kvs]
      simp only [Option.map_map]
      cases lex .top rest <;> simp
end

/-- Reading back the text of a serialised structure gives its document. -/
theorem parseJSON_print (d : Doc) (h : d.nesting ≤ maxNestingDepth) :
    parseJSON (String.mk d.print) = some d.toJson := by
  have h1 := lex_doc d []
  have h2 : lex .top [] = some [] := rfl
  rw [List.append_nil, h2] at h1
  simp only [Option.map_some', List.append_nil] at h1
  simp only [parseJSON, h1, build_tokens d h]

/-! ## UTF-8: a valid Go string is the encoding of its text -/

theorem toNat_ofNat_scalar (r : Nat) (h : r < 55296 ∨ (57344 ≤ r ∧ r < 1114112)) :
    (Char.ofNat r).toNat = r := by
  have hv : r.isValidChar := by
    unfold Nat.isValidChar
    omega
  unfold Char.ofNat
  simp only [hv, dite_true]
  unfold Char.ofNatAux Char.toNat
  simp
  rfl

theorem inRange_iff (lo hi b : Nat) : inRange lo hi b = true ↔ lo ≤ b ∧ b ≤ hi := by
  simp [inRange]

theorem decodeRune_spec (bs : GoString) (r size : Nat) (h : decodeRune bs = some (r, size)) :
    (r < 55296 ∨ (57344 ≤ r ∧ r < 1114112)) ∧ 1 ≤ size ∧ size ≤ bs.length
      ∧ encodeRune r ++ bs.drop size = bs := by
  unfold decodeRune at h
  split at h
  · cases h
  · rename_i b0 rest
    split at h
    · rename_i h0
      simp only [Option.some.injEq, Prod.mk.injEq] at h
      obtain ⟨rfl, rfl⟩ := h
      refine ⟨by omega, by omega, by simp, ?_⟩
      simp [encodeRune, h0]
    · rename_i h0
      split at h
      · rename_i h1
        rw [inRange_iff] at h1
        split at h
        · rename_i b1 tl
          split at h
          · rename_i h2
            rw [inRange_iff] at h2
            simp only [Option.some.injEq, Prod.mk.injEq] at h
            obtain ⟨rfl, rfl⟩ := h
            have c1 : ¬ (b0 - 192) * 64 + (b1 - 128) < 128 := by omega
            have c2 : (b0 - 192) * 64 + (b1 - 128) < 2048 := by omega
            have e1 : 192 + ((b0 - 192) * 64 + (b1 - 128)) / 64 = b0 := by omega
            have e2 : 128 + ((b0 - 192) * 64 + (b1 - 128)) % 64 = b1 := by omega
            refine ⟨by omega, by omega, by simp, ?_⟩
            simp [encodeRune, c1, c2, e1, e2]
          · cases h
        · cases h
      · split at h
        · rename_i h1
          rw [inRange_iff] at h1
          split at h
          · rename_i b1 b2 tl
            by_cases h2 : (inRange (if b0 = 224 then 160 else 128)
                (if b0 = 237 then 159 else 191) b1 && inRange 128 191 b2) = true
            · rw [if_pos h2] at h
              simp only [Bool.and_eq_true, inRange_iff] at h2
              simp only [Option.some.injEq, Prod.mk.injEq] at h
              obtain ⟨rfl, rfl⟩ := h
              obtain ⟨⟨h2a, h2b⟩, h3⟩ := h2
              have g1 : b0 = 224 → 160 ≤ b1 := by
                intro e; simpa [e] using h2a
              have g2 : 128 ≤ b1 := by
                by_cases e : b0 = 224
                · have := g1 e; omega
                · simpa [e] using h2a
              have g3 : b0 = 237 → b1 ≤ 159 := by
                intro e; simpa [e] using h2b
              have g4 : b1 ≤ 191 := by
                by_cases e : b0 = 237
                · have := g3 e; omega
                · simpa [e] using h2b
              have c1 : ¬ ((b0 - 224) * 64 + (b1 - 128)) * 64 + (b2 - 128) < 128 := by omega
              have c2 : ¬ ((b0 - 224) * 64 + (b1 - 128)) * 64 + (b2 - 128) < 2048 := by omega
              have c3 : ((b0 - 224) * 64 + (b1 - 128)) * 64 + (b2 - 128) < 65536 := by omega
              have e1 : 224 + (((b0 - 224) * 64 + (b1 - 128)) * 64 + (b2 - 128)) / 4096 = b0 := by
                omega
              have e2 : 128 + (((b0 - 224) * 64 + (b1 - 128)) * 64 + (b2 - 128)) / 64 % 64
                  = b1 := by omega
              have e3 : 128 + (((b0 - 224) * 64 + (b1 - 128)) * 64 + (b2 - 128)) % 64 = b2 := by
                omega
              refine ⟨by omega, by omega, by simp, ?_⟩
              simp [encodeRune, c1, c2, c3, e1, e2, e3]
            · rw [if_neg h2] at h
              cases h
          · cases h
        · split at h
          · rename_i h1
            rw [inRange_iff] at h1
            split at h
            · rename_i b1 b2 b3 tl
              by_cases h2 : (inRange (if b0 = 240 then 144 else 128)
                  (if b0 = 244 then 143 else 191) b1 && inRange 128 191 b2
                  && inRange 128 191 b3) = true
              · rw [if_pos h2] at h
                simp only [Bool.and_eq_true, inRange_iff] at h2
                simp only [Option.some.injEq, Prod.mk.injEq] at h
                obtain ⟨rfl, rfl⟩ := h
                obtain ⟨⟨⟨h2a, h2b⟩, h3⟩, h4⟩ := h2
                have g1 : b0 = 240 → 144 ≤ b1 := by
                  intro e; simpa [e] using h2a
                have g2 : 128 ≤ b1 := by
                  by_cases e : b0 = 240
                  · have := g1 e; omega
                  · simpa [e] using h2a
                have g3 : b0 = 244 → b1 ≤ 143 := by
                  intro e; simpa [e] using h2b
                have g4 : b1 ≤ 191 := by
                  by_cases e : b0 = 244
                  · have := g3 e; omega
                  · simpa [e] using h2b
                have c1 : ¬ (((b0 - 240) * 64 + (b1 - 128)) * 64 + (b2 - 128)) * 64
                    + (b3 - 128) < 128 := by omega
                have c2 : ¬ (((b0 - 240) * 64 + (b1 - 128)) * 64 + (b2 - 128)) * 64
                    + (b3 - 128) < 2048 := by omega
                have c3 : ¬ (((b0 - 240) * 64 + (b1 - 128)) * 64 + (b2 - 128)) * 64
                    + (b3 - 128) < 65536 := by omega
                have e1 : 240 + ((((b0 - 240) * 64 + (b1 - 128)) * 64 + (b2 - 128)) * 64
                    + (b3 - 128)) / 262144 = b0 := by omega
                have e2 : 128 + ((((b0 - 240) * 64 + (b1 - 128)) * 64 + (b2 - 128)) * 64
                    + (b3 - 128)) / 4096 % 64 = b1 := by omega
                have e3 : 128 + ((((b0 - 240) * 64 + (b1 - 128)) * 64 + (b2 - 128)) * 64
                    + (b3 - 128)) / 64 % 64 = b2 := by omega
                have e4 : 128 + ((((b0 - 240) * 64 + (b1 - 128)) * 64 + (b2 - 128)) * 64
                    + (b3 - 128)) % 64 = b3 := by omega
                refine ⟨by omega, by omega, by simp, ?_⟩
                simp [encodeRune, c1, c2, c3, e1, e2, e3, e4]
              · rw [if_neg h2] at h
                cases h
            · cases h
          · cases h

theorem utf8Encode_decodeRunesAux : ∀ (n : Nat) (bs : GoString), bs.length ≤ n →
    (decodeRunesAux n bs).all Option.isSome = true →
    utf8Encode ((decodeRunesAux n bs).map (fun r => r.getD replacementChar)) = bs := by
  intro n
  induction n with
  | zero =>
    intro bs hl _
    have : bs = [] := List.length_eq_zero.mp (by omega)
    subst this
    rfl
  | succ n ih =>
    intro bs hl hv
    cases bs with
    | nil => rfl
    | cons b bs =>
      rw [decodeRunesAux] at hv ⊢
      cases hd : decodeRune (b :: bs) with
      | none => simp [hd] at hv
      | some p =>
        obtain ⟨r, size⟩ := p
        obtain ⟨hr, h1, h2, he⟩ := decodeRune_spec _ _ _ hd
        simp only [hd, List.all_cons, Option.isSome_some, Bool.true_and] at hv
        have hlen : ((b :: bs).drop size).length ≤ n := by
          simp only [List.length_drop, List.length_cons] at hl h2 ⊢
          omega
        simp only [hd, List.map_cons, Option.getD_some, utf8Encode, toNat_ofNat_scalar r hr,
          ih _ hlen hv]
        exact he

/-- A valid Go string is the UTF-8 encoding of its text. -/
theorem goString_textOf (bs : GoString) (h : validUTF8 bs = true) :
    goString (String.mk (textOf bs)) = bs :=
  utf8Encode_decodeRunesAux bs.length bs (le_refl _) h

/-! ## Round trip of the configuration shapes -/

theorem shapes_plain : ∀ S ∈ configurationShapes, plainShape S = true := by
  intro S hS
  simp only [configurationShapes, List.mem_cons, List.mem_singleton, List.not_mem_nil,
    or_false] at hS
  rcases hS with h | h | h | h | h | h | h | h | h | h | h | h | h | h | h | h | h <;>
    (subst h; rfl)

theorem string_roundtrip (s : GoString) (hv : validUTF8 s = true) :
    LeafRoundTrip .string (.str s) (.str s) := by
  have hg := goString_textOf s hv
  refine ⟨by rw [encodeDoc], by simp [Doc.nesting], ?_, ?_⟩
  · intro cur
    simp [Doc.toJson, decodeInto, hg]
  · refine ⟨.iface .string (.str s), ?_, ?_⟩
    · simp [Doc.toJson, generic, hg]
    · rw [encodeDoc, encodeDoc]

theorem strings_roundtrip : ∀ xs : List GoVal, hasTypeElems .string xs = true →
    xs.all validString = true →
    ∃ ds, encodeElems .string xs = some ds ∧ nestingElems ds = 0
      ∧ decodeElems .string (toJsonElems ds) = some xs
      ∧ ∃ gs, genericElems (toJsonElems ds) = some gs ∧ encodeElems .iface gs = some ds := by
  intro xs
  induction xs with
  | nil =>
    intro _ _
    exact ⟨[], by simp [encodeElems], by simp [nestingElems],
      by simp [toJsonElems, decodeElems], [], by simp [toJsonElems, genericElems],
      by simp [encodeElems]⟩
  | cons x xs ih =>
    intro h hv
    simp only [hasTypeElems, Bool.and_eq_true] at h
    simp only [List.all_cons, Bool.and_eq_true] at hv
    obtain ⟨ds, h1, hn, h2, gs, h3, h4⟩ := ih h.2 hv.2
    cases x <;> simp [hasType] at h
    rename_i s
    obtain ⟨e1, e2, e3, g, e4, e5⟩ := string_roundtrip s hv.1
    refine ⟨.str s :: ds, ?_, ?_, ?_, g :: gs, ?_, ?_⟩
    · simp [encodeElems, e1, h1]
    · simp [nestingElems, hn, Doc.nesting]
    · simp [toJsonElems, decodeElems, e3, h2]
    · simp [toJsonElems, genericElems, e4, h3]
    · simp [encodeElems, e5, h4]

theorem leaf_roundtrip (t : Ty) (v : GoVal) (hl : isLeaf t = true) (ht : hasType t v = true)
    (hv : validLeaf v = true) : ∃ d, LeafRoundTrip t v d := by
  cases t with
  | string =>
    cases v <;> simp [hasType] at ht
    rename_i s
    exact ⟨.str s, string_roundtrip s hv⟩
  | bool =>
    cases v <;> simp [hasType] at ht
    rename_i b
    refine ⟨.bool b, by rw [encodeDoc], by simp [Doc.nesting], ?_, ?_⟩
    · intro cur
      simp [Doc.toJson, decodeInto]
    · exact ⟨.iface .bool (.bool b), by simp [Doc.toJson, generic], by rw [encodeDoc, encodeDoc]⟩
  | slice e =>
    cases e <;> simp [isLeaf] at hl
    cases v <;> simp [hasType] at ht
    · refine ⟨.null, by rw [encodeDoc], by simp [Doc.nesting], ?_, ?_⟩
      · intro cur
        simp [Doc.toJson, decodeInto, nullInto]
      · exact ⟨.ifaceNil, by simp [Doc.toJson, generic], by rw [encodeDoc]⟩
    · rename_i xs
      obtain ⟨ds, h1, hn, h2, gs, h3, h4⟩ := strings_roundtrip xs ht hv
      refine ⟨.arr ds, by simp [encodeDoc, h1], by simp [Doc.nesting, hn], ?_, ?_⟩
      · intro cur
        simp [Doc.toJson, decodeInto, h2]
      · refine ⟨.iface (.slice .iface) (.slice gs), by simp [Doc.toJson, generic, h3], ?_⟩
        rw [encodeDoc, encodeDoc, h4]
        rfl
  | float64 => simp [isLeaf] at hl
  | ptrTime => simp [isLeaf] at hl
  | iface => simp [isLeaf] at hl
  | mapAny => simp [isLeaf] at hl
  | struct fs => simp [isLeaf] at hl

theorem fields_roundtrip : ∀ (fs : List (String × String × Ty)) (vs : List GoVal),
    plainFields fs = true → hasTypeFields fs vs = true → vs.all validLeaf = true →
    ∃ ds : List Doc, ds.length = fs.length
      ∧ encodeFields fs vs = some (docMembers fs ds)
      ∧ (∀ cur : List GoVal, cur.length = fs.length →
          decodeEach fs cur (ds.map (fun d => some d.toJson)) = some vs)
      ∧ (∀ d ∈ ds, d.nesting ≤ 1 ∧ ∃ g, generic d.toJson = some g ∧ encodeDoc .iface g = some d)
      := by
  intro fs
  induction fs with
  | nil =>
    intro vs _ ht _
    cases vs with
    | nil =>
      refine ⟨[], rfl, by simp [encodeFields, docMembers], ?_, by simp⟩
      intro cur hc
      cases cur with
      | nil => simp [decodeEach]
      | cons _ _ => simp at hc
    | cons _ _ => simp [hasTypeFields] at ht
  | cons f fs ih =>
    intro vs hp ht hv
    cases vs with
    | nil => simp [hasTypeFields] at ht
    | cons v vs =>
      simp only [plainFields, Bool.and_eq_true, Bool.not_eq_true'] at hp
      simp only [hasTypeFields, Bool.and_eq_true] at ht
      simp only [List.all_cons, Bool.and_eq_true] at hv
      obtain ⟨ds, h1, h2, h3, h4⟩ := ih vs hp.2 ht.2 hv.2
      obtain ⟨d, e1, en, e2, e3⟩ := leaf_roundtrip f.2.2 v hp.1.1 ht.1 hv.1
      refine ⟨d :: ds, by simp [h1], ?_, ?_, ?_⟩
      · simp [encodeFields, e1, h2, hp.1.2, docMembers]
      · intro cur hc
        cases cur with
        | nil => simp at hc
        | cons c cur =>
          have hc1 : cur.length = fs.length := by simpa using hc
          simp [decodeEach, e2 c, h3 cur hc1]
      · intro d1 hd
        rcases List.mem_cons.mp hd with rfl | hd
        · exact ⟨en, e3⟩
        · exact h4 d1 hd

theorem toJsonMembers_docMembers : ∀ (fs : List (String × String × Ty)) (ds : List Doc),
    ds.length = fs.length → keysAreText (fs.map fieldKey) = true →
    toJsonMembers (docMembers fs ds) = optMembers fs (ds.map (fun d => some d.toJson)) := by
  intro fs
  induction fs with
  | nil =>
    intro ds _ _
    cases ds <;> simp [docMembers, toJsonMembers, optMembers]
  | cons f fs ih =>
    intro ds hl hk
    cases ds with
    | nil => simp at hl
    | cons d ds =>
      simp only [List.map_cons, keysAreText, Bool.and_eq_true, decide_eq_true_eq] at hk
      have hl1 : ds.length = fs.length := by simpa using hl
      simp only [docMembers, toJsonMembers, List.map_cons, optMembers, ih ds hl1 hk.2, hk.1]

theorem nestingMembers_docMembers : ∀ (fs : List (String × String × Ty)) (ds : List Doc),
    (∀ d ∈ ds, d.nesting ≤ 1) → nestingMembers (docMembers fs ds) ≤ 1 := by
  intro fs
  induction fs with
  | nil => intro ds _; cases ds <;> simp [docMembers, nestingMembers]
  | cons f fs ih =>
    intro ds h
    cases ds with
    | nil => simp [docMembers, nestingMembers]
    | cons d ds =>
      have h1 := h d (by simp)
      have h2 := ih ds (fun x hx => h x (by simp [hx]))
      simp only [docMembers, nestingMembers]
      omega

/-! ## Decoding an object into a map and serialising the map -/

theorem distinctKeys_nodup : ∀ ks : List String, distinctKeys ks = true → ks.Nodup := by
  intro ks
  induction ks with
  | nil => intro _; exact List.nodup_nil
  | cons k ks ih =>
    intro h
    simp [distinctKeys] at h
    exact List.nodup_cons.mpr ⟨h.1, ih h.2⟩

theorem keysAreText_mem : ∀ ks : List String, keysAreText ks = true →
    ∀ k ∈ ks, textOf (goString k) = k.data := by
  intro ks
  induction ks with
  | nil => intro _ k hk; simp at hk
  | cons k0 ks ih =>
    intro h k hk
    simp only [keysAreText, Bool.and_eq_true, decide_eq_true_eq] at h
    rcases List.mem_cons.mp hk with rfl | hk
    · exact h.1
    · exact ih h.2 k hk

theorem goString_injective (k k1 : String) (hk : textOf (goString k) = k.data)
    (hk1 : textOf (goString k1) = k1.data) (h : goString k = goString k1) : k = k1 := by
  apply String.ext
  rw [← hk, ← hk1, h]

theorem genericMember_of (kv : String × Json) (h : Regenerable kv) :
    ∃ g d, generic kv.2 = some g ∧ genericMember kv = (goString kv.1, g)
      ∧ encodeDoc .iface g = some d ∧ regenerateMember kv = (goString kv.1, d)
      ∧ d.toJson = kv.2 ∧ d.nesting ≤ 1 := by
  obtain ⟨_, g, d, h1, h2, h3, h4⟩ := h
  refine ⟨g, d, h1, ?_, h2, ?_, h3, h4⟩
  · simp [genericMember, h1]
  · simp [regenerateMember, regenerate, h1, h2]

theorem mapInsert_fresh (k : String) (j : Json) (hk : textOf (goString k) = k.data) :
    ∀ A : List (String × Json), (∀ kv ∈ A, textOf (goString kv.1) = kv.1.data) →
    k ∉ A.map Prod.fst →
    ∃ A1 : List (String × Json), A1.Perm ((k, j) :: A)
      ∧ mapInsert (goString k) ((generic j).getD .ifaceNil) (A.map genericMember)
          = A1.map genericMember := by
  intro A
  induction A with
  | nil =>
    intro _ _
    exact ⟨[(k, j)], List.Perm.refl _, by simp [mapInsert, genericMember]⟩
  | cons a A ih =>
    intro hA hmem
    obtain ⟨k1, j1⟩ := a
    simp only [List.map_cons, List.mem_cons, not_or] at hmem
    have hk1 : textOf (goString k1) = k1.data := hA (k1, j1) (by simp)
    have hne : goString k ≠ goString k1 := fun e => hmem.1 (goString_injective k k1 hk hk1 e)
    obtain ⟨A1, hp, he⟩ := ih (fun kv hkv => hA kv (by simp [hkv])) hmem.2
    by_cases hlt : goString k < goString k1
    · refine ⟨(k, j) :: (k1, j1) :: A, List.Perm.refl _, ?_⟩
      simp [mapInsert, genericMember, hne, hlt]
    · refine ⟨(k1, j1) :: A1, ?_, ?_⟩
      · exact (List.Perm.cons _ hp).trans (List.Perm.swap _ _ _)
      · have e0 : genericMember (k1, j1) = (goString k1, (generic j1).getD .ifaceNil) := rfl
        rw [List.map_cons, List.map_cons, e0, mapInsert, if_neg hne, if_neg hlt, he]

theorem genericMembers_perm : ∀ (K A : List (String × Json)),
    (∀ kv ∈ K, Regenerable kv) → (∀ kv ∈ A, textOf (goString kv.1) = kv.1.data) →
    (K.map Prod.fst).Nodup → (∀ k ∈ K.map Prod.fst, k ∉ A.map Prod.fst) →
    ∃ A1 : List (String × Json), A1.Perm (A ++ K)
      ∧ genericMembers K (A.map genericMember) = some (A1.map genericMember) := by
  intro K
  induction K with
  | nil =>
    intro A _ _ _ _
    exact ⟨A, by simp, by simp [genericMembers]⟩
  | cons kv K ih =>
    intro A hK hA hnd hdis
    obtain ⟨k, j⟩ := kv
    simp only [List.map_cons, List.nodup_cons] at hnd
    have hkA : k ∉ A.map Prod.fst := hdis k (by simp)
    have hreg := hK (k, j) (by simp)
    obtain ⟨A1, hp1, he1⟩ := mapInsert_fresh k j hreg.1 A hA hkA
    obtain ⟨g, d, hg, _, _, _, _, _⟩ := genericMember_of (k, j) hreg
    have hA1 : ∀ kv ∈ A1, textOf (goString kv.1) = kv.1.data := by
      intro kv hkv
      rcases List.mem_cons.mp (hp1.mem_iff.mp hkv) with rfl | h
      · exact hreg.1
      · exact hA kv h
    have hdis1 : ∀ k1 ∈ K.map Prod.fst, k1 ∉ A1.map Prod.fst := by
      intro k1 hk1 hmem
      have hmem1 : k1 ∈ ((k, j) :: A).map Prod.fst := (hp1.map Prod.fst).mem_iff.mp hmem
      simp only [List.map_cons, List.mem_cons] at hmem1
      rcases hmem1 with rfl | hmem1
      · exact hnd.1 hk1
      · exact hdis k1 (by simp [hk1]) hmem1
    obtain ⟨A2, hp2, he2⟩ := ih A1 (fun kv hkv => hK kv (by simp [hkv])) hA1 hnd.2 hdis1
    refine ⟨A2, ?_, ?_⟩
    · refine hp2.trans ?_
      refine (List.Perm.append_right K hp1).trans ?_
      simpa using (@List.perm_middle _ (k, j) A K).symm
    · have hg1 : (generic j).getD .ifaceNil = g := by simp [hg]
      rw [hg1] at he1
      rw [genericMembers]
      simp only [hg, he1, he2]

theorem encodeEntries_generic : ∀ K : List (String × Json), (∀ kv ∈ K, Regenerable kv) →
    encodeEntries (K.map genericMember) = some (K.map regenerateMember)
      ∧ toJsonMembers (K.map regenerateMember) = K
      ∧ nestingMembers (K.map regenerateMember) ≤ 1 := by
  intro K
  induction K with
  | nil => intro _; simp [encodeEntries, toJsonMembers, nestingMembers]
  | cons kv K ih =>
    intro h
    obtain ⟨k, j⟩ := kv
    have hreg := h (k, j) (List.mem_cons_self _ _)
    obtain ⟨hk, g, d, h1, h3, h5, h6⟩ := hreg
    simp only at hk h1 h5
    obtain ⟨i1, i2, i3⟩ := ih (fun kv1 hk => h kv1 (List.mem_cons_of_mem _ hk))
    have hkey : String.mk (textOf (goString k)) = k := by
      rw [hk]
    have e1 : genericMember (k, j) = (goString k, g) := by simp [genericMember, h1]
    have e2 : regenerateMember (k, j) = (goString k, d) := by
      simp [regenerateMember, regenerate, h1, h3]
    refine ⟨?_, ?_, ?_⟩
    · rw [List.map_cons, List.map_cons, e1, e2, encodeEntries, h3, i1]
    · rw [List.map_cons, e2, toJsonMembers, i2, h5, hkey]
    · rw [List.map_cons, e2, nestingMembers]
      omega

theorem optMembers_keys : ∀ (fs : List (String × String × Ty)) (js : List Json),
    js.length = fs.length →
    (optMembers fs (js.map some)).map Prod.fst = fs.map fieldKey := by
  intro fs
  induction fs with
  | nil => intro js _; simp [optMembers]
  | cons f fs ih =>
    intro js h
    cases js with
    | nil => simp at h
    | cons j js =>
      have h1 : js.length = fs.length := by simpa using h
      simp [optMembers, ih js h1]

theorem optMembers_mem : ∀ (fs : List (String × String × Ty)) (js : List Json),
    ∀ kv ∈ optMembers fs (js.map some), kv.1 ∈ fs.map fieldKey ∧ kv.2 ∈ js := by
  intro fs
  induction fs with
  | nil => intro js kv h; simp [optMembers] at h
  | cons f fs ih =>
    intro js kv h
    cases js with
    | nil => simp [optMembers] at h
    | cons j js =>
      simp only [List.map_cons, optMembers, List.mem_cons] at h
      rcases h with rfl | h
      · simp
      · have := ih js kv h
        exact ⟨List.mem_cons_of_mem _ this.1, List.mem_cons_of_mem _ this.2⟩

theorem zeroFields_length : ∀ fs : List (String × String × Ty),
    (zeroFields fs).length = fs.length := by
  intro fs
  induction fs with
  | nil => simp [zeroFields]
  | cons f fs ih =>
    obtain ⟨n, tag, t⟩ := f
    simp [zeroFields, ih]

theorem shape_roundtrip (S : Ty) (c : GoVal) (hS : plainShape S = true)
    (hc : hasType S c = true) (hv : validStrings c = true) :
    ∃ (d : Doc) (kvs0 : List (String × Json)), encodeDoc S c = some d
      ∧ d.nesting ≤ 2
      ∧ d.toJson = .obj kvs0
      ∧ kvs0.map Prod.fst = (Ty.fields S).map fieldKey
      ∧ (kvs0.map Prod.fst).Nodup
      ∧ (∀ kv ∈ kvs0, Regenerable kv)
      ∧ (∀ kvs : List (String × Json), kvs.Perm kvs0 →
          decodeInto S (zero S) (.obj kvs) = some c) := by
  cases S with
  | struct fs =>
    cases c with
    | struct vs =>
      simp only [plainShape, Bool.and_eq_true] at hS
      simp only [hasType] at hc
      simp only [validStrings] at hv
      obtain ⟨⟨⟨hS1, hS2⟩, hS3⟩, hS4⟩ := hS
      obtain ⟨ds, h1, h2, h3, h4⟩ := fields_roundtrip fs vs hS1 hc hv
      have hj : toJsonMembers (docMembers fs ds)
          = optMembers fs ((ds.map Doc.toJson).map some) := by
        rw [toJsonMembers_docMembers fs ds h1 hS4, List.map_map]
        rfl
      have hlen : (ds.map Doc.toJson).length = fs.length := by simp [h1]
      refine ⟨.obj (docMembers fs ds), optMembers fs ((ds.map Doc.toJson).map some), ?_, ?_, ?_,
        ?_, ?_, ?_, ?_⟩
      · simp [encodeDoc, h2]
      · have := nestingMembers_docMembers fs ds (fun d hd => (h4 d hd).1)
        simp only [Doc.nesting]
        omega
      · rw [Doc.toJson, hj]
      · rw [optMembers_keys fs _ hlen]
        rfl
      · rw [optMembers_keys fs _ hlen]
        exact distinctKeys_nodup _ hS3
      · intro kv hk
        obtain ⟨m1, m2⟩ := optMembers_mem fs _ kv hk
        obtain ⟨d, hd, hdj⟩ := List.mem_map.mp m2
        obtain ⟨hn, g, hg1, hg2⟩ := h4 d hd
        refine ⟨keysAreText_mem _ hS4 kv.1 m1, g, d, ?_, hg2, hdj, hn⟩
        rw [← hdj]
        exact hg1
      · intro kvs hp
        have hz : zero (.struct fs) = .struct (zeroFields fs) := by simp [zero]
        have h3a := h3 (zeroFields fs) (zeroFields_length fs)
        have hm : (ds.map Doc.toJson).map some = ds.map (fun d => some d.toJson) := by
          rw [List.map_map]
          rfl
        rw [hm] at hp
        rw [hz, decodeInto_struct_obj,
          decodeMembers_of_perm fs (zeroFields fs) (ds.map (fun d => some d.toJson)) kvs
            (zeroFields_length fs).symm (by simp [h1]) hS2 hp, h3a]
        rfl
    | _ => simp [hasType] at hc
  | _ => simp [plainShape] at hS

theorem marshal_unmarshal (t : Ty) (v : GoVal) (d : Doc) (S : Ty) (c : GoVal)
    (he : encodeDoc t v = some d) (hn : d.nesting ≤ maxNestingDepth)
    (hd : decodeInto S (zero S) d.toJson = some c) :
    jsonMarshal t v = some (String.mk d.print)
      ∧ parseJSON (String.mk d.print) = some d.toJson
      ∧ jsonUnmarshal S (String.mk d.print) = .ok c := by
  have hp := parseJSON_print d hn
  refine ⟨by simp [jsonMarshal, he], hp, ?_⟩
  simp only [jsonUnmarshal, hp, hd]

theorem reinterpret_generic (S : Ty) (c : GoVal) (kvs0 : List (String × Json))
    (hnd : (kvs0.map Prod.fst).Nodup) (hreg : ∀ kv ∈ kvs0, Regenerable kv)
    (hdec : ∀ kvs : List (String × Json), kvs.Perm kvs0 →
      decodeInto S (zero S) (.obj kvs) = some c) :
    ∃ g, generic (.obj kvs0) = some g ∧ reinterpret S g = some c := by
  obtain ⟨A1, hp, he⟩ := genericMembers_perm kvs0 [] hreg (by simp) hnd (by simp)
  have he1 : genericMembers kvs0 [] = some (A1.map genericMember) := by simpa using he
  have hp1 : A1.Perm kvs0 := by simpa using hp
  have hall : ∀ kv ∈ A1, Regenerable kv := fun kv hk => hreg kv (hp1.mem_iff.mp hk)
  obtain ⟨e1, e2, e3⟩ := encodeEntries_generic A1 hall
  refine ⟨.iface .mapAny (.map (A1.map genericMember)), by simp [generic, he1], ?_⟩
  have henc : encodeDoc .iface (.iface .mapAny (.map (A1.map genericMember)))
      = some (.obj (A1.map regenerateMember)) := by
    rw [encodeDoc, encodeDoc, e1]
    rfl
  have hn : (Doc.obj (A1.map regenerateMember)).nesting ≤ maxNestingDepth := by
    simp only [Doc.nesting, maxNestingDepth]
    omega
  have hj : (Doc.obj (A1.map regenerateMember)).toJson = .obj A1 := by
    rw [Doc.toJson, e2]
  have hd : decodeInto S (zero S) (Doc.obj (A1.map regenerateMember)).toJson = some c := by
    rw [hj]
    exact hdec A1 hp1
  obtain ⟨m1, _, m3⟩ := marshal_unmarshal _ _ _ S c henc hn hd
  simp only [reinterpret, m1, m3]

/-! ## A configuration inside an Identity Provider -/

theorem encodeDoc_provider (id name type : GoString) (cfg : GoVal) (d : Doc)
    (h : encodeDoc .iface cfg = some d) :
    encodeDoc AccessIdentityProvider (.struct [.str id, .str name, .str type, cfg])
      = some (.obj [(goString "id", .str id), (goString "name", .str name),
          (goString "type", .str type), (goString "config", d)]) := by
  have t1 : tagOmitEmpty "id,omitemtpy" = false := by decide
  have t2 : tagOmitEmpty "name" = false := by decide
  have t3 : tagOmitEmpty "type" = false := by decide
  have t4 : tagOmitEmpty "config" = false := by decide
  have k1 : fieldKey ("ID", "id,omitemtpy", Ty.string) = "id" := by decide
  have k2 : fieldKey ("Name", "name", Ty.string) = "name" := by decide
  have k3 : fieldKey ("Type", "type", Ty.string) = "type" := by decide
  have k4 : fieldKey ("Config", "config", Ty.iface) = "config" := by decide
  simp [AccessIdentityProvider, encodeDoc, encodeFields, h, t1, t2, t3, t4, k1, k2, k3, k4]

theorem toJson_provider (id name type : GoString) (d : Doc) :
    (Doc.obj [(goString "id", .str id), (goString "name", .str name),
        (goString "type", .str type), (goString "config", d)]).toJson
      = .obj [("id", .str (String.mk (textOf id)) ((decodeRunes id).any escapedRune)),
          ("name", .str (String.mk (textOf name)) ((decodeRunes name).any escapedRune)),
          ("type", .str (String.mk (textOf type)) ((decodeRunes type).any escapedRune)),
          ("config", d.toJson)] := by
  have k1 : String.mk (textOf (goString "id")) = "id" := by decide
  have k2 : String.mk (textOf (goString "name")) = "name" := by decide
  have k3 : String.mk (textOf (goString "type")) = "type" := by decide
  have k4 : String.mk (textOf (goString "config")) = "config" := by decide
  simp only [Doc.toJson, toJsonMembers, k1, k2, k3, k4]

theorem encode_iface (S : Ty) (c : GoVal) : encodeDoc .iface (.iface S c) = encodeDoc S c := by
  rw [encodeDoc]

theorem selects_provider :
    selectsFrom (Ty.fields AccessIdentityProvider) 0 (Ty.fields AccessIdentityProvider) = true := by
  rfl

theorem decode_provider (id name type : String) (e1 e2 e3 : Bool)
    (kvs0 : List (String × Json)) (g : GoVal) (hg : generic (.obj kvs0) = some g) :
    decodeInto AccessIdentityProvider (zero AccessIdentityProvider)
        (.obj [("id", .str id e1), ("name", .str name e2), ("type", .str type e3),
          ("config", .obj kvs0)])
      = some (.struct [.str (goString id), .str (goString name), .str (goString type), g]) := by
  have h0 : decodeInto AccessIdentityProvider (zero AccessIdentityProvider)
        (.obj [("id", .str id e1), ("name", .str name e2), ("type", .str type e3),
          ("config", .obj kvs0)])
      = (decodeMembers (Ty.fields AccessIdentityProvider)
          [zero .string, zero .string, zero .string, zero .iface]
          [("id", .str id e1), ("name", .str name e2), ("type", .str type e3),
            ("config", .obj kvs0)]).map GoVal.struct := by
    simp only [AccessIdentityProvider, zero, zeroFields, decodeInto_struct_obj, Ty.fields]
  have hperm : List.Perm
      [("id", Json.str id e1), ("name", .str name e2), ("type", .str type e3),
        ("config", .obj kvs0)]
      (optMembers (Ty.fields AccessIdentityProvider)
        [some (.str id e1), some (.str name e2), some (.str type e3), some (.obj kvs0)]) :=
    List.Perm.refl _
  have hi : decodeInto .iface (zero .iface) (.obj kvs0) = some g := by
    rw [decodeInto, hg]
  rw [h0, decodeMembers_of_perm (Ty.fields AccessIdentityProvider) _ _ _
    rfl rfl selects_provider hperm]
  simp [AccessIdentityProvider, Ty.fields, decodeEach_cons, decodeEach_nil, decodeOpt,
    decodeInto, hg]

/-! ## The configuration shapes: round trip through the text -/

/-- C6 (as the claim states it, refuted): the value of `GitHubConfiguration`
whose `ClientID` is the bytes `c l 0xFF i e n t` is a value of the shape; it is
serialised with the escape of U+FFFD in the place of the byte `0xFF`, and deserialising
that text gives a value whose `ClientID` has the three bytes of U+FFFD in that
place, which is not the value that was serialised. -/
theorem C6_counterexample :
    hasType GitHubConfiguration invalidClientID = true
    ∧ jsonMarshal GitHubConfiguration invalidClientID
        = some "\x7b\"client_id\":\"cl\\ufffdient\",\"client_secret\":\"secret\"\x7d"
    ∧ jsonUnmarshal GitHubConfiguration
        "\x7b\"client_id\":\"cl\\ufffdient\",\"client_secret\":\"secret\"\x7d"
        = .ok coercedClientID
    ∧ coercedClientID ≠ invalidClientID := by
  refine ⟨rfl, rfl, rfl, ?_⟩
  intro h
  simp [coercedClientID, invalidClientID] at h

/-- C6 (amended): for every value `c` of each of the seventeen configuration
shapes whose strings are valid UTF-8, `json.Marshal` writes a text that is a
JSON object with exactly the declared keys of the shape, in order;
`json.Unmarshal` of that text into the shape gives `c` back, and so does
`json.Unmarshal` of every text that is an object with the same members in
another order.  When `c` travels as the `config` of an Identity Provider
(whatever its `ID`, `Name` and `Type`), the text written for the provider is
decoded to a provider whose `Config`, read as the shape, is `c`, and whose
`ID`, `Name` and `Type` are those that were sent when they are valid UTF-8. -/
theorem C6_configuration_round_trip_of_valid_strings (S : Ty) (hS : S ∈ configurationShapes)
    (c : GoVal) (hc : hasType S c = true) (hv : validStrings c = true) :
    ∃ (text : String) (kvs0 : List (String × Json)),
      jsonMarshal S c = some text
      ∧ parseJSON text = some (.obj kvs0)
      ∧ kvs0.map Prod.fst = (Ty.fields S).map fieldKey
      ∧ jsonUnmarshal S text = .ok c
      ∧ (∀ (other : String) (kvs : List (String × Json)),
          parseJSON other = some (.obj kvs) → kvs.Perm kvs0 → jsonUnmarshal S other = .ok c)
      ∧ (∀ id name type : GoString, ∃ (sent : String) (p : GoVal),
          jsonMarshal AccessIdentityProvider (.struct [.str id, .str name, .str type, .iface S c])
            = some sent
          ∧ jsonUnmarshal AccessIdentityProvider sent = .ok p
          ∧ reinterpret S (getField AccessIdentityProvider p "Config") = some c
          ∧ (validUTF8 id = true → getField AccessIdentityProvider p "ID" = .str id)
          ∧ (validUTF8 name = true → getField AccessIdentityProvider p "Name" = .str name)
          ∧ (validUTF8 type = true → getField AccessIdentityProvider p "Type" = .str type)) := by
  have hp := shapes_plain S hS
  obtain ⟨d, kvs0, h1, h2, h3, h4, h5, h6, h7⟩ := shape_roundtrip S c hp hc hv
  have hn : d.nesting ≤ maxNestingDepth := by
    simp only [maxNestingDepth]
    omega
  have hd : decodeInto S (zero S) d.toJson = some c := by
    rw [h3]
    exact h7 kvs0 (List.Perm.refl _)
  obtain ⟨m1, m2, m3⟩ := marshal_unmarshal S c d S c h1 hn hd
  refine ⟨String.mk d.print, kvs0, m1, by rw [m2, h3], h4, m3, ?_, ?_⟩
  · intro other kvs ho hperm
    simp only [jsonUnmarshal, ho, h7 kvs hperm]
  · intro id name type
    obtain ⟨g, hg, hr⟩ := reinterpret_generic S c kvs0 h5 h6 h7
    have he := encodeDoc_provider id name type (.iface S c) d ((encode_iface S c).trans h1)
    have hj := toJson_provider id name type d
    rw [h3] at hj
    have hnp : (Doc.obj [(goString "id", .str id), (goString "name", .str name),
        (goString "type", .str type), (goString "config", d)]).nesting ≤ maxNestingDepth := by
      simp only [Doc.nesting, nestingMembers, maxNestingDepth]
      omega
    have hdp := decode_provider (String.mk (textOf id)) (String.mk (textOf name))
      (String.mk (textOf type)) ((decodeRunes id).any escapedRune)
      ((decodeRunes name).any escapedRune) ((decodeRunes type).any escapedRune) kvs0 g hg
    rw [← hj] at hdp
    obtain ⟨p1, _, p3⟩ := marshal_unmarshal _ _ _ AccessIdentityProvider _ he hnp hdp
    refine ⟨_, _, p1, p3, ?_, ?_, ?_, ?_⟩
    · exact hr
    · intro hvalid
      refine Eq.trans (rfl : _ = GoVal.str (goString (String.mk (textOf id)))) ?_
      rw [goString_textOf id hvalid]
    · intro hvalid
      refine Eq.trans (rfl : _ = GoVal.str (goString (String.mk (textOf name)))) ?_
      rw [goString_textOf name hvalid]
    · intro hvalid
      refine Eq.trans (rfl : _ = GoVal.str (goString (String.mk (textOf type)))) ?_
      rw [goString_textOf type hvalid]

set_option maxRecDepth 1000000 in
/-- C6 (amended) at a value of `GenericOIDCConfiguration`: the text with the
members in reverse order is decoded to the value. -/
theorem C6_witness :
    jsonMarshal GenericOIDCConfiguration oidcConfig
      = some "\x7b\"client_id\":\"client\",\"client_secret\":\"secret\",\"auth_url\":\"https://idp.example/auth\",\"token_url\":\"https://idp.example/token\",\"certs_url\":\"https://idp.example/certs\"\x7d"
    ∧ jsonUnmarshal GenericOIDCConfiguration
        "\x7b\"certs_url\":\"https://idp.example/certs\",\"token_url\":\"https://idp.example/token\",\"auth_url\":\"https://idp.example/auth\",\"client_secret\":\"secret\",\"client_id\":\"client\"\x7d"
      = .ok oidcConfig := by
  obtain ⟨text, kvs0, h1, h2, _, _, h5, _⟩ :=
    C6_configuration_round_trip_of_valid_strings GenericOIDCConfiguration
      (by simp [configurationShapes]) oidcConfig rfl rfl
  have e1 : jsonMarshal GenericOIDCConfiguration oidcConfig
      = some "\x7b\"client_id\":\"client\",\"client_secret\":\"secret\",\"auth_url\":\"https://idp.example/auth\",\"token_url\":\"https://idp.example/token\",\"certs_url\":\"https://idp.example/certs\"\x7d" := rfl
  rw [e1] at h1
  cases h1
  have e2 : parseJSON "\x7b\"client_id\":\"client\",\"client_secret\":\"secret\",\"auth_url\":\"https://idp.example/auth\",\"token_url\":\"https://idp.example/token\",\"certs_url\":\"https://idp.example/certs\"\x7d"
      = some (.obj [("client_id", .str "client" false),
          ("client_secret", .str "secret" false),
          ("auth_url", .str "https://idp.example/auth" false),
          ("token_url", .str "https://idp.example/token" false),
          ("certs_url", .str "https://idp.example/certs" false)]) := rfl
  rw [e2] at h2
  cases h2
  refine ⟨rfl, ?_⟩
  exact h5 _ _ rfl (List.reverse_perm [("client_id", Json.str "client" false),
      ("client_secret", .str "secret" false),
      ("auth_url", .str "https://idp.example/auth" false),
      ("token_url", .str "https://idp.example/token" false),
      ("certs_url", .str "https://idp.example/certs" false)])

/-! ## The body of a create request -/

set_option maxRecDepth 1000000 in
/-- C5 (the code at the failing input): the tag of `ID` spells the option
`omitemtpy`, which is not `omitempty`; so a provider whose `ID` is empty is
serialised with the four keys `id`, `name`, `type`, `config`, the first of
them with the empty string as its value. -/
theorem C5_create_body_keeps_empty_id :
    tagOptions "id,omitemtpy" = ["omitemtpy"]
    ∧ tagOmitEmpty "id,omitemtpy" = false
    ∧ tagOmitEmpty "id,omitempty" = true
    ∧ encode .iface (.iface AccessIdentityProvider newProvider)
        = some (.obj [("id", .str "" false), ("name", .str "Generic OIDC" false),
            ("type", .str "oidc" false),
            ("config", .obj [("client_id", .str "client" false),
              ("client_secret", .str "secret" false),
              ("auth_url", .str "https://idp.example/auth" false),
              ("token_url", .str "https://idp.example/token" false),
              ("certs_url", .str "https://idp.example/certs" false)])])
    ∧ jsonMarshal .iface (.iface AccessIdentityProvider newProvider)
        = some "\x7b\"id\":\"\",\"name\":\"Generic OIDC\",\"type\":\"oidc\",\"config\":\x7b\"client_id\":\"client\",\"client_secret\":\"secret\",\"auth_url\":\"https://idp.example/auth\",\"token_url\":\"https://idp.example/token\",\"certs_url\":\"https://idp.example/certs\"\x7d\x7d"
    ∧ (∀ (name type : GoString) (cfg : GoVal) (j : Json), encode .iface cfg = some j →
        (encode .iface (.iface AccessIdentityProvider
            (.struct [.str [], .str name, .str type, cfg]))).map Json.keys
          = some ["id", "name", "type", "config"]) := by
  refine ⟨by decide, by decide, by decide, by rfl, by rfl, ?_⟩
  intro name type cfg j h
  cases hd : encodeDoc .iface cfg with
  | none => simp [encode, hd] at h
  | some d =>
    have he := encodeDoc_provider [] name type cfg d hd
    simp only [encode, encode_iface, he, Option.map_some', toJson_provider]
    rfl

/-! ## The error contract at concrete answers -/

set_option maxRecDepth 1000000 in
/-- C2 at a body that is not JSON, at a failing transport, at a body whose
`config` holds a number that does not fit a `float64`, and at a body whose
`created_on` writes the hour with one digit: a decode error wrapping the syntax
error, a request error wrapping the transport's, a decode error wrapping the
type error, and no error. -/
theorem C2_witness :
    ((fixed (Except.ok "<html>" : Except String String) "request" "decode").SpectrumApp
        "zone" "app" 0).1.2
      = some { cause := .decode .malformed, message := "decode", caller := "(*API).SpectrumApp" }
    ∧ ((fixed (Except.error "timeout" : Except String String) "request"
        "decode").AccessIdentityProviders "account" 0).1.2
      = some { cause := .request "timeout", message := "request",
               caller := "(*API).AccessIdentityProviders" }
    ∧ ((fixed (Except.ok bodyHugeNumber : Except String String) "request"
        "decode").AccessIdentityProviderDetails "account" "p1" 0).1.2
      = some { cause := .decode .mismatch, message := "decode",
               caller := "(*API).AccessIdentityProviderDetails" }
    ∧ ((fixed (Except.ok bodyOneDigitHour : Except String String) "request"
        "decode").SpectrumApp "zone" "a1" 0).1.2 = none := by
  have h1 := (C2_error_iff_transport_or_decode
    (fixed (Except.ok "<html>" : Except String String) "request" "decode")
    "account" "zone" "app" .ifaceNil 0).2.2.2.2.2
  have h2 := (C2_error_iff_transport_or_decode
    (fixed (Except.error "timeout" : Except String String) "request" "decode")
    "account" "zone" "app" .ifaceNil 0).1
  have h3 := (C2_error_iff_transport_or_decode
    (fixed (Except.ok bodyHugeNumber : Except String String) "request" "decode")
    "account" "zone" "p1" .ifaceNil 0).2.1
  have h4 := (C2_error_iff_transport_or_decode
    (fixed (Except.ok bodyOneDigitHour : Except String String) "request" "decode")
    "account" "zone" "a1" .ifaceNil 0).2.2.2.2.2
  unfold ErrorContract at h1 h2 h3 h4
  refine ⟨h1.2.2.1 "<html>" rfl rfl, h2.2.1 "timeout" rfl, ?_, ?_⟩
  · cases hp : parseJSON bodyHugeNumber with
    | none =>
      have : (parseJSON bodyHugeNumber).isSome = true := rfl
      rw [hp] at this
      cases this
    | some j =>
      refine h3.2.2.2.1 bodyHugeNumber j rfl hp ?_
      have hd : ((parseJSON bodyHugeNumber).bind
          (decodeInto AccessIdentityProviderListResponse
            (zero AccessIdentityProviderListResponse))) = none := rfl
      rw [hp] at hd
      exact hd
  · have hn : ¬ (((fixed (Except.ok bodyOneDigitHour : Except String String) "request"
        "decode").SpectrumApp "zone" "a1" 0).1.2.isSome = true) := by
      rw [h4.1]
      intro h
      rcases h with ⟨e, he⟩ | ⟨body, hb, hbad⟩
      · cases he
      · have hb1 : bodyOneDigitHour = body := by
          have := hb
          simp only [fixed] at this
          exact Except.ok.inj this
        subst hb1
        have hok : ((parseJSON bodyOneDigitHour).bind
            (decodeInto SpectrumAppDetailResponse (zero SpectrumAppDetailResponse))).isSome
            = true := rfl
        rcases hbad with hnone | ⟨j, hj, hjd⟩
        · rw [hnone] at hok
          cases hok
        · rw [hj] at hok
          simp only [Option.some_bind, hjd] at hok
          cases hok
    cases hr : ((fixed (Except.ok bodyOneDigitHour : Except String String) "request"
        "decode").SpectrumApp "zone" "a1" 0).1.2 with
    | none => rfl
    | some e =>
      rw [hr] at hn
      exact absurd rfl hn

/-- C8 at a failing transport: `AccessIdentityProviders` and `SpectrumApp` fail
on the same transport error; each returns the error wrapped under the request
message with its own call site, and the two returned errors are different. -/
theorem C8_witness :
    ((fixed (Except.error "timeout" : Except String String) "request"
        "decode").AccessIdentityProviders "account" 0).1.2
      = some { cause := .request "timeout", message := "request",
               caller := "(*API).AccessIdentityProviders" }
    ∧ ((fixed (Except.error "timeout" : Except String String) "request"
        "decode").SpectrumApp "zone" "app" 0).1.2
      = some { cause := .request "timeout", message := "request",
               caller := "(*API).SpectrumApp" }
    ∧ ({ cause := .request "timeout", message := "request",
         caller := "(*API).AccessIdentityProviders" } : WrappedError String)
      ≠ { cause := .request "timeout", message := "request", caller := "(*API).SpectrumApp" } :=
  ⟨rfl, rfl,
    (C8_error_identifies_operation
      (fixed (Except.error "timeout" : Except String String) "request" "decode")
      "account" "zone" "app" .ifaceNil 0).2.2.2.2.2.2
      .accessIdentityProviders .spectrumApp "account" "zone" "app" .ifaceNil 0
      (by decide) _ _ rfl rfl⟩

end Cloudflare
